import Mathlib

/-!
# RHagent frontend: recruitment workflow orchestrator

A shallow embedding of the client-side workflow logic of the `frontend/src`
sources (`api.js`, `components/CandidateSearch.jsx`,
`components/AnalyticsDashboard.jsx`) together with theorems about it.

* JavaScript numbers are modelled as IEEE-754 binary64 values restricted to
  the non-negative range the analytics code works in (`JsNum`).
* React component state is a record with one field per `useState` hook;
  event handlers are functions from the state at the time of the event to
  the next state and the effects they emit; the continuation that runs when
  an awaited request settles is a separate function.
-/

namespace RHagent

/-! ## JavaScript numbers (non-negative binary64) -/

/-- Two to an integer power, as a rational. -/
def pow2 (e : Int) : ℚ :=
  if 0 ≤ e then ((2 ^ e.toNat : Nat) : ℚ) else 1 / ((2 ^ (-e).toNat : Nat) : ℚ)

/-- Floor of the binary logarithm of a positive natural number, by repeated
halving (at most `fuel` times). -/
def log2Fuel : Nat → Nat → Nat
  | 0, _ => 0
  | fuel + 1, n => if n < 2 then 0 else log2Fuel fuel (n / 2) + 1

/-- Floor of the binary logarithm of a positive natural number. -/
def natLog2 (n : Nat) : Nat := log2Fuel n n

/-- Floor of the binary logarithm of a positive rational `n / d`. -/
def ilog2 (q : ℚ) : Int :=
  let k : Int := (natLog2 q.num.toNat : Int) - (natLog2 q.den : Int)
  if pow2 k ≤ q then k else k - 1

/-- Round to the nearest integer, ties to the even neighbour. -/
def roundHalfEven (s : ℚ) : Int :=
  let f := ⌊s⌋
  let r := s - f
  if r < 1 / 2 then f
  else if 1 / 2 < r then f + 1
  else if f % 2 = 0 then f else f + 1

/-- The exponent of the unit in the last place of the binary64 number nearest
to a positive rational: 53 significant bits, not below the subnormal spacing
`2 ^ (-1074)`. -/
def ulpExp (q : ℚ) : Int := max (ilog2 q - 52) (-1074)

/-- The binary64 value nearest to a non-negative rational (round to nearest,
ties to even), before the overflow check. -/
def fl (q : ℚ) : ℚ :=
  if q ≤ 0 then 0 else (roundHalfEven (q / pow2 (ulpExp q)) : ℚ) * pow2 (ulpExp q)

/-- A JavaScript Number restricted to the values that non-negative arithmetic
can produce: `NaN`, `+Infinity`, or a finite non-negative binary64 value. -/
inductive JsNum where
  | nan : JsNum
  | inf : JsNum
  | fin (q : ℚ) : JsNum
  deriving DecidableEq

/-- Round a non-negative real result to a Number: nearest binary64, overflowing
to `Infinity` from `2 ^ 1024` on. -/
def JsNum.round (q : ℚ) : JsNum :=
  if (2 : ℚ) ^ 1024 ≤ fl q then JsNum.inf else JsNum.fin (fl q)

/-- A non-negative integer literal as parsed from JSON. -/
def JsNum.ofNat (n : Nat) : JsNum := JsNum.round n

/-- JavaScript `a + b` on non-negative Numbers. -/
def JsNum.add : JsNum → JsNum → JsNum
  | .nan, _ => .nan
  | _, .nan => .nan
  | .inf, _ => .inf
  | _, .inf => .inf
  | .fin a, .fin b => JsNum.round (a + b)

/-- JavaScript `a / b` on non-negative Numbers. -/
def JsNum.div : JsNum → JsNum → JsNum
  | .nan, _ => .nan
  | _, .nan => .nan
  | .inf, .inf => .nan
  | .inf, .fin _ => .inf
  | .fin _, .inf => .fin 0
  | .fin a, .fin b =>
    if b = 0 then (if a = 0 then .nan else .inf) else JsNum.round (a / b)

/-- JavaScript `a * b` on non-negative Numbers. -/
def JsNum.mul : JsNum → JsNum → JsNum
  | .nan, _ => .nan
  | _, .nan => .nan
  | .inf, .inf => .inf
  | .inf, .fin b => if b = 0 then .nan else .inf
  | .fin a, .inf => if a = 0 then .nan else .inf
  | .fin a, .fin b => JsNum.round (a * b)

/-- JavaScript `Math.round` on non-negative Numbers: the nearest integer, a
tie going to the larger one. -/
def Math.round : JsNum → JsNum
  | .nan => .nan
  | .inf => .inf
  | .fin y => .fin ((⌊y + 1 / 2⌋ : Int) : ℚ)

/-! ## AnalyticsDashboard.jsx -/

/-- One element of `pipelineData`. -/
structure PipelineDatum where
  stage : String
  count : JsNum
  percentage : JsNum
  deriving DecidableEq

/-- The value of `Object.values(countByStage).reduce((a, b) => a + b, 0)`. -/
def stageTotal (countByStage : List (String × Nat)) : JsNum :=
  (countByStage.map fun e => JsNum.ofNat e.2).foldl JsNum.add (JsNum.fin 0)

/-- The array `pipelineData` of `AnalyticsDashboard`, for `countByStage` given
as its `Object.entries` list, each count a non-negative integer. -/
def pipelineData (countByStage : List (String × Nat)) : List PipelineDatum :=
  countByStage.map fun e =>
    { stage := e.1
      count := JsNum.ofNat e.2
      percentage :=
        Math.round (JsNum.mul (JsNum.div (JsNum.ofNat e.2) (stageTotal countByStage))
          (JsNum.ofNat 100)) }

/-- The `percentage` expression of `pipelineData` for one count:
`Math.round((count / Object.values(countByStage).reduce(...)) * 100)`. -/
def stagePercentage (countByStage : List (String × Nat)) (count : Nat) : JsNum :=
  Math.round (JsNum.mul (JsNum.div (JsNum.ofNat count) (stageTotal countByStage))
    (JsNum.ofNat 100))

/-- The value of `totalCandidates`. -/
def totalCandidates (countByStage : List (String × Nat)) : JsNum :=
  stageTotal countByStage

/-! ## JavaScript strings -/

/-- Code points removed by `String.prototype.trim`: the ECMAScript WhiteSpace
and LineTerminator productions. -/
def jsWhiteSpaceCodes : List Nat :=
  [0x09, 0x0A, 0x0B, 0x0C, 0x0D, 0x20, 0xA0, 0x1680, 0x2000, 0x2001, 0x2002, 0x2003,
   0x2004, 0x2005, 0x2006, 0x2007, 0x2008, 0x2009, 0x200A, 0x2028, 0x2029, 0x202F,
   0x205F, 0x3000, 0xFEFF]

/-- Whether `String.prototype.trim` strips the character. -/
def isJsWhiteSpace (c : Char) : Bool := jsWhiteSpaceCodes.contains c.toNat

/-- JavaScript `s.trim()`. -/
def jsTrim (s : String) : String :=
  String.mk ((s.data.dropWhile isJsWhiteSpace).reverse.dropWhile isJsWhiteSpace).reverse

/-- JavaScript `!s` for a string `s`: only the empty string is falsy. -/
def jsNot (s : String) : Bool := s.data.isEmpty

/-- Whether the characters `pat` start the characters `s`. -/
def startsWithChars : List Char → List Char → Bool
  | [], _ => true
  | _ :: _, [] => false
  | p :: ps, c :: cs => p == c && startsWithChars ps cs

/-- Whether the characters `pat` occur contiguously in `s`. -/
def includesChars (pat : List Char) : List Char → Bool
  | [] => pat.isEmpty
  | c :: cs => startsWithChars pat (c :: cs) || includesChars pat cs

/-- JavaScript `s.includes(pat)`. -/
def jsIncludes (s pat : String) : Bool := includesChars pat.data s.data

/-! ## api.js -/

/-- The class `ApiError`: an `Error` with a `status` field. -/
structure ApiError where
  message : String
  status : Nat
  deriving DecidableEq

/-- An exception travelling through the gateway: an `ApiError` instance or any
other `Error`, of which only the message is read. -/
inductive JsError where
  | api (e : ApiError) : JsError
  | other (message : String) : JsError
  deriving DecidableEq

/-- What is read from a `fetch` response: the `ok` flag, the status code, the
`content-type` header, the body text, and the result of parsing the body as
JSON (the parsed value, or the message of the error `response.json()` throws). -/
structure Response (α : Type) where
  ok : Bool
  status : Nat
  contentType : Option String
  text : String
  json : Except String α

/-- The outcome of `await fetch(...)`: a rejection with an error message, or a
response. -/
inductive FetchOutcome (α : Type) where
  | rejected (message : String) : FetchOutcome α
  | responded (r : Response α) : FetchOutcome α

/-- What `handleResponse` returns: the parsed JSON value or the body text. -/
inductive Payload (α : Type) where
  | json (value : α) : Payload α
  | text (body : String) : Payload α
  deriving DecidableEq

/-- The function `handleResponse`. -/
def handleResponse {α : Type} (response : Response α) : Except JsError (Payload α) :=
  if !response.ok then
    .error (.api ⟨"HTTP " ++ toString response.status ++ ": " ++ response.text,
      response.status⟩)
  else
    match response.contentType with
    | some contentType =>
      if jsIncludes contentType "application/json" then
        match response.json with
        | .ok value => .ok (.json value)
        | .error message => .error (.other message)
      else .ok (.text response.text)
    | none => .ok (.text response.text)

/-- The `try`/`catch` wrapper shared by the gateway functions: an `ApiError`
is rethrown, any other error is wrapped with the operation's message and
status `0`. -/
def gatewayCall {α : Type} (failedTo : String) (outcome : FetchOutcome α) :
    Except ApiError (Payload α) :=
  match outcome with
  | .rejected message => .error ⟨failedTo ++ message, 0⟩
  | .responded response =>
    match handleResponse response with
    | .ok data => .ok data
    | .error (.api e) => .error e
    | .error (.other message) => .error ⟨failedTo ++ message, 0⟩

/-- A candidate of a search result page (the fields read by the search
workflow; `index` is the identifier). -/
structure Candidate where
  index : Nat
  firstName : String
  lastName : String
  deriving DecidableEq

/-- The body of a search response as the gateway interface types it: an object
whose `results` field holds a candidate list or is absent (or falsy). -/
structure SearchData where
  results : Option (List Candidate)
  deriving DecidableEq

/-- The function `searchCandidates`, on the outcome of its `fetch`. -/
def searchCandidates (outcome : FetchOutcome SearchData) :
    Except ApiError (Payload SearchData) :=
  gatewayCall "Failed to search candidates: " outcome

/-- The function `saveShortlist`, on the outcome of its `fetch`. -/
def saveShortlist (outcome : FetchOutcome Unit) : Except ApiError (Payload Unit) :=
  gatewayCall "Failed to save shortlist: " outcome

/-! ## CandidateSearch.jsx -/

/-- The state of the `CandidateSearch` component, one field per `useState`. -/
structure SearchState where
  query : String
  results : List Candidate
  selectedCandidates : List Nat
  loading : Bool
  error : String
  shortlistName : String
  showShortlistForm : Bool
  saveMessage : String
  deriving DecidableEq

/-- The initial values of the `useState` hooks. -/
def SearchState.initial : SearchState :=
  { query := "", results := [], selectedCandidates := [], loading := false, error := "",
    shortlistName := "", showShortlistForm := false, saveMessage := "" }

/-- The callbacks the component hands to `setTimeout`. -/
inductive TimerCallback where
  | clearSaveMessage : TimerCallback
  deriving DecidableEq

/-- What a handler emits besides state updates. -/
inductive Effect where
  | searchCandidates (query : String) : Effect
  | saveShortlist (name : String) (candidateIndices : List Nat) : Effect
  | setTimeout (callback : TimerCallback) (delay : Nat) : Effect
  deriving DecidableEq

/-- The expression `data.results || []` for the awaited search payload. -/
def resultsOrEmpty : Payload SearchData → List Candidate
  | .json data => data.results.getD []
  | .text _ => []

/-- The function `handleSearch` up to its `await`: the state it leaves and the
request it issues. -/
def handleSearch (s : SearchState) : SearchState × List Effect :=
  if jsNot (jsTrim s.query) then (s, [])
  else
    ({ s with loading := true, error := "", results := [], selectedCandidates := [] },
      [Effect.searchCandidates s.query])

/-- The rest of `handleSearch`, run on the state current when the awaited
`searchCandidates` call settles. -/
def handleSearchSettled (outcome : Except ApiError (Payload SearchData))
    (s : SearchState) : SearchState :=
  match outcome with
  | .ok data => { s with results := resultsOrEmpty data, loading := false }
  | .error err => { s with error := err.message, loading := false }

/-- The function `toggleCandidateSelection`. -/
def toggleCandidateSelection (candidateIndex : Nat) (s : SearchState) : SearchState :=
  { s with
    selectedCandidates :=
      if s.selectedCandidates.contains candidateIndex then
        s.selectedCandidates.filter fun idx => idx != candidateIndex
      else s.selectedCandidates ++ [candidateIndex] }

/-- The function `handleSaveShortlist` up to its `await`. -/
def handleSaveShortlist (s : SearchState) : SearchState × List Effect :=
  if jsNot (jsTrim s.shortlistName) || s.selectedCandidates.length == 0 then (s, [])
  else (s, [Effect.saveShortlist s.shortlistName s.selectedCandidates])

/-- The confirmation text set by `handleSaveShortlist`. -/
def savedMessage (shortlistName : String) : String :=
  "Shortlist \"" ++ shortlistName ++ "\" saved successfully!"

/-- The rest of `handleSaveShortlist`, run when the awaited `saveShortlist`
call settles; `shortlistName` is the name captured when the handler started. -/
def handleSaveShortlistSettled (shortlistName : String)
    (outcome : Except ApiError (Payload Unit)) (s : SearchState) :
    SearchState × List Effect :=
  match outcome with
  | .ok _ =>
    ({ s with saveMessage := savedMessage shortlistName, shortlistName := "",
              showShortlistForm := false, selectedCandidates := [] },
      [Effect.setTimeout TimerCallback.clearSaveMessage 3000])
  | .error err => ({ s with error := err.message }, [])

/-- Running a timer callback. -/
def TimerCallback.run : TimerCallback → SearchState → SearchState
  | .clearSaveMessage, s => { s with saveMessage := "" }

/-- The `disabled` attribute of the query input. -/
def queryInputDisabled (s : SearchState) : Bool := s.loading

/-- The `disabled` attribute of the search form's submit button. -/
def searchButtonDisabled (s : SearchState) : Bool := s.loading || jsNot (jsTrim s.query)

/-- Whether a candidate card with identifier `candidateIndex` is rendered. -/
def candidateDisplayed (s : SearchState) (candidateIndex : Nat) : Bool :=
  decide (0 < s.results.length) && s.results.any fun result => result.index == candidateIndex

/-- Every selected identifier is the `index` of a candidate of the stored
result list. -/
def selectionDisplayed (s : SearchState) : Prop :=
  ∀ i ∈ s.selectedCandidates, ∃ c ∈ s.results, c.index = i

/-! ## The search session as an event system -/

/-- A search session: the component state with the requests and timers that
are pending. A pending save remembers the name its handler captured. -/
structure Session where
  ui : SearchState
  searches : List String
  saves : List (String × List Nat)
  timers : List (TimerCallback × Nat)
  deriving DecidableEq

/-- A freshly mounted component with nothing pending. -/
def Session.initial : Session :=
  { ui := SearchState.initial, searches := [], saves := [], timers := [] }

/-- Record the requests and timers a handler started. -/
def Session.emit (w : Session) : List Effect → Session
  | [] => w
  | .searchCandidates query :: rest =>
    Session.emit { w with searches := w.searches ++ [query] } rest
  | .saveShortlist name ids :: rest =>
    Session.emit { w with saves := w.saves ++ [(name, ids)] } rest
  | .setTimeout callback delay :: rest =>
    Session.emit { w with timers := w.timers ++ [(callback, delay)] } rest

/-- What can happen to a mounted `CandidateSearch`: user input, and the
settling of the `k`-th pending request or timer. -/
inductive Event where
  | changeQuery (value : String) : Event
  | submitSearch : Event
  | searchSettles (k : Nat) (outcome : FetchOutcome SearchData) : Event
  | clickCandidate (candidateIndex : Nat) : Event
  | showShortlistForm : Event
  | changeShortlistName (value : String) : Event
  | cancelShortlistForm : Event
  | submitShortlist : Event
  | saveSettles (k : Nat) (outcome : FetchOutcome Unit) : Event
  | timerFires (k : Nat) : Event

/-- The effect of an event: the handler bound to it runs on the current
state. -/
def Session.step (w : Session) : Event → Session
  | .changeQuery value => { w with ui := { w.ui with query := value } }
  | .submitSearch =>
    Session.emit { w with ui := (handleSearch w.ui).1 } (handleSearch w.ui).2
  | .searchSettles k outcome =>
    if k < w.searches.length then
      { w with ui := handleSearchSettled (searchCandidates outcome) w.ui
               searches := w.searches.eraseIdx k }
    else w
  | .clickCandidate candidateIndex =>
    { w with ui := toggleCandidateSelection candidateIndex w.ui }
  | .showShortlistForm => { w with ui := { w.ui with showShortlistForm := true } }
  | .changeShortlistName value => { w with ui := { w.ui with shortlistName := value } }
  | .cancelShortlistForm =>
    { w with ui := { w.ui with showShortlistForm := false, shortlistName := "" } }
  | .submitShortlist =>
    Session.emit { w with ui := (handleSaveShortlist w.ui).1 } (handleSaveShortlist w.ui).2
  | .saveSettles k outcome =>
    match w.saves[k]? with
    | some pending =>
      Session.emit
        { w with ui := (handleSaveShortlistSettled pending.1 (saveShortlist outcome) w.ui).1
                 saves := w.saves.eraseIdx k }
        (handleSaveShortlistSettled pending.1 (saveShortlist outcome) w.ui).2
    | none => w
  | .timerFires k =>
    match w.timers[k]? with
    | some pending => { w with ui := pending.1.run w.ui, timers := w.timers.eraseIdx k }
    | none => w

/-- Events that can occur when the handlers are invoked freely: a request or
timer settles only while pending, and only a displayed candidate is clicked. -/
def Session.possible (w : Session) : Event → Bool
  | .searchSettles k _ => decide (k < w.searches.length)
  | .saveSettles k _ => decide (k < w.saves.length)
  | .timerFires k => decide (k < w.timers.length)
  | .clickCandidate candidateIndex => candidateDisplayed w.ui candidateIndex
  | _ => true

/-- Events the rendered form offers: as `possible`, and a control must be
rendered and not `disabled` to be used. -/
def Session.offered (w : Session) : Event → Bool
  | .changeQuery _ => !queryInputDisabled w.ui
  | .submitSearch => !searchButtonDisabled w.ui
  | .showShortlistForm =>
    decide (0 < w.ui.results.length) && !w.ui.showShortlistForm &&
      !(w.ui.selectedCandidates.length == 0)
  | .changeShortlistName _ => decide (0 < w.ui.results.length) && w.ui.showShortlistForm
  | .cancelShortlistForm => decide (0 < w.ui.results.length) && w.ui.showShortlistForm
  | .submitShortlist =>
    decide (0 < w.ui.results.length) && w.ui.showShortlistForm &&
      !jsNot (jsTrim w.ui.shortlistName)
  | e => w.possible e

/-- Run a list of events from a session. -/
def Session.run (w : Session) (events : List Event) : Session :=
  events.foldl Session.step w

/-- Whether every event of the list passes the guard in the state it meets. -/
def Session.admits (guard : Session → Event → Bool) (w : Session) : List Event → Bool
  | [] => true
  | e :: rest => guard w e && Session.admits guard (w.step e) rest

/-- The sessions reachable from the initial one by events passing a guard. -/
inductive Reachable (guard : Session → Event → Bool) : Session → Prop where
  | initial : Reachable guard Session.initial
  | step {w : Session} (e : Event) :
      Reachable guard w → guard w e = true → Reachable guard (w.step e)

/-- The invariant kept by the events the form offers: at most one search is
pending, while one is pending the component is loading with no results and no
selection, and the selection is displayed. -/
def SearchInvariant (w : Session) : Prop :=
  w.searches.length ≤ 1 ∧
  (w.searches ≠ [] →
    w.ui.loading = true ∧ w.ui.results = [] ∧ w.ui.selectedCandidates = []) ∧
  selectionDisplayed w.ui

/-- A successful response with a JSON body that parses to `value`. -/
def jsonResponse {α : Type} (value : α) : FetchOutcome α :=
  .responded
    { ok := true, status := 200, contentType := some "application/json", text := "",
      json := .ok value }

/-! ## Event systems in general -/

/-- Run a list of events with a step function. -/
def runEvents {σ ε : Type} (step : σ → ε → σ) (w : σ) (events : List ε) : σ :=
  events.foldl step w

/-- Whether every event of a list passes the guard in the state it meets. -/
def admitsEvents {σ ε : Type} (step : σ → ε → σ) (guard : σ → ε → Bool) (w : σ) :
    List ε → Bool
  | [] => true
  | e :: rest => guard w e && admitsEvents step guard (step w e) rest

/-- The states reachable from `init` by events passing a guard. -/
inductive ReachableFrom {σ ε : Type} (step : σ → ε → σ) (guard : σ → ε → Bool) (init : σ) :
    σ → Prop where
  | init : ReachableFrom step guard init init
  | step {w : σ} (e : ε) :
      ReachableFrom step guard init w → guard w e = true →
        ReachableFrom step guard init (step w e)

/-! ## api.js: shortlists, email drafting and preview -/

/-- An entry of the shortlist summary list. -/
structure ShortlistSummary where
  name : String
  count : Nat
  candidates : List String
  deriving DecidableEq

/-- A member of a shortlist's roster. -/
structure ShortlistMember where
  name : String
  email : String
  location : String
  stage : String
  availability : String
  deriving DecidableEq

/-- The body of a shortlist-list response: an object whose `shortlists` field
holds the summaries or is absent (or falsy). -/
structure ShortlistsData where
  shortlists : Option (List ShortlistSummary)
  deriving DecidableEq

/-- The body of a shortlist-detail response: an object with the name and a
`candidates` field that holds the roster or is absent (or falsy). -/
structure ShortlistDetail where
  name : String
  candidates : Option (List ShortlistMember)
  deriving DecidableEq

/-- The body of a draft-email response. -/
structure EmailData where
  subject : String
  text : String
  recipientCount : Nat
  deriving DecidableEq

/-- The body of an HTML-preview response; `html` may be absent. -/
structure HtmlData where
  html : Option String
  deriving DecidableEq

/-- The function `getShortlists`, on the outcome of its `fetch`. -/
def getShortlists (outcome : FetchOutcome ShortlistsData) :
    Except ApiError (Payload ShortlistsData) :=
  gatewayCall "Failed to get shortlists: " outcome

/-- The function `getShortlistDetails`, on the outcome of its `fetch`. -/
def getShortlistDetails (outcome : FetchOutcome ShortlistDetail) :
    Except ApiError (Payload ShortlistDetail) :=
  gatewayCall "Failed to get shortlist details: " outcome

/-- The JSON object `draftEmail` posts to `/draft-email`. -/
structure DraftEmailBody where
  recipients : List ShortlistMember
  jobTitle : String
  tone : String
  customSubject : String
  customClosing : String
  deriving DecidableEq

/-- The body built by `draftEmail(recipients, jobTitle, tone, customSubject,
customClosing)`: an argument left out (`none`) takes the default of the
parameter list. -/
def draftEmailBody (recipients : List ShortlistMember)
    (jobTitle tone customSubject customClosing : Option String) : DraftEmailBody :=
  { recipients := recipients
    jobTitle := jobTitle.getD "Software Developer"
    tone := tone.getD "friendly"
    customSubject := customSubject.getD ""
    customClosing := customClosing.getD "" }

/-- The `fetch` calls one invocation of `draftEmail` makes, by their bodies:
the function posts once, whatever its arguments. -/
def draftEmailPosts (recipients : List ShortlistMember)
    (jobTitle tone customSubject customClosing : Option String) : List DraftEmailBody :=
  [draftEmailBody recipients jobTitle tone customSubject customClosing]

/-- The function `draftEmail`, on the outcome of its `fetch`. -/
def draftEmail (outcome : FetchOutcome EmailData) : Except ApiError (Payload EmailData) :=
  gatewayCall "Failed to draft email: " outcome

/-- The function `getEmailHtmlPreview`, on the outcome of its `fetch`. -/
def getEmailHtmlPreview (outcome : FetchOutcome HtmlData) :
    Except ApiError (Payload HtmlData) :=
  gatewayCall "Failed to get HTML preview: " outcome

/-- A response with a non-success status and the given body text. -/
def failedResponse {α : Type} (status : Nat) (body : String) : FetchOutcome α :=
  .responded
    { ok := false, status := status, contentType := none, text := body,
      json := .error "Unexpected end of JSON input" }

/-! ## EmailDraft.jsx -/

namespace EmailDraft

/-- The state of the `EmailDraft` component, one field per `useState`; `email`
holds what `draftEmail` resolved with, or `null`. -/
structure State where
  shortlists : List ShortlistSummary
  selectedShortlist : String
  recipients : List ShortlistMember
  jobTitle : String
  tone : String
  customSubject : String
  customClosing : String
  email : Option (Payload EmailData)
  loading : Bool
  error : String
  showHtmlPreview : Bool
  deriving DecidableEq

/-- The initial values of the `useState` hooks. -/
def State.initial : State :=
  { shortlists := [], selectedShortlist := "", recipients := [],
    jobTitle := "Software Developer", tone := "friendly", customSubject := "",
    customClosing := "", email := none, loading := false, error := "",
    showHtmlPreview := false }

/-- What a handler of `EmailDraft` emits besides state updates: gateway calls
with their arguments, and the preview window it writes. -/
inductive Effect where
  | getShortlists : Effect
  | getShortlistDetails (name : String) : Effect
  | draftEmail (recipients : List ShortlistMember)
      (jobTitle tone customSubject customClosing : String) : Effect
  | getEmailHtmlPreview (subject text : Option String) : Effect
  | openWindow (html : Option String) : Effect
  deriving DecidableEq

/-- The expression `!email`: `null` and the empty string are falsy, an object
is truthy. -/
def notEmail : Option (Payload EmailData) → Bool
  | none => true
  | some (.text body) => jsNot body
  | some (.json _) => false

/-- The expression `email.subject`. -/
def emailSubject : Payload EmailData → Option String
  | .json data => some data.subject
  | .text _ => none

/-- The expression `email.text`. -/
def emailText : Payload EmailData → Option String
  | .json data => some data.text
  | .text _ => none

/-- The expression `data.shortlists || []`. -/
def shortlistsOrEmpty : Payload ShortlistsData → List ShortlistSummary
  | .json data => data.shortlists.getD []
  | .text _ => []

/-- The expression `details.candidates || []`. -/
def candidatesOrEmpty : Payload ShortlistDetail → List ShortlistMember
  | .json details => details.candidates.getD []
  | .text _ => []

/-- The function `loadShortlists` up to its `await`. -/
def loadShortlists (s : State) : State × List Effect := (s, [Effect.getShortlists])

/-- The rest of `loadShortlists`, run when `getShortlists` settles. -/
def loadShortlistsSettled (outcome : Except ApiError (Payload ShortlistsData)) (s : State) :
    State :=
  match outcome with
  | .ok data => { s with shortlists := shortlistsOrEmpty data }
  | .error err => { s with error := err.message }

/-- The function `handleShortlistChange` up to its `await` (or to its early
`return` for an empty name). -/
def handleShortlistChange (shortlistName : String) (s : State) : State × List Effect :=
  if jsNot shortlistName then
    ({ s with selectedShortlist := shortlistName, email := none, customSubject := "",
              customClosing := "", recipients := [] }, [])
  else
    ({ s with selectedShortlist := shortlistName, email := none, customSubject := "",
              customClosing := "" }, [Effect.getShortlistDetails shortlistName])

/-- The rest of `handleShortlistChange`, run when `getShortlistDetails`
settles. -/
def handleShortlistChangeSettled (outcome : Except ApiError (Payload ShortlistDetail))
    (s : State) : State :=
  match outcome with
  | .ok details => { s with recipients := candidatesOrEmpty details }
  | .error err => { s with error := err.message, recipients := [] }

/-- The function `handleDraftEmail` up to its `await` (or to its early
`return`). -/
def handleDraftEmail (s : State) : State × List Effect :=
  if s.recipients.length == 0 then
    ({ s with error := "Please select a shortlist with recipients" }, [])
  else
    ({ s with loading := true, error := "" },
      [Effect.draftEmail s.recipients s.jobTitle s.tone s.customSubject s.customClosing])

/-- The rest of `handleDraftEmail`, run when `draftEmail` settles. -/
def handleDraftEmailSettled (outcome : Except ApiError (Payload EmailData)) (s : State) :
    State :=
  match outcome with
  | .ok emailData => { s with email := some emailData, loading := false }
  | .error err => { s with error := err.message, loading := false }

/-- The function `handleUpdateEmail` up to its `await` (or to its early
`return`). -/
def handleUpdateEmail (s : State) : State × List Effect :=
  if notEmail s.email then (s, [])
  else
    ({ s with loading := true, error := "" },
      [Effect.draftEmail s.recipients s.jobTitle s.tone s.customSubject s.customClosing])

/-- The rest of `handleUpdateEmail`, run when `draftEmail` settles. -/
def handleUpdateEmailSettled (outcome : Except ApiError (Payload EmailData)) (s : State) :
    State :=
  match outcome with
  | .ok emailData => { s with email := some emailData, loading := false }
  | .error err => { s with error := err.message, loading := false }

/-- The function `handleShowHtmlPreview` up to its `await` (or to its early
`return`). -/
def handleShowHtmlPreview (s : State) : State × List Effect :=
  match s.email with
  | some email =>
    if notEmail (some email) then (s, [])
    else (s, [Effect.getEmailHtmlPreview (emailSubject email) (emailText email)])
  | none => (s, [])

/-- The expression `htmlData.html`. -/
def htmlOf : Payload HtmlData → Option String
  | .json data => data.html
  | .text _ => none

/-- The rest of `handleShowHtmlPreview`, run when `getEmailHtmlPreview`
settles; `popup` is the outcome of opening and writing the new window, which
throws (with the given message) when `window.open` returns `null`. -/
def handleShowHtmlPreviewSettled (outcome : Except ApiError (Payload HtmlData))
    (popup : Except String Unit) (s : State) : State × List Effect :=
  match outcome with
  | .ok htmlData =>
    match popup with
    | .ok _ => (s, [Effect.openWindow (htmlOf htmlData)])
    | .error message => ({ s with error := message }, [])
  | .error err => ({ s with error := err.message }, [])

/-- The mounted component with the calls that are pending: the number of
`getShortlists` calls, the names of the detail calls, the bodies of the draft
calls, the arguments of the preview calls, and the windows written so far. -/
structure Session where
  ui : State
  lists : Nat
  details : List String
  drafts : List DraftEmailBody
  previews : List (Option String × Option String)
  windows : List (Option String)
  deriving DecidableEq

/-- Record the calls a handler started. -/
def Session.emit (w : Session) : List Effect → Session
  | [] => w
  | .getShortlists :: rest => Session.emit { w with lists := w.lists + 1 } rest
  | .getShortlistDetails name :: rest =>
    Session.emit { w with details := w.details ++ [name] } rest
  | .draftEmail recipients jobTitle tone customSubject customClosing :: rest =>
    Session.emit
      { w with
        drafts := w.drafts ++
          [draftEmailBody recipients (some jobTitle) (some tone) (some customSubject)
            (some customClosing)] } rest
  | .getEmailHtmlPreview subject text :: rest =>
    Session.emit { w with previews := w.previews ++ [(subject, text)] } rest
  | .openWindow html :: rest => Session.emit { w with windows := w.windows ++ [html] } rest

/-- The component after mounting: the `useEffect` has called `loadShortlists`. -/
def Session.initial : Session :=
  Session.emit
    { ui := (loadShortlists State.initial).1, lists := 0, details := [], drafts := [],
      previews := [], windows := [] }
    (loadShortlists State.initial).2

/-- What can happen to a mounted `EmailDraft`: user input, and the settling of
a pending call. -/
inductive Event where
  | changeShortlist (name : String) : Event
  | changeJobTitle (value : String) : Event
  | changeTone (value : String) : Event
  | changeCustomSubject (value : String) : Event
  | changeCustomClosing (value : String) : Event
  | clickDraft : Event
  | clickUpdate : Event
  | clickViewHtml : Event
  | listSettles (outcome : FetchOutcome ShortlistsData) : Event
  | detailsSettle (k : Nat) (outcome : FetchOutcome ShortlistDetail) : Event
  | draftSettles (k : Nat) (outcome : FetchOutcome EmailData) : Event
  | previewSettles (k : Nat) (outcome : FetchOutcome HtmlData)
      (popup : Except String Unit) : Event

/-- The effect of an event: the handler bound to it runs on the current
state. Both draft handlers continue in the same way, so a settling draft runs
`handleDraftEmailSettled`. -/
def Session.step (w : Session) : Event → Session
  | .changeShortlist name =>
    Session.emit { w with ui := (handleShortlistChange name w.ui).1 }
      (handleShortlistChange name w.ui).2
  | .changeJobTitle value => { w with ui := { w.ui with jobTitle := value } }
  | .changeTone value => { w with ui := { w.ui with tone := value } }
  | .changeCustomSubject value => { w with ui := { w.ui with customSubject := value } }
  | .changeCustomClosing value => { w with ui := { w.ui with customClosing := value } }
  | .clickDraft =>
    Session.emit { w with ui := (handleDraftEmail w.ui).1 } (handleDraftEmail w.ui).2
  | .clickUpdate =>
    Session.emit { w with ui := (handleUpdateEmail w.ui).1 } (handleUpdateEmail w.ui).2
  | .clickViewHtml =>
    Session.emit { w with ui := (handleShowHtmlPreview w.ui).1 }
      (handleShowHtmlPreview w.ui).2
  | .listSettles outcome =>
    if 0 < w.lists then
      { w with ui := loadShortlistsSettled (getShortlists outcome) w.ui
               lists := w.lists - 1 }
    else w
  | .detailsSettle k outcome =>
    if k < w.details.length then
      { w with ui := handleShortlistChangeSettled (getShortlistDetails outcome) w.ui
               details := w.details.eraseIdx k }
    else w
  | .draftSettles k outcome =>
    if k < w.drafts.length then
      { w with ui := handleDraftEmailSettled (draftEmail outcome) w.ui
               drafts := w.drafts.eraseIdx k }
    else w
  | .previewSettles k outcome popup =>
    if k < w.previews.length then
      Session.emit
        { w with ui := (handleShowHtmlPreviewSettled (getEmailHtmlPreview outcome) popup
                         w.ui).1
                 previews := w.previews.eraseIdx k }
        (handleShowHtmlPreviewSettled (getEmailHtmlPreview outcome) popup w.ui).2
    else w

/-- Events that can occur when the handlers are invoked freely: a call settles
only while pending. -/
def Session.possible (w : Session) : Event → Bool
  | .listSettles _ => decide (0 < w.lists)
  | .detailsSettle k _ => decide (k < w.details.length)
  | .draftSettles k _ => decide (k < w.drafts.length)
  | .previewSettles k _ _ => decide (k < w.previews.length)
  | _ => true

/-- Events the rendered component offers: as `possible`, and a control must be
rendered, not `disabled`, and a `select` can only take the value of one of its
options. -/
def Session.offered (w : Session) : Event → Bool
  | .changeShortlist name =>
    name == "" || w.ui.shortlists.any fun shortlist => shortlist.name == name
  | .changeTone value => value == "friendly" || value == "professional"
  | .changeCustomSubject _ => !notEmail w.ui.email
  | .changeCustomClosing _ => !notEmail w.ui.email
  | .clickDraft => !(w.ui.loading || w.ui.recipients.length == 0)
  | .clickUpdate => !notEmail w.ui.email && !w.ui.loading
  | .clickViewHtml => !notEmail w.ui.email
  | e => w.possible e

end EmailDraft

/-! ## ShortlistManager.jsx -/

namespace ShortlistManager

/-- The state of the `ShortlistManager` component, one field per `useState`. -/
structure State where
  shortlists : List ShortlistSummary
  selectedShortlist : Option String
  shortlistDetails : Option (Payload ShortlistDetail)
  loading : Bool
  error : String
  deriving DecidableEq

/-- The initial values of the `useState` hooks. -/
def State.initial : State :=
  { shortlists := [], selectedShortlist := none, shortlistDetails := none,
    loading := false, error := "" }

/-- The gateway calls a handler of `ShortlistManager` starts. -/
inductive Effect where
  | getShortlists : Effect
  | getShortlistDetails (name : String) : Effect
  deriving DecidableEq

/-- The expression `data.shortlists || []`. -/
def shortlistsOrEmpty : Payload ShortlistsData → List ShortlistSummary
  | .json data => data.shortlists.getD []
  | .text _ => []

/-- The function `loadShortlists` up to its `await`. -/
def loadShortlists (s : State) : State × List Effect :=
  ({ s with loading := true, error := "" }, [Effect.getShortlists])

/-- The rest of `loadShortlists`, run when `getShortlists` settles. -/
def loadShortlistsSettled (outcome : Except ApiError (Payload ShortlistsData)) (s : State) :
    State :=
  match outcome with
  | .ok data => { s with shortlists := shortlistsOrEmpty data, loading := false }
  | .error err => { s with error := err.message, loading := false }

/-- The function `handleShortlistClick` up to its `await`. -/
def handleShortlistClick (shortlistName : String) (s : State) : State × List Effect :=
  ({ s with selectedShortlist := some shortlistName, loading := true, error := "" },
    [Effect.getShortlistDetails shortlistName])

/-- The rest of `handleShortlistClick`, run when `getShortlistDetails`
settles. -/
def handleShortlistClickSettled (outcome : Except ApiError (Payload ShortlistDetail))
    (s : State) : State :=
  match outcome with
  | .ok details => { s with shortlistDetails := some details, loading := false }
  | .error err => { s with error := err.message, shortlistDetails := none, loading := false }

/-- The function `handleBackToList`. -/
def handleBackToList (s : State) : State :=
  { s with selectedShortlist := none, shortlistDetails := none }

/-- The condition `loading && !shortlists.length` of the early `return` that
renders only the spinner. -/
def spinnerOnly (s : State) : Bool := s.loading && s.shortlists.length == 0

/-- The condition `selectedShortlist && shortlistDetails` choosing the details
view over the list view. -/
def detailsDisplayed (s : State) : Bool :=
  (match s.selectedShortlist with
    | some name => !jsNot name
    | none => false) &&
  (match s.shortlistDetails with
    | some (.json _) => true
    | some (.text body) => !jsNot body
    | none => false)

/-- Whether rendering the component in a state completes. The spinner of the
early `return` and the list view read nothing of the stored detail. The details
view evaluates `shortlistDetails.candidates.map(...)` (l.97), which throws a
`TypeError` when the stored detail has no `candidates` array: a detail object
without the field, or a non-empty text body. Summaries and roster members are
typed records, so `shortlist.candidates.join` and `candidate.skills.map` have
their arrays. -/
def renders (s : State) : Bool :=
  if spinnerOnly s then true
  else if detailsDisplayed s then
    match s.shortlistDetails with
    | some (.json detail) => detail.candidates.isSome
    | _ => false
  else true

/-- The component with the calls that are pending: the number of
`getShortlists` calls and the names of the detail calls. `mounted` turns false
when a render throws: no error boundary surrounds the component, so it is
unmounted. -/
structure Session where
  ui : State
  mounted : Bool
  lists : Nat
  details : List String
  deriving DecidableEq

/-- Record the calls a handler started. -/
def Session.emit (w : Session) : List Effect → Session
  | [] => w
  | .getShortlists :: rest => Session.emit { w with lists := w.lists + 1 } rest
  | .getShortlistDetails name :: rest =>
    Session.emit { w with details := w.details ++ [name] } rest

/-- The component after mounting: the `useEffect` has called `loadShortlists`. -/
def Session.initial : Session :=
  Session.emit
    { ui := (loadShortlists State.initial).1, mounted := true, lists := 0, details := [] }
    (loadShortlists State.initial).2

/-- What can happen to a mounted `ShortlistManager`. -/
inductive Event where
  | clickRefresh : Event
  | clickShortlist (name : String) : Event
  | clickBack : Event
  | listSettles (outcome : FetchOutcome ShortlistsData) : Event
  | detailsSettle (k : Nat) (outcome : FetchOutcome ShortlistDetail) : Event

/-- The handler bound to an event, run on the current state. -/
def Session.handle (w : Session) : Event → Session
  | .clickRefresh =>
    Session.emit { w with ui := (loadShortlists w.ui).1 } (loadShortlists w.ui).2
  | .clickShortlist name =>
    Session.emit { w with ui := (handleShortlistClick name w.ui).1 }
      (handleShortlistClick name w.ui).2
  | .clickBack => { w with ui := handleBackToList w.ui }
  | .listSettles outcome =>
    if 0 < w.lists then
      { w with ui := loadShortlistsSettled (getShortlists outcome) w.ui
               lists := w.lists - 1 }
    else w
  | .detailsSettle k outcome =>
    if k < w.details.length then
      { w with ui := handleShortlistClickSettled (getShortlistDetails outcome) w.ui
               details := w.details.eraseIdx k }
    else w

/-- The effect of an event. On the mounted component the handler runs and the
component renders the new state; a render that throws unmounts it. Once
unmounted nothing is rendered and the state updates of a call that settles late
are dropped. -/
def Session.step (w : Session) (e : Event) : Session :=
  if w.mounted then { w.handle e with mounted := renders (w.handle e).ui } else w

/-- Events that can occur when the handlers are invoked freely: a call settles
only while pending. -/
def Session.possible (w : Session) : Event → Bool
  | .listSettles _ => decide (0 < w.lists)
  | .detailsSettle k _ => decide (k < w.details.length)
  | _ => true

/-- Events the rendered component offers: as `possible`, and a control must be
rendered, by a mounted component, and not `disabled`. The cards of the list
view carry no `disabled` attribute. -/
def Session.offered (w : Session) : Event → Bool
  | .clickRefresh =>
    w.mounted && !spinnerOnly w.ui && !detailsDisplayed w.ui &&
      (w.ui.shortlists.length == 0 || !w.ui.loading)
  | .clickShortlist name =>
    w.mounted && !spinnerOnly w.ui && !detailsDisplayed w.ui &&
      w.ui.shortlists.any fun shortlist => shortlist.name == name
  | .clickBack => w.mounted && !spinnerOnly w.ui && detailsDisplayed w.ui
  | e => w.possible e

end ShortlistManager

/-! ## api.js: remaining gateway functions and request paths -/

/-- The constant `API_BASE_URL`. -/
def API_BASE_URL : String := "http://localhost:8000/api"

/-- A `fetch` response keeps its `ok` flag in step with its status: `ok` is
true exactly for the statuses 200 to 299. -/
def Response.consistent {α : Type} (response : Response α) : Prop :=
  response.ok = decide (200 ≤ response.status ∧ response.status ≤ 299)

/-- Whether the `content-type` header is present and contains
`application/json`: the condition
`contentType && contentType.includes('application/json')`. -/
def Response.declaresJson {α : Type} (response : Response α) : Bool :=
  match response.contentType with
  | some contentType => jsIncludes contentType "application/json"
  | none => false

/-- A job as returned by the jobs endpoints. -/
structure Job where
  id : Nat
  title : String
  location : String
  deriving DecidableEq

/-- One entry of the skills-shortage list. -/
structure ShortageEntry where
  skill : String
  demandCount : Int
  supplyCount : Int
  gap : Int
  deriving DecidableEq

/-- One entry of the surplus-skills list. -/
structure SurplusEntry where
  skill : String
  demandCount : Int
  supplyCount : Int
  surplus : Int
  deriving DecidableEq

/-- The object `skillsGapAnalysis`; either list may be absent. -/
structure SkillsGapAnalysis where
  skillsShortage : Option (List ShortageEntry)
  surplusSkills : Option (List SurplusEntry)
  deriving DecidableEq

/-- The object `jobStats`; either list may be absent. -/
structure JobStats where
  totalJobs : Nat
  skillsInDemand : Option (List (String × Nat))
  locationDemand : Option (List (String × Nat))
  deriving DecidableEq

/-- An analytics snapshot: the body of an analytics response. `countByStage`
is given by its `Object.entries` list; every field may be absent. -/
structure Analytics where
  countByStage : Option (List (String × Nat))
  topSkills : Option (List (String × Nat))
  jobStats : Option JobStats
  skillsGapAnalysis : Option SkillsGapAnalysis
  deriving DecidableEq

/-- The function `getAnalytics`, on the outcome of its `fetch`. -/
def getAnalytics (outcome : FetchOutcome Analytics) : Except ApiError (Payload Analytics) :=
  gatewayCall "Failed to get analytics: " outcome

/-- The function `getJobs`, on the outcome of its `fetch`. -/
def getJobs (outcome : FetchOutcome (List Job)) : Except ApiError (Payload (List Job)) :=
  gatewayCall "Failed to get jobs: " outcome

/-- The function `getJob`, on the outcome of its `fetch`. -/
def getJob (outcome : FetchOutcome Job) : Except ApiError (Payload Job) :=
  gatewayCall "Failed to get job: " outcome

/-! ## api.js: the escaped path of `getShortlistDetails` -/

/-- A UTF-16 code unit. -/
abbrev CodeUnit := Fin 65536

/-- A JavaScript string value as the built-ins see it: its sequence of UTF-16
code units, in which a surrogate need not be paired. -/
abbrev JsString := List CodeUnit

/-- The code unit with a given value, modulo `2^16`. -/
def codeUnit (n : Nat) : CodeUnit := ⟨n % 65536, Nat.mod_lt _ (by decide)⟩

/-- Whether a code unit is a leading (high) surrogate. -/
def isLeadSurrogate (u : CodeUnit) : Bool := 0xD800 ≤ u.val && u.val ≤ 0xDBFF

/-- Whether a code unit is a trailing (low) surrogate. -/
def isTrailSurrogate (u : CodeUnit) : Bool := 0xDC00 ≤ u.val && u.val ≤ 0xDFFF

/-- The code point a surrogate pair stands for. -/
def utf16SurrogatePairToCodePoint (lead trail : CodeUnit) : Nat :=
  (lead.val - 0xD800) * 0x400 + (trail.val - 0xDC00) + 0x10000

/-- The code units of a code point: itself below `0x10000`, a surrogate pair
from there on. -/
def utf16EncodeCodePoint (n : Nat) : JsString :=
  if n < 0x10000 then [codeUnit n]
  else [codeUnit (0xD800 + (n - 0x10000) / 0x400), codeUnit (0xDC00 + (n - 0x10000) % 0x400)]

/-- The JavaScript string with the characters of a Lean string. -/
def utf16 (s : String) : JsString := (s.data.map fun c => utf16EncodeCodePoint c.toNat).flatten

/-- Whether a string is free of unpaired surrogates, read from the left;
`pending` tells that the unit before was a leading surrogate still waiting for
its trailing one. -/
def wellFormedFrom : Bool → JsString → Bool
  | false, [] => true
  | true, [] => false
  | false, u :: rest =>
    if isLeadSurrogate u then wellFormedFrom true rest
    else if isTrailSurrogate u then false
    else wellFormedFrom false rest
  | true, u :: rest => if isTrailSurrogate u then wellFormedFrom false rest else false

/-- The built-in `String.prototype.isWellFormed`: no unpaired surrogate. -/
def isWellFormed (s : JsString) : Bool := wellFormedFrom false s

/-- Code points that `encodeURIComponent` leaves as they are: ASCII letters and
digits and the marks `- _ . ! ~ * ' ( )`. -/
def uriUnreserved (n : Nat) : Bool :=
  (0x41 ≤ n && n ≤ 0x5A) || (0x61 ≤ n && n ≤ 0x7A) || (0x30 ≤ n && n ≤ 0x39) ||
    [0x2D, 0x5F, 0x2E, 0x21, 0x7E, 0x2A, 0x27, 0x28, 0x29].contains n

/-- The upper-case hexadecimal digit of a value below 16. -/
def hexDigit (d : Nat) : CodeUnit := if d < 10 then codeUnit (0x30 + d) else codeUnit (0x37 + d)

/-- The UTF-8 octets of a code point. -/
def utf8Bytes (n : Nat) : List Nat :=
  if n < 0x80 then [n]
  else if n < 0x800 then [0xC0 + n / 64, 0x80 + n % 64]
  else if n < 0x10000 then [0xE0 + n / 4096, 0x80 + n / 64 % 64, 0x80 + n % 64]
  else [0xF0 + n / 262144, 0x80 + n / 4096 % 64, 0x80 + n / 64 % 64, 0x80 + n % 64]

/-- The escape `%XY` of an octet. -/
def percentEscape (b : Nat) : JsString := [0x25, hexDigit (b / 16), hexDigit (b % 16)]

/-- The escapes of the UTF-8 octets of a code point. -/
def escapeCodePoint (n : Nat) : JsString := ((utf8Bytes n).map percentEscape).flatten

/-- The loop of `encodeURIComponent`, read from the left; `pending` holds a
leading surrogate whose trailing unit is still to come. An unreserved unit is
kept, any other code point becomes the escapes of its UTF-8 octets, and an
unpaired surrogate gives `none`. -/
def encodeFrom : Option CodeUnit → JsString → Option JsString
  | none, [] => some []
  | some _, [] => none
  | none, u :: rest =>
    if uriUnreserved u.val then (encodeFrom none rest).map fun r => u :: r
    else if isLeadSurrogate u then encodeFrom (some u) rest
    else if isTrailSurrogate u then none
    else (encodeFrom none rest).map fun r => escapeCodePoint u.val ++ r
  | some lead, u :: rest =>
    if isTrailSurrogate u then
      (encodeFrom none rest).map fun r =>
        escapeCodePoint (utf16SurrogatePairToCodePoint lead u) ++ r
    else none

/-- The built-in `encodeURIComponent`; `none` where the built-in throws a
`URIError`, which it does on a string with an unpaired surrogate. -/
def encodeURIComponent (s : JsString) : Option JsString := encodeFrom none s

/-- The value of a hexadecimal digit, of either case. -/
def hexValue (c : CodeUnit) : Option Nat :=
  let n := c.val
  if 0x30 ≤ n ∧ n ≤ 0x39 then some (n - 0x30)
  else if 0x41 ≤ n ∧ n ≤ 0x46 then some (n - 0x37)
  else if 0x61 ≤ n ∧ n ≤ 0x66 then some (n - 0x57)
  else none

/-- A piece of an escaped string: a code unit standing for itself, or the
octet of an escape. -/
inductive UriToken where
  | lit (c : CodeUnit) : UriToken
  | byte (b : Nat) : UriToken
  deriving DecidableEq

/-- Split an escaped string into literal units and escaped octets; `none`
when a `%` is not followed by two hexadecimal digits. -/
def percentDecode : JsString → Option (List UriToken)
  | [] => some []
  | c :: rest =>
    if c = 0x25 then
      match rest with
      | h :: l :: rest' =>
        match hexValue h, hexValue l, percentDecode rest' with
        | some hi, some lo, some tokens => some (UriToken.byte (16 * hi + lo) :: tokens)
        | _, _, _ => none
      | _ => none
    else
      match percentDecode rest with
      | some tokens => some (UriToken.lit c :: tokens)
      | none => none

/-- Whether an octet is a UTF-8 continuation octet. -/
def isContinuation (b : Nat) : Bool := 0x80 ≤ b && b < 0xC0

/-- Decode the escaped octets as UTF-8, one piece at a time. `pending` is
`none` between code points, and inside a multi-octet form it holds the number
of continuation octets still expected, the bits read so far and the least code
point the form may stand for. The result is `none` when the octets are not the
UTF-8 encoding of code points (a stray or missing continuation octet, an
overlong form, a surrogate, a value above `0x10FFFF`). -/
def utf8DecodeFrom : Option (Nat × Nat × Nat) → List UriToken → Option JsString
  | none, [] => some []
  | some _, [] => none
  | none, .lit c :: rest => (utf8DecodeFrom none rest).map fun cs => c :: cs
  | some _, .lit _ :: _ => none
  | none, .byte b :: rest =>
    if b < 0x80 then (utf8DecodeFrom none rest).map fun cs => codeUnit b :: cs
    else if 0xC0 ≤ b ∧ b < 0xE0 then utf8DecodeFrom (some (1, b - 0xC0, 0x80)) rest
    else if 0xE0 ≤ b ∧ b < 0xF0 then utf8DecodeFrom (some (2, b - 0xE0, 0x800)) rest
    else if 0xF0 ≤ b ∧ b < 0xF8 then utf8DecodeFrom (some (3, b - 0xF0, 0x10000)) rest
    else none
  | some (k, acc, lower), .byte b :: rest =>
    if isContinuation b then
      if k = 1 then
        if lower ≤ acc * 64 + (b - 0x80) ∧ acc * 64 + (b - 0x80) < 0x110000 ∧
            ¬(0xD800 ≤ acc * 64 + (b - 0x80) ∧ acc * 64 + (b - 0x80) ≤ 0xDFFF) then
          (utf8DecodeFrom none rest).map fun cs =>
            utf16EncodeCodePoint (acc * 64 + (b - 0x80)) ++ cs
        else none
      else utf8DecodeFrom (some (k - 1, acc * 64 + (b - 0x80), lower)) rest
    else none

/-- Decode the escaped octets of a whole string as UTF-8. -/
def utf8Decode (tokens : List UriToken) : Option JsString := utf8DecodeFrom none tokens

/-- The built-in `decodeURIComponent`: `none` where the built-in throws a
`URIError`. -/
def decodeURIComponent (s : JsString) : Option JsString :=
  match percentDecode s with
  | some tokens => utf8Decode tokens
  | none => none

/-- The URL `getShortlistDetails(name)` passes to `fetch`:
`API_BASE_URL/shortlist/` followed by `encodeURIComponent(name)`. It is `none`
when `encodeURIComponent` throws: the template is evaluated inside the `try`,
so nothing is fetched and the `catch` wraps the `URIError` like a rejected
`fetch`. -/
def getShortlistDetailsUrl (name : JsString) : Option JsString :=
  (encodeURIComponent name).map fun segment => utf16 (API_BASE_URL ++ "/shortlist/") ++ segment

/-- The function `getShortlistDetails` from its argument on, with the URLs it
hands to `fetch`. The URL is built inside the `try`: when `encodeURIComponent`
throws, `fetch` is not called and the `catch` receives the `URIError`, whose
message is `uriError`, as it receives the error of a rejected `fetch`. Otherwise
`fetch` is called with the URL, and `network` gives what becomes of the
request. -/
def getShortlistDetailsCall (uriError : String)
    (network : JsString → FetchOutcome ShortlistDetail) (name : JsString) :
    List JsString × Except ApiError (Payload ShortlistDetail) :=
  match getShortlistDetailsUrl name with
  | none => ([], getShortlistDetails (.rejected uriError))
  | some url => ([url], getShortlistDetails (network url))

/-- Code units the URL parser copies into a path segment as they are, among
which are all those `encodeURIComponent` writes: the unreserved characters and
`%`. -/
def urlPathPlain (u : CodeUnit) : Bool := uriUnreserved u.val || u == 0x25

/-- A single-dot path segment of the URL parser: `.` or `%2e`, in either
case. -/
def isSingleDot (buffer : JsString) : Bool :=
  [utf16 ".", utf16 "%2e", utf16 "%2E"].contains buffer

/-- A double-dot path segment of the URL parser: `..`, with either dot also
written `%2e`, in either case. -/
def isDoubleDot (buffer : JsString) : Bool :=
  [utf16 "..", utf16 ".%2e", utf16 ".%2E", utf16 "%2e.", utf16 "%2E.", utf16 "%2e%2e",
    utf16 "%2e%2E", utf16 "%2E%2e", utf16 "%2E%2E"].contains buffer

/-- What the path state of the URL parser does with the segment in `buffer`
when it reaches a `/` (`slash`) or the end of the input: a double-dot segment
removes the last segment of the path, a single-dot segment adds nothing, and
each of the two leaves an empty last segment at the end of the input; any other
segment is appended. -/
def closeSegment (path : List JsString) (buffer : JsString) (slash : Bool) : List JsString :=
  if isDoubleDot buffer then (if slash then path.dropLast else path.dropLast ++ [[]])
  else if isSingleDot buffer then (if slash then path else path ++ [[]])
  else path ++ [buffer]

/-- The path state of the URL parser, on input made of `/` and the code units
of `urlPathPlain`; `none` on any other code unit, where this model does not
follow the parser (no such unit occurs in a URL the gateway builds). -/
def pathState : List JsString → JsString → JsString → Option (List JsString)
  | path, buffer, [] => some (closeSegment path buffer false)
  | path, buffer, c :: rest =>
    if c = 0x2F then pathState (closeSegment path buffer true) [] rest
    else if urlPathPlain c then pathState path (buffer ++ [c]) rest
    else none

/-- The URL path serializer: every segment preceded by `/`. -/
def serializePath (path : List JsString) : JsString :=
  (path.map fun segment => 0x2F :: segment).flatten

/-- The path of the request `fetch` makes for a URL on the origin of
`API_BASE_URL`, as `new URL(url).pathname` gives it: the URL parser splits what
follows the origin into segments, removing dot segments, and the path is their
serialization; `none` for a URL outside the model. -/
def requestPath (url : JsString) : Option JsString :=
  if url.take 22 = utf16 "http://localhost:8000/" then
    (pathState [] [] (url.drop 22)).map serializePath
  else none

/-- The path `getShortlistDetails(name)` requests, when it makes a request. -/
def getShortlistDetailsPath (name : JsString) : Option JsString :=
  match getShortlistDetailsUrl name with
  | some url => requestPath url
  | none => none

/-! ## AnalyticsDashboard.jsx: skills and the skills gap -/

/-- One element of `skillsData`. -/
structure SkillDatum where
  skill : String
  count : Nat
  deriving DecidableEq

/-- The array `skillsData`. -/
def skillsData (topSkills : Option (List (String × Nat))) : List SkillDatum :=
  (topSkills.getD []).map fun e => { skill := e.1, count := e.2 }

/-- The badge `getRankIndicator` returns: its background class and the number
it shows. -/
structure RankBadge where
  background : String
  label : Nat
  deriving DecidableEq

/-- The function `getRankIndicator`. -/
def getRankIndicator (index : Nat) : RankBadge :=
  if index = 0 then { background := "bg-yellow-400", label := 1 }
  else if index = 1 then { background := "bg-gray-400", label := 2 }
  else if index = 2 then { background := "bg-amber-600", label := 3 }
  else { background := "bg-slate-400", label := index + 1 }

/-- A row of the top-skills list: the badge, the skill, the number after
`Rank #`, and the count. -/
structure SkillRow where
  badge : RankBadge
  skill : String
  rank : Nat
  count : Nat
  deriving DecidableEq

/-- The rows rendered by `skillsData.map((skill, index) => ...)`. -/
def skillRows (data : List SkillDatum) : List SkillRow :=
  data.mapIdx fun index skill =>
    { badge := getRankIndicator index, skill := skill.skill, rank := index + 1,
      count := skill.count }

/-- The shortage part of the skills-gap card: the shortage cards, or the
message `No critical skills shortages detected`. -/
inductive ShortageView where
  | cards (entries : List ShortageEntry) : ShortageView
  | noneDetected : ShortageView
  deriving DecidableEq

/-- The skills-gap card when the analysis is present: the shortage part, and
the cards of the `Surplus Skills` block when that block is rendered. -/
structure SkillsGapView where
  shortage : ShortageView
  surplus : Option (List SurplusEntry)
  deriving DecidableEq

/-- The content of the skills-gap card: the analysis, or the message
`Skills gap analysis not available`. -/
inductive SkillsGapCard where
  | analysis (view : SkillsGapView) : SkillsGapCard
  | notAvailable : SkillsGapCard
  deriving DecidableEq

/-- The part of the card rendered for a present `skillsGapAnalysis`. -/
def skillsGapView (gap : SkillsGapAnalysis) : SkillsGapView :=
  { shortage :=
      match gap.skillsShortage with
      | some entries => if 0 < entries.length then .cards entries else .noneDetected
      | none => .noneDetected
    surplus :=
      match gap.surplusSkills with
      | some entries => if 0 < entries.length then some entries else none
      | none => none }

/-- The skills-gap card of the dashboard; `none` when it is not rendered,
which is when `analytics.jobStats` is absent: the card sits inside the grid
guarded by `analytics.jobStats &&`. -/
def skillsGapCard (analytics : Analytics) : Option SkillsGapCard :=
  match analytics.jobStats with
  | some _ =>
    some (match analytics.skillsGapAnalysis with
      | some gap => .analysis (skillsGapView gap)
      | none => .notAvailable)
  | none => none

/-! ## Strings -/

theorem jsNot_eq_true_iff (t : String) : jsNot t = true ↔ t = "" := by
  cases t with
  | mk d =>
    cases d with
    | nil => simp [jsNot]
    | cons c cs =>
      simp only [jsNot, List.isEmpty_cons, Bool.false_eq_true, false_iff]
      intro h
      have := congrArg String.data h
      simp at this

theorem jsNot_eq_false_iff (t : String) : jsNot t = false ↔ t ≠ "" := by
  rw [Ne, ← jsNot_eq_true_iff]; simp

theorem append_ne_empty (a b : String) (h : a ≠ "") : a ++ b ≠ "" := by
  intro hab
  have := congrArg String.length hab
  simp only [String.length_append] at this
  have ha : a.length ≠ 0 := by
    intro h0
    apply h
    cases a with
    | mk d =>
      cases d with
      | nil => rfl
      | cons c cs => simp [String.length] at h0
  have h2 : ("" : String).length = 0 := rfl
  omega


theorem handleResponse_api {α : Type} (r : Response α) (e : ApiError)
    (h : handleResponse r = .error (.api e)) :
    r.ok = false ∧ e = ⟨"HTTP " ++ toString r.status ++ ": " ++ r.text, r.status⟩ := by
  unfold handleResponse at h
  split at h
  · rename_i hok
    simp only [Except.error.injEq, JsError.api.injEq] at h
    simp only [Bool.not_eq_true'] at hok
    exact ⟨hok, h.symm⟩
  · split at h
    · split at h
      · split at h <;> simp at h
      · simp at h
    · simp at h

theorem gatewayCall_message_ne_empty {α : Type} (failedTo : String) (hf : failedTo ≠ "")
    (outcome : FetchOutcome α) (err : ApiError)
    (h : gatewayCall failedTo outcome = .error err) : err.message ≠ "" := by
  cases outcome with
  | rejected message =>
    simp only [gatewayCall, Except.error.injEq] at h
    subst h
    exact append_ne_empty _ _ hf
  | responded r =>
    simp only [gatewayCall] at h
    split at h
    · simp at h
    · rename_i e he
      simp only [Except.error.injEq] at h
      subst h
      rw [(handleResponse_api r e he).2]
      simp only [String.append_assoc]
      exact append_ne_empty _ _ (by decide)
    · simp only [Except.error.injEq] at h
      subst h
      exact append_ne_empty _ _ hf

/-! ## Selection toggling -/

theorem mem_toggle (i j : Nat) (s : SearchState) :
    j ∈ (toggleCandidateSelection i s).selectedCandidates ↔
      (j ∈ s.selectedCandidates ∧ j ≠ i) ∨ (j = i ∧ i ∉ s.selectedCandidates) := by
  by_cases hi : i ∈ s.selectedCandidates
  · simp [toggleCandidateSelection, hi]
  · have hc : s.selectedCandidates.contains i = false := by
      simpa using hi
    simp only [toggleCandidateSelection, hc, Bool.false_eq_true, if_false, List.mem_append,
      List.mem_singleton, hi, not_false_eq_true, and_true]
    constructor
    · rintro (h | h)
      · left
        exact ⟨h, fun hji => hi (hji ▸ h)⟩
      · right
        exact h
    · rintro (h | h)
      · exact Or.inl h.1
      · exact Or.inr h

/-- C4: toggling the same identifier twice leaves every identifier's membership
as it was, and started from the empty selection it gives back the empty
selection. -/
theorem toggle_twice_membership (s : SearchState) (i : Nat) :
    (∀ j, j ∈ (toggleCandidateSelection i
        (toggleCandidateSelection i s)).selectedCandidates ↔ j ∈ s.selectedCandidates) ∧
    toggleCandidateSelection i
        (toggleCandidateSelection i { s with selectedCandidates := [] }) =
      { s with selectedCandidates := [] } := by
  constructor
  · intro j
    rw [mem_toggle, mem_toggle, mem_toggle]
    by_cases hji : j = i
    · subst hji
      by_cases hj : j ∈ s.selectedCandidates <;> simp [hj]
    · simp [hji]
  · simp [toggleCandidateSelection]

/-! ## Searching -/

theorem handleSearch_of_nonblank (s : SearchState) (h : jsTrim s.query ≠ "") :
    handleSearch s =
      ({ s with loading := true, error := "", results := [], selectedCandidates := [] },
        [Effect.searchCandidates s.query]) := by
  have hn : jsNot (jsTrim s.query) = false := (jsNot_eq_false_iff _).2 h
  simp [handleSearch, hn]

/-- C6: for a query that is non-empty after trimming, in the state `handleSearch`
leaves while its request is pending the result list and the selection are
empty, the error message is empty and `loading` is true; exactly one search
request, carrying the query, has been issued and is still pending. -/
theorem handleSearch_clears_before_response (w : Session)
    (h : jsTrim w.ui.query ≠ "") :
    (w.step Event.submitSearch).ui.results = [] ∧
    (w.step Event.submitSearch).ui.selectedCandidates = [] ∧
    (w.step Event.submitSearch).ui.error = "" ∧
    (w.step Event.submitSearch).ui.loading = true ∧
    (handleSearch w.ui).2 = [Effect.searchCandidates w.ui.query] ∧
    (w.step Event.submitSearch).searches = w.searches ++ [w.ui.query] := by
  simp [Session.step, handleSearch_of_nonblank w.ui h, Session.emit]

theorem handleSearch_clears_before_response_witness :
    jsTrim ({ Session.initial with
        ui := { SearchState.initial with
          query := " react ", results := [⟨4, "Ada", "Byron"⟩], selectedCandidates := [4],
          error := "HTTP 500: down" } }).ui.query ≠ "" ∧
    (({ Session.initial with
        ui := { SearchState.initial with
          query := " react ", results := [⟨4, "Ada", "Byron"⟩], selectedCandidates := [4],
          error := "HTTP 500: down" } }).step Event.submitSearch).ui.results = [] :=
  ⟨by decide, (handleSearch_clears_before_response _ (by decide)).1⟩

/-- C7: for a non-blank query, whatever the outcome of the search request,
`handleSearch` ends with `loading` false in one of two states: when the gateway
call succeeds the result list is the returned list and the error message is
empty; when it fails the error message is the failure's (non-empty) message and
the result list is empty, whatever list was held before the submit. -/
theorem handleSearch_settles (s : SearchState) (h : jsTrim s.query ≠ "")
    (outcome : FetchOutcome SearchData) :
    (handleSearchSettled (searchCandidates outcome) (handleSearch s).1).loading = false ∧
    (∀ data, searchCandidates outcome = .ok data →
      (handleSearchSettled (searchCandidates outcome) (handleSearch s).1).results =
          resultsOrEmpty data ∧
        (handleSearchSettled (searchCandidates outcome) (handleSearch s).1).error = "") ∧
    (∀ list, searchCandidates outcome = .ok (.json ⟨some list⟩) →
      (handleSearchSettled (searchCandidates outcome) (handleSearch s).1).results = list) ∧
    (∀ err, searchCandidates outcome = .error err →
      (handleSearchSettled (searchCandidates outcome) (handleSearch s).1).error =
          err.message ∧
        err.message ≠ "" ∧
        (handleSearchSettled (searchCandidates outcome) (handleSearch s).1).results = []) ∧
    ((handleSearchSettled (searchCandidates outcome) (handleSearch s).1).error = "" ↔
      ∃ data, searchCandidates outcome = .ok data) := by
  rw [handleSearch_of_nonblank s h]
  cases hsc : searchCandidates outcome with
  | ok data =>
    refine ⟨rfl, ?_, ?_, ?_, ?_⟩
    · intro d hd
      cases hd
      exact ⟨rfl, rfl⟩
    · intro l hl
      cases hl
      rfl
    · intro e he
      cases he
    · simp [handleSearchSettled]
  | error err =>
    have hne : err.message ≠ "" :=
      gatewayCall_message_ne_empty _ (by decide) outcome err hsc
    refine ⟨rfl, ?_, ?_, ?_, ?_⟩
    · intro d hd
      cases hd
    · intro l hl
      cases hl
    · intro e he
      cases he
      exact ⟨rfl, hne, rfl⟩
    · simp [handleSearchSettled, hne]

theorem handleSearch_settles_witness :
    jsTrim ({ SearchState.initial with
        query := "golang", results := [⟨4, "Ada", "Byron"⟩] }).query ≠ "" ∧
    (handleSearchSettled
        (searchCandidates (.responded ⟨false, 503, none, "busy", .error "no body"⟩))
        (handleSearch { SearchState.initial with
          query := "golang", results := [⟨4, "Ada", "Byron"⟩] }).1).loading = false :=
  ⟨by decide, (handleSearch_settles _ (by decide) _).1⟩

/-- C8: for a query that is empty after trimming, `handleSearch` issues no
request and leaves the whole state, results, selection, loading and error
included, exactly as it was; nothing becomes pending. -/
theorem handleSearch_blank_noop (w : Session) (h : jsTrim w.ui.query = "") :
    handleSearch w.ui = (w.ui, []) ∧ w.step Event.submitSearch = w := by
  have hn : jsNot (jsTrim w.ui.query) = true := (jsNot_eq_true_iff _).2 h
  have hs : handleSearch w.ui = (w.ui, []) := by simp [handleSearch, hn]
  exact ⟨hs, by simp [Session.step, hs, Session.emit]⟩

theorem handleSearch_blank_noop_witness :
    jsTrim ({ Session.initial with
        ui := { SearchState.initial with
          query := " \t\n", results := [⟨4, "Ada", "Byron"⟩], selectedCandidates := [4],
          loading := true, error := "HTTP 500: down" } }).ui.query = "" ∧
    handleSearch ({ Session.initial with
        ui := { SearchState.initial with
          query := " \t\n", results := [⟨4, "Ada", "Byron"⟩], selectedCandidates := [4],
          loading := true, error := "HTTP 500: down" } }).ui =
      (({ Session.initial with
        ui := { SearchState.initial with
          query := " \t\n", results := [⟨4, "Ada", "Byron"⟩], selectedCandidates := [4],
          loading := true, error := "HTTP 500: down" } }).ui, []) :=
  ⟨by decide, (handleSearch_blank_noop _ (by decide)).1⟩

/-! ## Saving a shortlist -/

theorem handleSaveShortlist_eq (s : SearchState) :
    handleSaveShortlist s =
      (s, if s.selectedCandidates ≠ [] ∧ jsTrim s.shortlistName ≠ "" then
            [Effect.saveShortlist s.shortlistName s.selectedCandidates]
          else []) := by
  by_cases hn : jsTrim s.shortlistName = ""
  · have hj : jsNot (jsTrim s.shortlistName) = true := (jsNot_eq_true_iff _).2 hn
    have hc : ¬(s.selectedCandidates ≠ [] ∧ jsTrim s.shortlistName ≠ "") := fun h => h.2 hn
    rw [if_neg hc]
    simp [handleSaveShortlist, hj]
  · have hj : jsNot (jsTrim s.shortlistName) = false := (jsNot_eq_false_iff _).2 hn
    by_cases hs : s.selectedCandidates = []
    · have hc : ¬(s.selectedCandidates ≠ [] ∧ jsTrim s.shortlistName ≠ "") :=
        fun h => h.1 hs
      rw [if_neg hc]
      simp [handleSaveShortlist, hs]
    · have hl : (s.selectedCandidates.length == 0) = false := by
        simpa using hs
      rw [if_pos ⟨hs, hn⟩]
      simp [handleSaveShortlist, hj, hl]

/-- C9: `handleSaveShortlist` issues a shortlist-create request, carrying the
entered name and the selected identifiers, exactly when the selection is
non-empty and the name is non-empty after trimming; otherwise it issues
nothing; in both cases the state, with its selection, name, confirmation
message and error, is unchanged by the call. -/
theorem handleSaveShortlist_sends_iff (s : SearchState) :
    ((handleSaveShortlist s).2 =
        [Effect.saveShortlist s.shortlistName s.selectedCandidates] ↔
      s.selectedCandidates ≠ [] ∧ jsTrim s.shortlistName ≠ "") ∧
    ((handleSaveShortlist s).2 = [] ↔
      ¬(s.selectedCandidates ≠ [] ∧ jsTrim s.shortlistName ≠ "")) ∧
    (handleSaveShortlist s).1 = s := by
  rw [handleSaveShortlist_eq s]
  by_cases hc : s.selectedCandidates ≠ [] ∧ jsTrim s.shortlistName ≠ ""
  · rw [if_pos hc]
    simp [hc]
  · rw [if_neg hc]
    simp [hc]

/-- C10: for a non-blank name and a non-empty selection, `handleSaveShortlist`
issues the request, and when the request succeeds its continuation, in whatever
state it then runs, leaves the selection empty and the confirmation message
`Shortlist "<name>" saved successfully!`, which is non-empty and contains the
name, and schedules one timer with delay 3000 whose callback sets the
confirmation message to empty in whatever state it fires. -/
theorem handleSaveShortlist_success (s now later : SearchState)
    (hname : jsTrim s.shortlistName ≠ "") (hsel : s.selectedCandidates ≠ [])
    (outcome : FetchOutcome Unit) (data : Payload Unit)
    (hok : saveShortlist outcome = .ok data) :
    (handleSaveShortlist s).2 =
      [Effect.saveShortlist s.shortlistName s.selectedCandidates] ∧
    (handleSaveShortlistSettled s.shortlistName (saveShortlist outcome)
      now).1.selectedCandidates = [] ∧
    (handleSaveShortlistSettled s.shortlistName (saveShortlist outcome) now).1.saveMessage =
      "Shortlist \"" ++ s.shortlistName ++ "\" saved successfully!" ∧
    (handleSaveShortlistSettled s.shortlistName (saveShortlist outcome) now).1.saveMessage ≠
      "" ∧
    s.shortlistName.data <:+:
      (handleSaveShortlistSettled s.shortlistName (saveShortlist outcome)
        now).1.saveMessage.data ∧
    (handleSaveShortlistSettled s.shortlistName (saveShortlist outcome) now).2 =
      [Effect.setTimeout TimerCallback.clearSaveMessage 3000] ∧
    (TimerCallback.clearSaveMessage.run later).saveMessage = "" ∧
    (TimerCallback.clearSaveMessage.run
      (handleSaveShortlistSettled s.shortlistName (saveShortlist outcome) now).1).saveMessage =
      "" := by
  refine ⟨?_, ?_⟩
  · rw [handleSaveShortlist_eq s, if_pos ⟨hsel, hname⟩]
  rw [hok]
  refine ⟨rfl, rfl, ?_, ?_, rfl, rfl, rfl⟩
  · show savedMessage s.shortlistName ≠ ""
    unfold savedMessage
    rw [String.append_assoc]
    exact append_ne_empty _ _ (by decide)
  · show s.shortlistName.data <:+: (savedMessage s.shortlistName).data
    unfold savedMessage
    simp only [String.data_append]
    exact ⟨_, _, rfl⟩

theorem handleSaveShortlist_success_witness :
    jsTrim ({ SearchState.initial with
        shortlistName := "Finalists", selectedCandidates := [3, 8] }).shortlistName ≠ "" ∧
    ({ SearchState.initial with
        shortlistName := "Finalists", selectedCandidates := [3, 8] }).selectedCandidates ≠
      [] ∧
    saveShortlist (.responded ⟨true, 200, none, "ok", .error "not json"⟩) =
      .ok (.text "ok") ∧
    (handleSaveShortlistSettled "Finalists"
        (saveShortlist (.responded ⟨true, 200, none, "ok", .error "not json"⟩))
        { SearchState.initial with
          shortlistName := "Finalists", selectedCandidates := [3, 8] }).1.selectedCandidates =
      [] :=
  ⟨by decide, by decide, rfl,
    (handleSaveShortlist_success
      { SearchState.initial with shortlistName := "Finalists", selectedCandidates := [3, 8] }
      { SearchState.initial with shortlistName := "Finalists", selectedCandidates := [3, 8] }
      SearchState.initial (by decide) (by decide)
      (.responded ⟨true, 200, none, "ok", .error "not json"⟩) (.text "ok") rfl).2.1⟩

/-! ## Runs of events -/

theorem Reachable.run {guard : Session → Event → Bool} (events : List Event) :
    ∀ {w : Session}, Reachable guard w → Session.admits guard w events = true →
      Reachable guard (w.run events) := by
  induction events with
  | nil => intro w hw _; exact hw
  | cons e rest ih =>
    intro w hw ha
    simp only [Session.admits, Bool.and_eq_true] at ha
    exact ih (Reachable.step e hw ha.1) ha.2

/-! ## The selection stays within the displayed results -/

theorem emit_ui (w : Session) (effects : List Effect) : (w.emit effects).ui = w.ui := by
  induction effects generalizing w with
  | nil => rfl
  | cons e rest ih => cases e <;> simp [Session.emit, ih]

theorem emit_searches_of_no_search (w : Session) (effects : List Effect)
    (h : ∀ q, Effect.searchCandidates q ∉ effects) : (w.emit effects).searches = w.searches := by
  induction effects generalizing w with
  | nil => rfl
  | cons e rest ih =>
    have hr : ∀ q, Effect.searchCandidates q ∉ rest := fun q hq =>
      h q (List.mem_cons_of_mem _ hq)
    cases e with
    | searchCandidates q => exact absurd (List.mem_cons_self _ _) (h q)
    | saveShortlist n ids => simp [Session.emit, ih _ hr]
    | setTimeout c d => simp [Session.emit, ih _ hr]

theorem selectionDisplayed_of_nil {s : SearchState} (h : s.selectedCandidates = []) :
    selectionDisplayed s := by
  intro i hi
  rw [h] at hi
  cases hi

theorem candidateDisplayed_iff (s : SearchState) (i : Nat) :
    candidateDisplayed s i = true ↔ ∃ c ∈ s.results, c.index = i := by
  simp only [candidateDisplayed, Bool.and_eq_true, decide_eq_true_eq, List.any_eq_true,
    beq_iff_eq]
  constructor
  · exact fun h => h.2
  · rintro ⟨c, hc, hi⟩
    exact ⟨List.length_pos_of_mem hc, c, hc, hi⟩

theorem searchInvariant_initial : SearchInvariant Session.initial := by
  refine ⟨by simp [Session.initial], ?_, ?_⟩
  · intro h
    exact absurd rfl h
  · exact selectionDisplayed_of_nil rfl

theorem searchInvariant_step (w : Session) (e : Event) (hinv : SearchInvariant w)
    (hoff : w.offered e = true) : SearchInvariant (w.step e) := by
  obtain ⟨hlen, hpend, hsel⟩ := hinv
  cases e with
  | changeQuery value => exact ⟨hlen, hpend, hsel⟩
  | submitSearch =>
    simp only [Session.offered, searchButtonDisabled, Bool.not_eq_true', Bool.or_eq_false_iff]
      at hoff
    have hq : jsTrim w.ui.query ≠ "" := (jsNot_eq_false_iff _).1 hoff.2
    have hnil : w.searches = [] := by
      by_contra hne
      have := (hpend hne).1
      rw [hoff.1] at this
      cases this
    simp only [Session.step, handleSearch_of_nonblank w.ui hq, Session.emit]
    refine ⟨by simp [hnil], fun _ => ⟨rfl, rfl, rfl⟩, selectionDisplayed_of_nil rfl⟩
  | searchSettles k outcome =>
    simp only [Session.offered, Session.possible, decide_eq_true_eq] at hoff
    have hne : w.searches ≠ [] := by
      intro h
      rw [h] at hoff
      cases hoff
    obtain ⟨_, _, hs⟩ := hpend hne
    have hnil : w.searches.eraseIdx k = [] := by
      apply List.eq_nil_of_length_eq_zero
      rw [List.length_eraseIdx]
      simp only [hoff, if_true]
      omega
    simp only [Session.step, hoff, if_true]
    refine ⟨by simp [hnil], fun h => absurd hnil h, selectionDisplayed_of_nil ?_⟩
    cases searchCandidates outcome <;> exact hs
  | clickCandidate i =>
    simp only [Session.offered, Session.possible] at hoff
    obtain ⟨c, hc, hci⟩ := (candidateDisplayed_iff _ _).1 hoff
    have hnil : w.searches = [] := by
      by_contra hne
      have := (hpend hne).2.1
      rw [this] at hc
      cases hc
    refine ⟨hlen, fun h => absurd hnil h, ?_⟩
    intro j hj
    rcases (mem_toggle i j w.ui).1 hj with h | h
    · exact hsel j h.1
    · exact ⟨c, hc, hci.trans h.1.symm⟩
  | showShortlistForm => exact ⟨hlen, hpend, hsel⟩
  | changeShortlistName value => exact ⟨hlen, hpend, hsel⟩
  | cancelShortlistForm => exact ⟨hlen, hpend, hsel⟩
  | submitShortlist =>
    have hs : (handleSaveShortlist w.ui).1 = w.ui := by rw [handleSaveShortlist_eq]
    have hno : ∀ q, Effect.searchCandidates q ∉ (handleSaveShortlist w.ui).2 := by
      intro q
      unfold handleSaveShortlist
      split <;> simp
    refine ⟨?_, ?_, ?_⟩
    · simp only [Session.step, emit_searches_of_no_search _ _ hno]
      exact hlen
    · simp only [Session.step, emit_searches_of_no_search _ _ hno, emit_ui, hs]
      exact hpend
    · simp only [Session.step, emit_ui, hs]
      exact hsel
  | saveSettles k outcome =>
    simp only [Session.step]
    cases hk : w.saves[k]? with
    | none => exact ⟨hlen, hpend, hsel⟩
    | some pending =>
      have hno : ∀ q, Effect.searchCandidates q ∉
          (handleSaveShortlistSettled pending.1 (saveShortlist outcome) w.ui).2 := by
        intro q
        unfold handleSaveShortlistSettled
        split <;> simp
      simp only [SearchInvariant, emit_searches_of_no_search _ _ hno, emit_ui]
      refine ⟨hlen, ?_, ?_⟩
      · intro hne
        obtain ⟨h1, h2, h3⟩ := hpend hne
        cases saveShortlist outcome with
        | ok data => exact ⟨h1, h2, rfl⟩
        | error err => exact ⟨h1, h2, h3⟩
      · cases saveShortlist outcome with
        | ok data => exact selectionDisplayed_of_nil rfl
        | error err => exact hsel
  | timerFires k =>
    simp only [Session.step]
    cases hk : w.timers[k]? with
    | none => exact ⟨hlen, hpend, hsel⟩
    | some pending =>
      cases hp : pending.1
      simp only [hp]
      exact ⟨hlen, hpend, hsel⟩

theorem searchInvariant_of_reachable {w : Session} (h : Reachable Session.offered w) :
    SearchInvariant w := by
  induction h with
  | initial => exact searchInvariant_initial
  | step e _ hoff ih => exact searchInvariant_step _ e ih hoff

/-- C5 (as stated, refuted): with handlers invoked in any interleaving, two
submits before any response, the first response displaying candidate `0`, a click
on that candidate and then the second response with an empty page give a
reachable state whose selection holds `0` while no candidate is stored. -/
theorem selection_outlives_results :
    ¬ ∀ w : Session, Reachable Session.possible w → selectionDisplayed w.ui := by
  intro h
  have hr : Reachable Session.possible
      (Session.initial.run
        [.changeQuery "react", .submitSearch, .submitSearch,
          .searchSettles 0 (jsonResponse ⟨some [⟨0, "Ada", "Byron"⟩]⟩),
          .clickCandidate 0,
          .searchSettles 0 (jsonResponse ⟨some []⟩)]) :=
    Reachable.run _ Reachable.initial (by decide)
  obtain ⟨c, hc, _⟩ := h _ hr 0 (by decide)
  have hres : (Session.initial.run
        [.changeQuery "react", .submitSearch, .submitSearch,
          .searchSettles 0 (jsonResponse ⟨some [⟨0, "Ada", "Byron"⟩]⟩),
          .clickCandidate 0,
          .searchSettles 0 (jsonResponse ⟨some []⟩)]).ui.results = [] := by decide
  rw [hres] at hc
  cases hc

/-- C5 (amended): in every state reachable by the events the rendered form
offers (a submit only while the submit button is enabled, hence not while a
search is loading; clicks on displayed candidates; saves; arrivals of
responses and timers), every identifier in `selectedCandidates` is the `index`
of a candidate in the stored result list. -/
theorem selection_displayed_of_offered (w : Session) (h : Reachable Session.offered w) :
    selectionDisplayed w.ui :=
  (searchInvariant_of_reachable h).2.2

theorem selection_displayed_of_offered_witness :
    Reachable Session.offered
      (Session.initial.run
        [.changeQuery "react", .submitSearch,
          .searchSettles 0 (jsonResponse ⟨some [⟨0, "Ada", "Byron"⟩, ⟨3, "Al", "Turing"⟩]⟩),
          .clickCandidate 3]) ∧
    selectionDisplayed
      (Session.initial.run
        [.changeQuery "react", .submitSearch,
          .searchSettles 0 (jsonResponse ⟨some [⟨0, "Ada", "Byron"⟩, ⟨3, "Al", "Turing"⟩]⟩),
          .clickCandidate 3]).ui :=
  ⟨Reachable.run _ Reachable.initial (by decide),
    selection_displayed_of_offered _ (Reachable.run _ Reachable.initial (by decide))⟩

/-! ## Overlapping searches -/

/-- C1 (as stated, refuted): `"react"` is submitted, then `"golang"` while the
first request is pending; the response for `"golang"` arrives first and the
response for `"react"` second. Both steps are possible, and the stored result
list at the end is the list returned for `"react"`. -/
theorem stale_search_response_overwrites :
    Session.admits Session.possible Session.initial
        [.changeQuery "react", .submitSearch, .changeQuery "golang", .submitSearch,
          .searchSettles 1 (jsonResponse ⟨some [⟨7, "Go", "Pher"⟩]⟩),
          .searchSettles 0 (jsonResponse ⟨some [⟨1, "Rea", "Ct"⟩]⟩)] = true ∧
    (Session.initial.run
        [.changeQuery "react", .submitSearch, .changeQuery "golang", .submitSearch]).searches =
      ["react", "golang"] ∧
    (Session.initial.run
        [.changeQuery "react", .submitSearch, .changeQuery "golang", .submitSearch,
          .searchSettles 1 (jsonResponse ⟨some [⟨7, "Go", "Pher"⟩]⟩),
          .searchSettles 0 (jsonResponse ⟨some [⟨1, "Rea", "Ct"⟩]⟩)]).ui.results =
      [⟨1, "Rea", "Ct"⟩] ∧
    ([⟨1, "Rea", "Ct"⟩] : List Candidate) ≠ [⟨7, "Go", "Pher"⟩] := by
  decide

/-- C1 (amended): with two searches pending at once, after both successful
responses have been applied the stored result list is the list of the response
applied last: the second query's list when the first query's response arrives
first, the first query's list when it arrives last. After the first submit the
query input and the submit button are disabled, and in every state reachable by
the events the rendered form offers at most one search is pending. -/
theorem last_search_response_wins (s : SearchState) (q1 q2 : String)
    (h1 : jsTrim q1 ≠ "") (h2 : jsTrim q2 ≠ "")
    (o1 o2 : FetchOutcome SearchData) (d1 d2 : Payload SearchData)
    (ho1 : searchCandidates o1 = .ok d1) (ho2 : searchCandidates o2 = .ok d2) :
    (handleSearchSettled (searchCandidates o2) (handleSearchSettled (searchCandidates o1)
      (handleSearch { (handleSearch { s with query := q1 }).1 with query := q2 }).1)).results =
        resultsOrEmpty d2 ∧
    (handleSearchSettled (searchCandidates o1) (handleSearchSettled (searchCandidates o2)
      (handleSearch { (handleSearch { s with query := q1 }).1 with query := q2 }).1)).results =
        resultsOrEmpty d1 ∧
    searchButtonDisabled (handleSearch { s with query := q1 }).1 = true ∧
    queryInputDisabled (handleSearch { s with query := q1 }).1 = true ∧
    ∀ w : Session, Reachable Session.offered w → w.searches.length ≤ 1 := by
  have hn1 : jsNot (jsTrim q1) = false := (jsNot_eq_false_iff _).2 h1
  have hn2 : jsNot (jsTrim q2) = false := (jsNot_eq_false_iff _).2 h2
  refine ⟨?_, ?_, ?_, ?_, fun w hw => (searchInvariant_of_reachable hw).1⟩
  · rw [ho1, ho2]
    simp [handleSearch, hn1, hn2, handleSearchSettled]
  · rw [ho1, ho2]
    simp [handleSearch, hn1, hn2, handleSearchSettled]
  · simp [handleSearch, hn1, searchButtonDisabled]
  · simp [handleSearch, hn1, queryInputDisabled]

theorem last_search_response_wins_witness :
    jsTrim "react" ≠ "" ∧ jsTrim "golang" ≠ "" ∧
    (handleSearchSettled (searchCandidates (jsonResponse ⟨some [⟨1, "Rea", "Ct"⟩]⟩))
      (handleSearchSettled (searchCandidates (jsonResponse ⟨some [⟨7, "Go", "Pher"⟩]⟩))
        (handleSearch { (handleSearch { SearchState.initial with query := "react" }).1 with
          query := "golang" }).1)).results = [⟨1, "Rea", "Ct"⟩] :=
  ⟨by decide, by decide,
    (last_search_response_wins SearchState.initial "react" "golang" (by decide) (by decide)
      (jsonResponse ⟨some [⟨1, "Rea", "Ct"⟩]⟩) (jsonResponse ⟨some [⟨7, "Go", "Pher"⟩]⟩)
      (.json ⟨some [⟨1, "Rea", "Ct"⟩]⟩) (.json ⟨some [⟨7, "Go", "Pher"⟩]⟩) rfl rfl).2.1⟩

/-! ## Binary64 rounding -/

theorem pow2_eq_zpow (e : Int) : pow2 e = (2 : ℚ) ^ e := by
  unfold pow2
  split
  · rename_i h
    obtain ⟨n, rfl⟩ := Int.eq_ofNat_of_zero_le h
    simp
  · rename_i h
    have hneg : 0 ≤ -e := by omega
    obtain ⟨n, hn⟩ := Int.eq_ofNat_of_zero_le hneg
    have he : e = -(n : Int) := by omega
    subst he
    simp

theorem pow2_pos (e : Int) : 0 < pow2 e := by
  rw [pow2_eq_zpow]
  positivity

theorem log2Fuel_spec : ∀ (fuel n : Nat), 0 < n → n ≤ fuel →
    2 ^ log2Fuel fuel n ≤ n ∧ n < 2 ^ (log2Fuel fuel n + 1) := by
  intro fuel
  induction fuel with
  | zero => intro n h0 h1; omega
  | succ fuel ih =>
    intro n h0 h1
    unfold log2Fuel
    split
    · rename_i h2
      simp only [pow_zero, zero_add, pow_one]
      omega
    · rename_i h2
      have hpos : 0 < n / 2 := Nat.div_pos (by omega) (by omega)
      have hle : n / 2 ≤ fuel := by omega
      obtain ⟨ih1, ih2⟩ := ih (n / 2) hpos hle
      constructor
      · rw [pow_succ]
        omega
      · rw [pow_succ]
        omega

theorem natLog2_spec (n : Nat) (h : 0 < n) :
    2 ^ natLog2 n ≤ n ∧ n < 2 ^ (natLog2 n + 1) :=
  log2Fuel_spec n n h le_rfl

theorem pow2_ilog2_le (q : ℚ) (hq : 0 < q) : pow2 (ilog2 q) ≤ q := by
  unfold ilog2
  simp only
  split
  · assumption
  · have hnum : 0 < q.num := Rat.num_pos.2 hq
    have hn : 0 < q.num.toNat := by omega
    have hd : 0 < q.den := q.den_pos
    obtain ⟨hn1, _⟩ := natLog2_spec _ hn
    obtain ⟨_, hd2⟩ := natLog2_spec _ hd
    rw [pow2_eq_zpow]
    have hqe : q = (q.num.toNat : ℚ) / (q.den : ℚ) := by
      have h1 : ((q.num.toNat : Int) : ℚ) = (q.num : ℚ) := by
        rw [Int.toNat_of_nonneg hnum.le]
      have h2 : ((q.num.toNat : Nat) : ℚ) = ((q.num.toNat : Int) : ℚ) :=
        (Int.cast_natCast _).symm
      rw [h2, h1]
      exact (Rat.num_div_den q).symm
    have hn1q : (2 : ℚ) ^ (natLog2 q.num.toNat) ≤ (q.num.toNat : ℚ) := by
      exact_mod_cast hn1
    have hd2q : (q.den : ℚ) ≤ (2 : ℚ) ^ (natLog2 q.den + 1) := by
      exact_mod_cast hd2.le
    have hdq : (0 : ℚ) < (q.den : ℚ) := by exact_mod_cast hd
    have key : (2 : ℚ) ^ ((natLog2 q.num.toNat : Int) - (natLog2 q.den : Int) - 1) =
        (2 : ℚ) ^ (natLog2 q.num.toNat) / (2 : ℚ) ^ (natLog2 q.den + 1) := by
      rw [zpow_sub₀ (by norm_num : (2 : ℚ) ≠ 0), zpow_sub₀ (by norm_num : (2 : ℚ) ≠ 0)]
      simp only [zpow_natCast, zpow_one, pow_succ]
      field_simp
    rw [key]
    have hfinal : (2 : ℚ) ^ (natLog2 q.num.toNat) / (2 : ℚ) ^ (natLog2 q.den + 1) ≤
        (q.num.toNat : ℚ) / (q.den : ℚ) :=
      div_le_div₀ (by positivity) hn1q hdq hd2q
    exact hfinal.trans_eq hqe.symm

theorem roundHalfEven_err (s : ℚ) : |(roundHalfEven s : ℚ) - s| ≤ 1 / 2 := by
  have h1 := Int.floor_le s
  have h2 := Int.lt_floor_add_one s
  unfold roundHalfEven
  simp only
  split
  · rw [abs_le]
    constructor <;> linarith
  · split
    · rw [abs_le]
      push_cast
      constructor <;> linarith
    · split
      · rw [abs_le]
        constructor <;> linarith
      · rw [abs_le]
        push_cast
        constructor <;> linarith

theorem roundHalfEven_intCast (z : Int) : roundHalfEven (z : ℚ) = z := by
  unfold roundHalfEven
  simp

theorem roundHalfEven_nonneg (s : ℚ) (hs : 0 ≤ s) : 0 ≤ roundHalfEven s := by
  have h0 : 0 ≤ ⌊s⌋ := Int.floor_nonneg.2 hs
  unfold roundHalfEven
  simp only
  split
  · exact h0
  · split
    · omega
    · split <;> omega

theorem fl_zero : fl 0 = 0 := by simp [fl]

theorem fl_nonneg (q : ℚ) : 0 ≤ fl q := by
  unfold fl
  split
  · exact le_rfl
  · rename_i h
    have hq : 0 < q := not_le.1 h
    have hP := pow2_pos (ulpExp q)
    have hr : 0 ≤ roundHalfEven (q / pow2 (ulpExp q)) :=
      roundHalfEven_nonneg _ (div_nonneg hq.le hP.le)
    have hrq : (0 : ℚ) ≤ (roundHalfEven (q / pow2 (ulpExp q)) : ℚ) := by exact_mod_cast hr
    exact mul_nonneg hrq hP.le

theorem fl_err (q : ℚ) (hq : 0 < q) : |fl q - q| ≤ pow2 (ulpExp q) / 2 := by
  have hP := pow2_pos (ulpExp q)
  have hr := roundHalfEven_err (q / pow2 (ulpExp q))
  unfold fl
  rw [if_neg (not_le.2 hq)]
  have hrw : (roundHalfEven (q / pow2 (ulpExp q)) : ℚ) * pow2 (ulpExp q) - q =
      ((roundHalfEven (q / pow2 (ulpExp q)) : ℚ) - q / pow2 (ulpExp q)) * pow2 (ulpExp q) := by
    field_simp
  rw [hrw, abs_mul, abs_of_pos hP]
  calc |(roundHalfEven (q / pow2 (ulpExp q)) : ℚ) - q / pow2 (ulpExp q)| * pow2 (ulpExp q)
      ≤ 1 / 2 * pow2 (ulpExp q) := mul_le_mul_of_nonneg_right hr hP.le
    _ = pow2 (ulpExp q) / 2 := by ring

theorem pow2_ulpExp_le (q : ℚ) (hq : (2 : ℚ) ^ (-1022 : Int) ≤ q) :
    pow2 (ulpExp q) ≤ q * (2 : ℚ) ^ (-52 : Int) := by
  have hpos : 0 < q := lt_of_lt_of_le (by positivity) hq
  have h52 : (0 : ℚ) < (2 : ℚ) ^ (-52 : Int) := by positivity
  unfold ulpExp
  rcases max_cases (ilog2 q - 52) (-1074) with ⟨h, _⟩ | ⟨h, _⟩
  · rw [h, pow2_eq_zpow, sub_eq_add_neg, zpow_add₀ (by norm_num : (2 : ℚ) ≠ 0)]
    have := pow2_ilog2_le q hpos
    rw [pow2_eq_zpow] at this
    exact mul_le_mul_of_nonneg_right this h52.le
  · rw [h, pow2_eq_zpow]
    have he : (2 : ℚ) ^ (-1074 : Int) = (2 : ℚ) ^ (-1022 : Int) * (2 : ℚ) ^ (-52 : Int) := by
      rw [← zpow_add₀ (by norm_num : (2 : ℚ) ≠ 0)]
      norm_num
    rw [he]
    exact mul_le_mul_of_nonneg_right hq h52.le

/-- Relative error of rounding to binary64 in the normal range. -/
theorem fl_rel_err (q : ℚ) (hq : q = 0 ∨ (2 : ℚ) ^ (-1022 : Int) ≤ q) :
    |fl q - q| ≤ q * (2 : ℚ) ^ (-53 : Int) := by
  rcases hq with rfl | hq
  · simp [fl_zero]
  · have hpos : 0 < q := lt_of_lt_of_le (by positivity) hq
    have h1 := fl_err q hpos
    have h2 := pow2_ulpExp_le q hq
    have he : (2 : ℚ) ^ (-53 : Int) = (2 : ℚ) ^ (-52 : Int) / 2 := by
      rw [show (-53 : Int) = -52 + -1 by norm_num, zpow_add₀ (by norm_num : (2 : ℚ) ≠ 0)]
      norm_num
    rw [he]
    calc |fl q - q| ≤ pow2 (ulpExp q) / 2 := h1
      _ ≤ q * (2 : ℚ) ^ (-52 : Int) / 2 := by gcongr
      _ = q * ((2 : ℚ) ^ (-52 : Int) / 2) := by ring

theorem ilog2_lt_of_lt (q : ℚ) (hq : 0 < q) (k : Int) (h : q < (2 : ℚ) ^ k) : ilog2 q < k := by
  have h1 := pow2_ilog2_le q hq
  rw [pow2_eq_zpow] at h1
  exact (zpow_lt_zpow_iff_right₀ (by norm_num : (1 : ℚ) < 2)).1 (lt_of_le_of_lt h1 h)

/-- Integers below `2 ^ 53` are binary64 values. -/
theorem fl_natCast (n : Nat) (h : n < 2 ^ 53) : fl (n : ℚ) = n := by
  rcases Nat.eq_zero_or_pos n with rfl | hn
  · simp [fl_zero]
  · have hq : (0 : ℚ) < (n : ℚ) := by exact_mod_cast hn
    have hlt : (n : ℚ) < (2 : ℚ) ^ (53 : Int) := by
      have h53 : (n : ℚ) < (2 : ℚ) ^ (53 : Nat) := by exact_mod_cast h
      have hz : (2 : ℚ) ^ (53 : Int) = (2 : ℚ) ^ (53 : Nat) := by
        rw [← zpow_natCast]
        rfl
      rw [hz]
      exact h53
    have hlog := ilog2_lt_of_lt _ hq 53 hlt
    have hle : ulpExp (n : ℚ) ≤ 0 := by
      unfold ulpExp
      exact max_le (by omega) (by norm_num)
    obtain ⟨m, hm⟩ := Int.eq_ofNat_of_zero_le (by omega : 0 ≤ -ulpExp (n : ℚ))
    have he : ulpExp (n : ℚ) = -(m : Int) := by omega
    unfold fl
    rw [if_neg (not_le.2 hq), he, pow2_eq_zpow]
    have hs : (n : ℚ) / (2 : ℚ) ^ (-(m : Int)) = (((n * 2 ^ m : Nat) : Int) : ℚ) := by
      rw [zpow_neg, zpow_natCast]
      push_cast
      field_simp
    rw [hs, roundHalfEven_intCast]
    rw [zpow_neg, zpow_natCast]
    push_cast
    field_simp

theorem two_pow_1024_gt (q : ℚ) (h : q ≤ 2 ^ 54) : ¬ (2 : ℚ) ^ 1024 ≤ q := by
  intro hc
  have : (2 : ℚ) ^ 54 < (2 : ℚ) ^ 1024 :=
    pow_lt_pow_right₀ (by norm_num) (by norm_num)
  linarith

theorem ofNat_eq_fin (n : Nat) (h : n < 2 ^ 53) : JsNum.ofNat n = JsNum.fin n := by
  unfold JsNum.ofNat JsNum.round
  rw [fl_natCast n h]
  have hq : (n : ℚ) ≤ 2 ^ 54 := by
    have h1 : (n : ℚ) ≤ ((2 ^ 53 : Nat) : ℚ) := by exact_mod_cast h.le
    have h2 : ((2 ^ 53 : Nat) : ℚ) ≤ 2 ^ 54 := by norm_num
    exact h1.trans h2
  rw [if_neg (two_pow_1024_gt _ hq)]

/-- The sum of the counts as a natural number. -/
theorem stageTotal_eq_aux (l : List (String × Nat)) :
    ∀ acc : Nat, acc + (l.map Prod.snd).sum < 2 ^ 53 →
      (l.map fun e => JsNum.ofNat e.2).foldl JsNum.add (JsNum.fin acc) =
        JsNum.fin ((acc + (l.map Prod.snd).sum : Nat) : ℚ) := by
  induction l with
  | nil => intro acc _; simp
  | cons e rest ih =>
    intro acc h
    simp only [List.map_cons, List.sum_cons, List.foldl_cons] at h ⊢
    have he : e.2 < 2 ^ 53 := by omega
    have hae : acc + e.2 < 2 ^ 53 := by omega
    have hstep : JsNum.add (JsNum.fin acc) (JsNum.ofNat e.2) = JsNum.fin ((acc + e.2 : Nat) : ℚ) := by
      rw [ofNat_eq_fin _ he]
      have := ofNat_eq_fin _ hae
      unfold JsNum.ofNat at this
      simp only [JsNum.add]
      rw [← this]
      push_cast
      rfl
    rw [hstep, ih (acc + e.2) (by omega)]
    congr 2
    omega

theorem stageTotal_eq (l : List (String × Nat)) (h : (l.map Prod.snd).sum < 2 ^ 53) :
    stageTotal l = JsNum.fin (((l.map Prod.snd).sum : Nat) : ℚ) := by
  have := stageTotal_eq_aux l 0 (by simpa using h)
  simpa [stageTotal] using this

theorem two_zpow_neg53 : (2 : ℚ) ^ (-53 : Int) = 1 / 9007199254740992 := by
  rw [zpow_neg]
  norm_num

theorem two_zpow_neg1022_le : (2 : ℚ) ^ (-1022 : Int) ≤ 1 / 18014398509481984 := by
  have h : (2 : ℚ) ^ (-1022 : Int) ≤ (2 : ℚ) ^ (-54 : Int) :=
    (zpow_le_zpow_iff_right₀ (by norm_num : (1 : ℚ) < 2)).2 (by norm_num)
  have h54 : (2 : ℚ) ^ (-54 : Int) = 1 / 18014398509481984 := by
    rw [zpow_neg]
    norm_num
  rw [← h54]
  exact h

/-- The percentage expression of `pipelineData` for a count `c` out of a total
`T`, both exactly representable: an integer within `1/2 + 2^-45` of
`100 * c / T`. -/
theorem percentage_bound (c T : Nat) (hT : 0 < T) (hT53 : T < 2 ^ 53) (hc : c ≤ T) :
    ∃ p : Int,
      Math.round (JsNum.mul (JsNum.div (JsNum.ofNat c) (JsNum.fin T)) (JsNum.ofNat 100)) =
        JsNum.fin p ∧
      0 ≤ p ∧ p ≤ 100 ∧
      |(p : ℚ) - 100 * c / T| ≤ 1 / 2 + 1 / 2 ^ 45 := by
  have hTq : (0 : ℚ) < (T : ℚ) := by exact_mod_cast hT
  have hT53q : (T : ℚ) < 9007199254740992 := by exact_mod_cast hT53
  have hcq : (c : ℚ) ≤ (T : ℚ) := by exact_mod_cast hc
  have hc0 : (0 : ℚ) ≤ (c : ℚ) := by positivity
  have hq0 : 0 ≤ (c : ℚ) / T := div_nonneg hc0 hTq.le
  have hq1 : (c : ℚ) / T ≤ 1 := (div_le_one hTq).2 hcq
  -- the quotient is zero or well inside the normal range
  have hqr : (c : ℚ) / T = 0 ∨ 1 / 9007199254740992 ≤ (c : ℚ) / T := by
    rcases Nat.eq_zero_or_pos c with rfl | hcpos
    · left; simp
    · right
      have h1 : (1 : ℚ) ≤ (c : ℚ) := by exact_mod_cast hcpos
      rw [le_div_iff₀ hTq]
      linarith
  have hqn : (c : ℚ) / T = 0 ∨ (2 : ℚ) ^ (-1022 : Int) ≤ (c : ℚ) / T := by
    rcases hqr with h | h
    · exact Or.inl h
    · exact Or.inr (le_trans two_zpow_neg1022_le (by linarith))
  have ha := fl_rel_err _ hqn
  rw [two_zpow_neg53, abs_le] at ha
  obtain ⟨ha1, ha2⟩ := ha
  have ha0 := fl_nonneg ((c : ℚ) / T)
  -- the product is zero or well inside the normal range
  have hbn : fl ((c : ℚ) / T) * 100 = 0 ∨ (2 : ℚ) ^ (-1022 : Int) ≤ fl ((c : ℚ) / T) * 100 := by
    rcases hqr with h | h
    · left
      rw [h, fl_zero]
      simp
    · right
      exact le_trans two_zpow_neg1022_le (by linarith)
  have hb := fl_rel_err _ hbn
  rw [two_zpow_neg53, abs_le] at hb
  obtain ⟨hb1, hb2⟩ := hb
  have hb0 := fl_nonneg (fl ((c : ℚ) / T) * 100)
  -- evaluate the expression
  have hdiv : JsNum.div (JsNum.ofNat c) (JsNum.fin T) = JsNum.fin (fl ((c : ℚ) / T)) := by
    rw [ofNat_eq_fin c (lt_of_le_of_lt hc hT53)]
    simp only [JsNum.div]
    rw [if_neg hTq.ne']
    unfold JsNum.round
    rw [if_neg (two_pow_1024_gt _ (by linarith))]
  have hmul : JsNum.mul (JsNum.fin (fl ((c : ℚ) / T))) (JsNum.ofNat 100) =
      JsNum.fin (fl (fl ((c : ℚ) / T) * 100)) := by
    rw [ofNat_eq_fin 100 (by norm_num)]
    simp only [JsNum.mul]
    unfold JsNum.round
    push_cast
    rw [if_neg (two_pow_1024_gt _ (by linarith))]
  refine ⟨⌊fl (fl ((c : ℚ) / T) * 100) + 1 / 2⌋, ?_, ?_, ?_, ?_⟩
  · rw [hdiv, hmul]
    rfl
  · exact Int.floor_nonneg.2 (by linarith)
  · have hlt : fl (fl ((c : ℚ) / T) * 100) + 1 / 2 < ((101 : Int) : ℚ) := by
      push_cast
      linarith
    have := Int.floor_lt.2 hlt
    omega
  · have h1 := Int.floor_le (fl (fl ((c : ℚ) / T) * 100) + 1 / 2)
    have h2 := Int.lt_floor_add_one (fl (fl ((c : ℚ) / T) * 100) + 1 / 2)
    have hx : (100 : ℚ) * c / T = 100 * ((c : ℚ) / T) := by ring
    rw [hx, abs_le]
    constructor
    · norm_num
      linarith
    · norm_num
      linarith

/-! ## Pipeline percentages -/

theorem pipelineData_eq_map (l : List (String × Nat)) :
    pipelineData l =
      l.map fun e => { stage := e.1, count := JsNum.ofNat e.2,
                       percentage := stagePercentage l e.2 } := rfl

theorem le_sum_of_mem (l : List (String × Nat)) (e : String × Nat) (he : e ∈ l) :
    e.2 ≤ (l.map Prod.snd).sum :=
  List.single_le_sum (fun _ _ => Nat.zero_le _) _ (List.mem_map_of_mem Prod.snd he)

/-- C2 (the code on all-zero snapshots): when every stage count is zero the
total is `0`, each quotient is `0 / 0`, and every percentage in `pipelineData`
is `NaN`, not `0`. -/
theorem pipelineData_all_zero_nan (l : List (String × Nat)) (h : ∀ e ∈ l, e.2 = 0) :
    ∀ d ∈ pipelineData l, d.percentage = JsNum.nan := by
  have hsum : (l.map Prod.snd).sum = 0 := by
    apply List.sum_eq_zero
    intro x hx
    obtain ⟨e, he, rfl⟩ := List.mem_map.1 hx
    exact h e he
  have htot : stageTotal l = JsNum.fin 0 := by
    rw [stageTotal_eq l (by rw [hsum]; norm_num), hsum]
    simp
  intro d hd
  rw [pipelineData_eq_map] at hd
  obtain ⟨e, he, rfl⟩ := List.mem_map.1 hd
  simp only [stagePercentage, htot, h e he]
  rw [ofNat_eq_fin 0 (by norm_num)]
  simp [JsNum.div, JsNum.mul, Math.round]

theorem pipelineData_all_zero_nan_witness :
    (∀ e ∈ [("A", 0), ("B", 0)], e.2 = 0) ∧
    ∀ d ∈ pipelineData [("A", 0), ("B", 0)], d.percentage = JsNum.nan :=
  ⟨by decide, pipelineData_all_zero_nan [("A", 0), ("B", 0)] (by decide)⟩

/-- C3 (as stated, refuted): for counts `23` and `17` the total is `40` and
`100 * 23 / 40 = 57.5`, whose nearest integer with halves rounded up is `58`;
in double precision `23 / 40 * 100` is just below `57.5` and `pipelineData`
holds `57`. -/
theorem pipelineData_tie_rounds_down :
    pipelineData [("A", 23), ("B", 17)] =
      [⟨"A", JsNum.fin 23, JsNum.fin 57⟩, ⟨"B", JsNum.fin 17, JsNum.fin 43⟩] ∧
    ⌊(100 * 23 / (23 + 17) : ℚ) + 1 / 2⌋ = 58 := by
  decide!

/-- C3 (amended): for non-negative integer counts whose total `T` is positive
and below `2 ^ 53`, the percentage of each stage is an integer that differs from
`100 * count / T` by at most `1/2 + 2^-45`, hence is the nearest integer
whenever `100 * count / T` is farther than `2^-45` from a tie; counts
`{A:3, B:1}` give `{A:75, B:25}`; and reordering the stages only reorders
`pipelineData`. -/
theorem pipelineData_percentage_near (l : List (String × Nat))
    (hpos : 0 < (l.map Prod.snd).sum) (h53 : (l.map Prod.snd).sum < 2 ^ 53) :
    (pipelineData l =
      l.map fun e => { stage := e.1, count := JsNum.fin e.2,
                       percentage := stagePercentage l e.2 }) ∧
    (∀ e ∈ l, ∃ p : Int, stagePercentage l e.2 = JsNum.fin p ∧
      |(p : ℚ) - 100 * e.2 / ((l.map Prod.snd).sum : Nat)| ≤ 1 / 2 + 1 / 2 ^ 45 ∧
      ∀ k : Int, |(k : ℚ) - 100 * e.2 / ((l.map Prod.snd).sum : Nat)| < 1 / 2 - 1 / 2 ^ 45 →
        p = k) ∧
    pipelineData [("A", 3), ("B", 1)] =
      [⟨"A", JsNum.fin 3, JsNum.fin 75⟩, ⟨"B", JsNum.fin 1, JsNum.fin 25⟩] ∧
    ∀ l' : List (String × Nat), l'.Perm l → (pipelineData l').Perm (pipelineData l) := by
  have htot := stageTotal_eq l h53
  refine ⟨?_, ?_, by decide!, ?_⟩
  · rw [pipelineData_eq_map]
    apply List.map_congr_left
    intro e he
    rw [ofNat_eq_fin e.2 (lt_of_le_of_lt (le_sum_of_mem l e he) h53)]
  · intro e he
    obtain ⟨p, hp, _, _, hb⟩ :=
      percentage_bound e.2 _ hpos h53 (le_sum_of_mem l e he)
    refine ⟨p, ?_, hb, ?_⟩
    · rw [← hp, stagePercentage, htot]
    · intro k hk
      rw [abs_le] at hb
      rw [abs_lt] at hk
      have h1 : ((p - k : Int) : ℚ) < 1 := by
        push_cast
        linarith [hb.2, hk.1]
      have h2 : ((-1 : Int) : ℚ) < ((p - k : Int) : ℚ) := by
        push_cast
        linarith [hb.1, hk.2]
      have h1' : p - k < 1 := by exact_mod_cast h1
      have h2' : -1 < p - k := by exact_mod_cast h2
      omega
  · intro l' hperm
    have hsum : (l'.map Prod.snd).sum = (l.map Prod.snd).sum :=
      (hperm.map Prod.snd).sum_eq
    have htot' : stageTotal l' = stageTotal l := by
      rw [stageTotal_eq l' (by rw [hsum]; exact h53), htot, hsum]
    have hfun : pipelineData l' =
        l'.map fun e => { stage := e.1, count := JsNum.ofNat e.2,
                          percentage := stagePercentage l e.2 } := by
      rw [pipelineData_eq_map]
      apply List.map_congr_left
      intro e _
      simp only [stagePercentage, htot']
    rw [hfun, pipelineData_eq_map]
    exact hperm.map _

theorem pipelineData_percentage_near_witness :
    0 < ([("A", 23), ("B", 17)].map Prod.snd).sum ∧
    ([("A", 23), ("B", 17)].map Prod.snd).sum < 2 ^ 53 ∧
    ∀ l' : List (String × Nat), l'.Perm [("A", 23), ("B", 17)] →
      (pipelineData l').Perm (pipelineData [("A", 23), ("B", 17)]) :=
  ⟨by decide, by decide,
    (pipelineData_percentage_near [("A", 23), ("B", 17)] (by decide) (by decide)).2.2.2⟩

/-! ## Retrying a failed save -/

/-- C11: when the shortlist-create request fails, the continuation of
`handleSaveShortlist` stores the failure's (non-empty) message as the error and
changes nothing else, in whatever state it runs: selection, entered name and
result list are as before, no timer is started, and invoking
`handleSaveShortlist` again issues the same request with the same name and
identifiers. -/
theorem handleSaveShortlist_failure_keeps_selection (s : SearchState)
    (hname : jsTrim s.shortlistName ≠ "") (hsel : s.selectedCandidates ≠ [])
    (outcome : FetchOutcome Unit) (err : ApiError)
    (hfail : saveShortlist outcome = .error err) :
    (handleSaveShortlistSettled s.shortlistName (saveShortlist outcome)
        (handleSaveShortlist s).1).1 = { s with error := err.message } ∧
    err.message ≠ "" ∧
    (handleSaveShortlistSettled s.shortlistName (saveShortlist outcome)
        (handleSaveShortlist s).1).2 = [] ∧
    (handleSaveShortlist (handleSaveShortlistSettled s.shortlistName (saveShortlist outcome)
        (handleSaveShortlist s).1).1).2 =
      [Effect.saveShortlist s.shortlistName s.selectedCandidates] ∧
    (handleSaveShortlist s).2 = [Effect.saveShortlist s.shortlistName s.selectedCandidates] ∧
    ∀ now : SearchState,
      (handleSaveShortlistSettled s.shortlistName (saveShortlist outcome) now).1 =
        { now with error := err.message } := by
  have hne : err.message ≠ "" := gatewayCall_message_ne_empty _ (by decide) outcome err hfail
  have h1 : handleSaveShortlist s =
      (s, [Effect.saveShortlist s.shortlistName s.selectedCandidates]) := by
    rw [handleSaveShortlist_eq s, if_pos ⟨hsel, hname⟩]
  have h2 : handleSaveShortlist { s with error := err.message } =
      ({ s with error := err.message },
        [Effect.saveShortlist s.shortlistName s.selectedCandidates]) := by
    rw [handleSaveShortlist_eq, if_pos ⟨hsel, hname⟩]
  rw [hfail, h1]
  refine ⟨rfl, hne, rfl, ?_, rfl, fun _ => rfl⟩
  show (handleSaveShortlist { s with error := err.message }).2 = _
  rw [h2]

theorem handleSaveShortlist_failure_keeps_selection_witness :
    jsTrim ({ SearchState.initial with
        results := [⟨3, "Ada", "Byron"⟩, ⟨8, "Al", "Turing"⟩],
        shortlistName := "Finalists", selectedCandidates := [3, 8] }).shortlistName ≠ "" ∧
    ({ SearchState.initial with
        results := [⟨3, "Ada", "Byron"⟩, ⟨8, "Al", "Turing"⟩],
        shortlistName := "Finalists", selectedCandidates := [3, 8] }).selectedCandidates ≠
      [] ∧
    saveShortlist (failedResponse 500 "down") = .error ⟨"HTTP 500: down", 500⟩ ∧
    (handleSaveShortlistSettled "Finalists" (saveShortlist (failedResponse 500 "down"))
        (handleSaveShortlist { SearchState.initial with
          results := [⟨3, "Ada", "Byron"⟩, ⟨8, "Al", "Turing"⟩],
          shortlistName := "Finalists", selectedCandidates := [3, 8] }).1).1 =
      { SearchState.initial with
          results := [⟨3, "Ada", "Byron"⟩, ⟨8, "Al", "Turing"⟩],
          shortlistName := "Finalists", selectedCandidates := [3, 8],
          error := "HTTP 500: down" } :=
  ⟨by decide, by decide, rfl,
    (handleSaveShortlist_failure_keeps_selection
      { SearchState.initial with
        results := [⟨3, "Ada", "Byron"⟩, ⟨8, "Al", "Turing"⟩],
        shortlistName := "Finalists", selectedCandidates := [3, 8] }
      (by decide) (by decide) (failedResponse 500 "down") ⟨"HTTP 500: down", 500⟩
      rfl).1⟩

/-! ## Drafting an email -/

namespace EmailDraft

theorem notEmail_eq_false_iff (email : Option (Payload EmailData)) :
    notEmail email = false ↔
      (∃ data, email = some (.json data)) ∨ ∃ body, email = some (.text body) ∧ body ≠ "" := by
  cases email with
  | none => simp [notEmail]
  | some payload =>
    cases payload with
    | json data => simp [notEmail]
    | text body => simp [notEmail, jsNot_eq_false_iff]

theorem handleDraftEmail_of_roster (s : State) (h : s.recipients ≠ []) :
    handleDraftEmail s =
      ({ s with loading := true, error := "" },
        [Effect.draftEmail s.recipients s.jobTitle s.tone s.customSubject s.customClosing]) := by
  have hl : (s.recipients.length == 0) = false := by simpa using h
  simp [handleDraftEmail, hl]

theorem handleUpdateEmail_of_email (s : State) (h : notEmail s.email = false) :
    handleUpdateEmail s =
      ({ s with loading := true, error := "" },
        [Effect.draftEmail s.recipients s.jobTitle s.tone s.customSubject s.customClosing]) := by
  simp [handleUpdateEmail, h]

theorem handleUpdateEmailSettled_eq (outcome : Except ApiError (Payload EmailData))
    (s : State) : handleUpdateEmailSettled outcome s = handleDraftEmailSettled outcome s := by
  cases outcome <;> rfl

/-- C12: when a draft is stored and the roster is non-empty, `handleUpdateEmail`
issues exactly the call `handleDraftEmail` would issue from that state:
`draftEmail` with the current roster, job title, tone, custom subject and custom
closing, whose posted body holds these five values; and with only
`customSubject` changed, the call and the body differ from the former ones in
the custom subject alone. -/
theorem handleUpdateEmail_resends_all (s : State) (hemail : notEmail s.email = false)
    (hroster : s.recipients ≠ []) (subject : String) :
    (handleUpdateEmail s).2 =
      [Effect.draftEmail s.recipients s.jobTitle s.tone s.customSubject s.customClosing] ∧
    (handleUpdateEmail s).2 = (handleDraftEmail s).2 ∧
    draftEmailPosts s.recipients (some s.jobTitle) (some s.tone) (some s.customSubject)
        (some s.customClosing) =
      [{ recipients := s.recipients, jobTitle := s.jobTitle, tone := s.tone,
         customSubject := s.customSubject, customClosing := s.customClosing }] ∧
    (handleUpdateEmail { s with customSubject := subject }).2 =
      [Effect.draftEmail s.recipients s.jobTitle s.tone subject s.customClosing] ∧
    draftEmailBody s.recipients (some s.jobTitle) (some s.tone) (some subject)
        (some s.customClosing) =
      { draftEmailBody s.recipients (some s.jobTitle) (some s.tone) (some s.customSubject)
          (some s.customClosing) with customSubject := subject } := by
  refine ⟨?_, ?_, rfl, ?_, rfl⟩
  · rw [handleUpdateEmail_of_email s hemail]
  · rw [handleUpdateEmail_of_email s hemail, handleDraftEmail_of_roster s hroster]
  · rw [handleUpdateEmail_of_email { s with customSubject := subject } hemail]

theorem handleUpdateEmail_resends_all_witness :
    notEmail ({ State.initial with
        recipients := [⟨"Ada Byron", "ada@example.org", "Rabat", "Interview", "2025-01-01"⟩],
        email := some (.json ⟨"Hello", "Dear Ada", 1⟩) }).email = false ∧
    ({ State.initial with
        recipients := [⟨"Ada Byron", "ada@example.org", "Rabat", "Interview", "2025-01-01"⟩],
        email := some (.json ⟨"Hello", "Dear Ada", 1⟩) }).recipients ≠ [] ∧
    (handleUpdateEmail { { State.initial with
        recipients := [⟨"Ada Byron", "ada@example.org", "Rabat", "Interview", "2025-01-01"⟩],
        email := some (.json ⟨"Hello", "Dear Ada", 1⟩) } with customSubject := "Hi there" }).2 =
      [Effect.draftEmail
        [⟨"Ada Byron", "ada@example.org", "Rabat", "Interview", "2025-01-01"⟩]
        "Software Developer" "friendly" "Hi there" ""] :=
  ⟨by decide, by decide,
    (handleUpdateEmail_resends_all
      { State.initial with
        recipients := [⟨"Ada Byron", "ada@example.org", "Rabat", "Interview", "2025-01-01"⟩],
        email := some (.json ⟨"Hello", "Dear Ada", 1⟩) }
      (by decide) (by decide) "Hi there").2.2.2.1⟩

/-- C13: with an empty roster `handleDraftEmail` issues no call, stores the
message `Please select a shortlist with recipients` as the error, and leaves
every other field, the stored draft and the loading flag included, as it
was. -/
theorem handleDraftEmail_empty_roster (s : State) (h : s.recipients = []) :
    handleDraftEmail s =
      ({ s with error := "Please select a shortlist with recipients" }, []) ∧
    (handleDraftEmail s).2 = [] ∧
    (handleDraftEmail s).1.error = "Please select a shortlist with recipients" ∧
    (handleDraftEmail s).1.error ≠ "" ∧
    (handleDraftEmail s).1.email = s.email ∧
    (handleDraftEmail s).1.loading = s.loading := by
  have hs : handleDraftEmail s =
      ({ s with error := "Please select a shortlist with recipients" }, []) := by
    simp [handleDraftEmail, h]
  rw [hs]
  refine ⟨rfl, rfl, rfl, ?_, rfl, rfl⟩
  show ("Please select a shortlist with recipients" : String) ≠ ""
  decide

theorem handleDraftEmail_empty_roster_witness :
    ({ State.initial with
        email := some (.json ⟨"Hello", "Dear Ada", 1⟩), loading := true }).recipients = [] ∧
    (handleDraftEmail { State.initial with
        email := some (.json ⟨"Hello", "Dear Ada", 1⟩), loading := true }).2 = [] :=
  ⟨rfl, (handleDraftEmail_empty_roster _ rfl).2.1⟩

/-! ## Switching the shortlist -/

theorem handleShortlistChange_reset (name : String) (s : State) :
    (handleShortlistChange name s).1.selectedShortlist = name ∧
    (handleShortlistChange name s).1.customSubject = "" ∧
    (handleShortlistChange name s).1.customClosing = "" ∧
    (handleShortlistChange name s).1.email = none ∧
    (handleShortlistChange name s).1.shortlists = s.shortlists := by
  unfold handleShortlistChange
  split <;> exact ⟨rfl, rfl, rfl, rfl, rfl⟩

theorem handleShortlistChange_of_name (name : String) (s : State) (h : name ≠ "") :
    handleShortlistChange name s =
      ({ s with selectedShortlist := name, email := none, customSubject := "",
                customClosing := "" }, [Effect.getShortlistDetails name]) := by
  have hn : jsNot name = false := (jsNot_eq_false_iff _).2 h
  simp [handleShortlistChange, hn]

/-- C15: for every prior state and every shortlist name, the empty one
included, `handleShortlistChange` has set `customSubject` and `customClosing` to
empty and the stored draft to `null` in the state from which the roster request
is pending (no request at all for the empty name, which empties the roster);
and when the roster request settles, by success or failure, these three fields
are still reset. -/
theorem handleShortlistChange_discards_overrides (name : String) (s : State)
    (outcome : FetchOutcome ShortlistDetail) :
    (handleShortlistChange name s).1.customSubject = "" ∧
    (handleShortlistChange name s).1.customClosing = "" ∧
    (handleShortlistChange name s).1.email = none ∧
    (handleShortlistChange name s).1.selectedShortlist = name ∧
    (handleShortlistChange name s).2 =
      (if name = "" then [] else [Effect.getShortlistDetails name]) ∧
    (handleShortlistChange "" s).1.recipients = [] ∧
    (handleShortlistChangeSettled (getShortlistDetails outcome)
      (handleShortlistChange name s).1).customSubject = "" ∧
    (handleShortlistChangeSettled (getShortlistDetails outcome)
      (handleShortlistChange name s).1).customClosing = "" ∧
    (handleShortlistChangeSettled (getShortlistDetails outcome)
      (handleShortlistChange name s).1).email = none := by
  obtain ⟨h1, h2, h3, h4, _⟩ := handleShortlistChange_reset name s
  refine ⟨h2, h3, h4, h1, ?_, ?_, ?_, ?_, ?_⟩
  · by_cases hn : name = ""
    · subst hn
      simp [handleShortlistChange, jsNot]
    · rw [handleShortlistChange_of_name name s hn, if_neg hn]
  · simp [handleShortlistChange, jsNot]
  · cases getShortlistDetails outcome <;> exact h2
  · cases getShortlistDetails outcome <;> exact h3
  · cases getShortlistDetails outcome <;> exact h4

/-- C16 (as stated, refuted): a draft is stored, the shortlist is switched to
`"B"` and the detail request fails; afterwards no draft is stored, so the draft
is not what it was before the call. -/
theorem handleShortlistChange_failure_drops_draft :
    ({ State.initial with email := some (.json ⟨"Hello", "Dear Ada", 1⟩) } : State).email =
      some (.json ⟨"Hello", "Dear Ada", 1⟩) ∧
    (handleShortlistChange "B"
        { State.initial with email := some (.json ⟨"Hello", "Dear Ada", 1⟩) }).2 =
      [Effect.getShortlistDetails "B"] ∧
    getShortlistDetails (failedResponse 404 "no such shortlist") =
      .error ⟨"HTTP 404: no such shortlist", 404⟩ ∧
    (handleShortlistChangeSettled (getShortlistDetails (failedResponse 404 "no such shortlist"))
      (handleShortlistChange "B"
        { State.initial with email := some (.json ⟨"Hello", "Dear Ada", 1⟩) }).1).email =
      none :=
  ⟨rfl, by decide, rfl, by decide⟩

/-- C16 (amended): when the shortlist-detail request issued by
`handleShortlistChange` fails, the summary list of shortlists is the same after
the call as before it, the failure's message is stored as the error and the
roster is empty; the stored draft is `null` afterwards, because the handler
clears it before the request, so it is what it was only when no draft was
stored. -/
theorem handleShortlistChange_failure (name : String) (s : State) (hname : name ≠ "")
    (outcome : FetchOutcome ShortlistDetail) (err : ApiError)
    (hfail : getShortlistDetails outcome = .error err) :
    (handleShortlistChange name s).2 = [Effect.getShortlistDetails name] ∧
    (handleShortlistChangeSettled (getShortlistDetails outcome)
      (handleShortlistChange name s).1).shortlists = s.shortlists ∧
    (handleShortlistChangeSettled (getShortlistDetails outcome)
      (handleShortlistChange name s).1).email = none ∧
    ((handleShortlistChangeSettled (getShortlistDetails outcome)
      (handleShortlistChange name s).1).email = s.email ↔ s.email = none) ∧
    (handleShortlistChangeSettled (getShortlistDetails outcome)
      (handleShortlistChange name s).1).error = err.message ∧
    (handleShortlistChangeSettled (getShortlistDetails outcome)
      (handleShortlistChange name s).1).recipients = [] := by
  rw [hfail, handleShortlistChange_of_name name s hname]
  refine ⟨rfl, rfl, rfl, ?_, rfl, rfl⟩
  simp only [handleShortlistChangeSettled]
  exact eq_comm

theorem handleShortlistChange_failure_witness :
    ("B" : String) ≠ "" ∧
    getShortlistDetails (failedResponse 404 "no such shortlist") =
      .error ⟨"HTTP 404: no such shortlist", 404⟩ ∧
    (handleShortlistChangeSettled (getShortlistDetails (failedResponse 404 "no such shortlist"))
      (handleShortlistChange "B"
        { State.initial with
          shortlists := [⟨"A", 1, ["Ada Byron"]⟩, ⟨"B", 0, []⟩],
          email := some (.json ⟨"Hello", "Dear Ada", 1⟩) }).1).shortlists =
      [⟨"A", 1, ["Ada Byron"]⟩, ⟨"B", 0, []⟩] :=
  ⟨by decide, rfl,
    (handleShortlistChange_failure "B"
      { State.initial with
        shortlists := [⟨"A", 1, ["Ada Byron"]⟩, ⟨"B", 0, []⟩],
        email := some (.json ⟨"Hello", "Dear Ada", 1⟩) }
      (by decide) (failedResponse 404 "no such shortlist")
      ⟨"HTTP 404: no such shortlist", 404⟩ rfl).2.1⟩

end EmailDraft

namespace EmailDraft

/-! ## The HTML preview -/

theorem handleShowHtmlPreview_eq (s : State) :
    handleShowHtmlPreview s =
      (s, match s.email with
          | some email =>
            if notEmail s.email then []
            else [Effect.getEmailHtmlPreview (emailSubject email) (emailText email)]
          | none => []) := by
  unfold handleShowHtmlPreview
  cases h : s.email with
  | none => rfl
  | some email =>
    simp only
    split <;> rfl

/-- C17: `handleShowHtmlPreview` issues a render call exactly when a draft is
stored (`email` is truthy), the call carries the stored draft's `subject` and
`text`, the handler itself changes no state, and its continuation, whether the
call succeeded or failed and in whatever state it runs, leaves the stored
draft, roster, job title, tone, both overrides and the loading flag as they
are. -/
theorem handleShowHtmlPreview_frame (s now : State) (outcome : FetchOutcome HtmlData)
    (popup : Except String Unit) :
    ((handleShowHtmlPreview s).2 ≠ [] ↔ notEmail s.email = false) ∧
    (∀ email, s.email = some email → notEmail s.email = false →
      (handleShowHtmlPreview s).2 =
        [Effect.getEmailHtmlPreview (emailSubject email) (emailText email)]) ∧
    (∀ data, s.email = some (.json data) →
      (handleShowHtmlPreview s).2 =
        [Effect.getEmailHtmlPreview (some data.subject) (some data.text)]) ∧
    (handleShowHtmlPreview s).1 = s ∧
    (handleShowHtmlPreviewSettled (getEmailHtmlPreview outcome) popup now).1.email =
      now.email ∧
    (handleShowHtmlPreviewSettled (getEmailHtmlPreview outcome) popup now).1.recipients =
      now.recipients ∧
    (handleShowHtmlPreviewSettled (getEmailHtmlPreview outcome) popup now).1.jobTitle =
      now.jobTitle ∧
    (handleShowHtmlPreviewSettled (getEmailHtmlPreview outcome) popup now).1.tone =
      now.tone ∧
    (handleShowHtmlPreviewSettled (getEmailHtmlPreview outcome) popup now).1.customSubject =
      now.customSubject ∧
    (handleShowHtmlPreviewSettled (getEmailHtmlPreview outcome) popup now).1.customClosing =
      now.customClosing ∧
    (handleShowHtmlPreviewSettled (getEmailHtmlPreview outcome) popup now).1.loading =
      now.loading := by
  refine ⟨?_, ?_, ?_, ?_, ?_⟩
  · rw [handleShowHtmlPreview_eq]
    cases h : s.email with
    | none => simp [notEmail]
    | some email =>
      by_cases hn : notEmail (some email) = true
      · simp [hn]
      · simp [hn]
  · intro email he hn
    rw [handleShowHtmlPreview_eq]
    simp [he, he ▸ hn]
  · intro data he
    rw [handleShowHtmlPreview_eq]
    simp [he, notEmail, emailSubject, emailText]
  · rw [handleShowHtmlPreview_eq]
  · unfold handleShowHtmlPreviewSettled
    cases getEmailHtmlPreview outcome with
    | error err => exact ⟨rfl, rfl, rfl, rfl, rfl, rfl, rfl⟩
    | ok htmlData =>
      cases popup with
      | ok u => exact ⟨rfl, rfl, rfl, rfl, rfl, rfl, rfl⟩
      | error message => exact ⟨rfl, rfl, rfl, rfl, rfl, rfl, rfl⟩

theorem handleShowHtmlPreview_frame_witness :
    ({ State.initial with email := some (.json ⟨"Hello", "Dear Ada", 1⟩) } : State).email =
      some (.json ⟨"Hello", "Dear Ada", 1⟩) ∧
    (handleShowHtmlPreview
        { State.initial with email := some (.json ⟨"Hello", "Dear Ada", 1⟩) }).2 =
      [Effect.getEmailHtmlPreview (some "Hello") (some "Dear Ada")] :=
  ⟨rfl,
    (handleShowHtmlPreview_frame
      { State.initial with email := some (.json ⟨"Hello", "Dear Ada", 1⟩) } State.initial
      (failedResponse 503 "render down") (.ok ())).2.2.1 ⟨"Hello", "Dear Ada", 1⟩ rfl⟩

/-- C18 (as stated, refuted): through the rendered component a draft is made,
an update of it fails with `HTTP 500: draft failed`, which is stored as the
error while the draft stays; `View HTML` is then clicked and its request fails:
the error now reads `HTTP 503: render down` and the drafting error message is
gone. -/
theorem preview_failure_overwrites_draft_error :
    admitsEvents Session.step Session.offered Session.initial
        [.listSettles (jsonResponse ⟨some [⟨"A", 1, ["Ada Byron"]⟩]⟩),
          .changeShortlist "A",
          .detailsSettle 0 (jsonResponse
            ⟨"A", some [⟨"Ada Byron", "ada@example.org", "Rabat", "Interview", "2025-01-01"⟩]⟩),
          .clickDraft,
          .draftSettles 0 (jsonResponse ⟨"Hello", "Dear Ada", 1⟩),
          .clickUpdate,
          .draftSettles 0 (failedResponse 500 "draft failed"),
          .clickViewHtml,
          .previewSettles 0 (failedResponse 503 "render down") (.ok ())] = true ∧
    (runEvents Session.step Session.initial
        [.listSettles (jsonResponse ⟨some [⟨"A", 1, ["Ada Byron"]⟩]⟩),
          .changeShortlist "A",
          .detailsSettle 0 (jsonResponse
            ⟨"A", some [⟨"Ada Byron", "ada@example.org", "Rabat", "Interview", "2025-01-01"⟩]⟩),
          .clickDraft,
          .draftSettles 0 (jsonResponse ⟨"Hello", "Dear Ada", 1⟩),
          .clickUpdate,
          .draftSettles 0 (failedResponse 500 "draft failed"),
          .clickViewHtml]).ui.error = "HTTP 500: draft failed" ∧
    (runEvents Session.step Session.initial
        [.listSettles (jsonResponse ⟨some [⟨"A", 1, ["Ada Byron"]⟩]⟩),
          .changeShortlist "A",
          .detailsSettle 0 (jsonResponse
            ⟨"A", some [⟨"Ada Byron", "ada@example.org", "Rabat", "Interview", "2025-01-01"⟩]⟩),
          .clickDraft,
          .draftSettles 0 (jsonResponse ⟨"Hello", "Dear Ada", 1⟩),
          .clickUpdate,
          .draftSettles 0 (failedResponse 500 "draft failed"),
          .clickViewHtml,
          .previewSettles 0 (failedResponse 503 "render down") (.ok ())]).ui.error =
      "HTTP 503: render down" := by
  decide

/-- C18 (amended): a failure of the HTML-preview request is stored in the one
`error` state of the component: in whatever state it runs, the continuation of
a failing `handleShowHtmlPreview` replaces the error message held, a drafting
error included, by the preview failure's (non-empty) message, changes no other
field and writes no window. -/
theorem preview_failure_replaces_error (now : State) (outcome : FetchOutcome HtmlData)
    (popup : Except String Unit) (err : ApiError)
    (hfail : getEmailHtmlPreview outcome = .error err) :
    handleShowHtmlPreviewSettled (getEmailHtmlPreview outcome) popup now =
      ({ now with error := err.message }, []) ∧
    err.message ≠ "" := by
  refine ⟨?_, gatewayCall_message_ne_empty _ (by decide) outcome err hfail⟩
  rw [hfail]
  rfl

theorem preview_failure_replaces_error_witness :
    getEmailHtmlPreview (failedResponse 503 "render down") =
      .error ⟨"HTTP 503: render down", 503⟩ ∧
    handleShowHtmlPreviewSettled (getEmailHtmlPreview (failedResponse 503 "render down"))
        (.ok ())
        { State.initial with
          email := some (.json ⟨"Hello", "Dear Ada", 1⟩), error := "HTTP 500: draft failed" } =
      ({ State.initial with
          email := some (.json ⟨"Hello", "Dear Ada", 1⟩), error := "HTTP 503: render down" },
        []) :=
  ⟨rfl,
    (preview_failure_replaces_error
      { State.initial with
        email := some (.json ⟨"Hello", "Dear Ada", 1⟩), error := "HTTP 500: draft failed" }
      (failedResponse 503 "render down") (.ok ()) ⟨"HTTP 503: render down", 503⟩ rfl).1⟩

end EmailDraft

/-! ## Runs of events, in general -/

theorem ReachableFrom.of_admits {σ ε : Type} {step : σ → ε → σ} {guard : σ → ε → Bool} {init : σ}
    (events : List ε) :
    ∀ {w : σ}, ReachableFrom step guard init w → admitsEvents step guard w events = true →
      ReachableFrom step guard init (runEvents step w events) := by
  induction events with
  | nil => intro w hw _; exact hw
  | cons e rest ih =>
    intro w hw ha
    simp only [admitsEvents, Bool.and_eq_true] at ha
    exact ih (ReachableFrom.step e hw ha.1) ha.2

namespace EmailDraft

/-! ## The tone of a draft -/

theorem emit_keeps_ui (w : Session) (effects : List Effect) : (w.emit effects).ui = w.ui := by
  induction effects generalizing w with
  | nil => rfl
  | cons e rest ih => cases e <;> simp [Session.emit, ih]

theorem handleShortlistChange_tone (name : String) (s : State) :
    (handleShortlistChange name s).1.tone = s.tone := by
  unfold handleShortlistChange
  split <;> rfl

theorem handleDraftEmail_tone (s : State) : (handleDraftEmail s).1.tone = s.tone := by
  unfold handleDraftEmail
  split <;> rfl

theorem handleUpdateEmail_tone (s : State) : (handleUpdateEmail s).1.tone = s.tone := by
  unfold handleUpdateEmail
  split <;> rfl

theorem step_tone (w : Session) (e : Event) (h : ∀ value, e ≠ Event.changeTone value) :
    (w.step e).ui.tone = w.ui.tone := by
  cases e with
  | changeTone value => exact absurd rfl (h value)
  | changeShortlist name => simp [Session.step, emit_keeps_ui, handleShortlistChange_tone]
  | changeJobTitle value => rfl
  | changeCustomSubject value => rfl
  | changeCustomClosing value => rfl
  | clickDraft => simp [Session.step, emit_keeps_ui, handleDraftEmail_tone]
  | clickUpdate => simp [Session.step, emit_keeps_ui, handleUpdateEmail_tone]
  | clickViewHtml => simp [Session.step, emit_keeps_ui, handleShowHtmlPreview_eq]
  | listSettles outcome =>
    simp only [Session.step]
    split
    · simp only [loadShortlistsSettled]
      cases getShortlists outcome <;> rfl
    · rfl
  | detailsSettle k outcome =>
    simp only [Session.step]
    split
    · simp only [handleShortlistChangeSettled]
      cases getShortlistDetails outcome <;> rfl
    · rfl
  | draftSettles k outcome =>
    simp only [Session.step]
    split
    · simp only [handleDraftEmailSettled]
      cases draftEmail outcome <;> rfl
    · rfl
  | previewSettles k outcome popup =>
    simp only [Session.step]
    split
    · simp only [emit_keeps_ui, handleShowHtmlPreviewSettled]
      cases getEmailHtmlPreview outcome with
      | error err => rfl
      | ok htmlData => cases popup <;> rfl
    · rfl

theorem tone_of_reachable {w : Session}
    (h : ReachableFrom Session.step Session.offered Session.initial w) :
    w.ui.tone = "friendly" ∨ w.ui.tone = "professional" := by
  induction h with
  | init => exact Or.inl rfl
  | step e _ hoff ih =>
    by_cases hc : ∃ value, e = Event.changeTone value
    · obtain ⟨value, rfl⟩ := hc
      simp only [Session.offered, Bool.or_eq_true, beq_iff_eq] at hoff
      exact hoff
    · rw [step_tone _ e (fun value hv => hc ⟨value, hv⟩)]
      exact ih

/-- C14 (as stated, refuted): with the tone `casual`, neither `friendly` nor
`professional`, `handleDraftEmail` issues the draft call carrying `casual`, and
the gateway function `draftEmail` posts a body whose tone is `casual`. -/
theorem draft_with_other_tone_is_sent :
    ("casual" : String) ≠ "friendly" ∧ ("casual" : String) ≠ "professional" ∧
    (handleDraftEmail
        { State.initial with
          recipients := [⟨"Ada Byron", "ada@example.org", "Rabat", "Interview", "2025-01-01"⟩],
          tone := "casual" }).2 =
      [Effect.draftEmail
        [⟨"Ada Byron", "ada@example.org", "Rabat", "Interview", "2025-01-01"⟩]
        "Software Developer" "casual" "" ""] ∧
    draftEmailPosts [⟨"Ada Byron", "ada@example.org", "Rabat", "Interview", "2025-01-01"⟩]
        (some "Software Developer") (some "casual") none none =
      [{ recipients := [⟨"Ada Byron", "ada@example.org", "Rabat", "Interview", "2025-01-01"⟩],
         jobTitle := "Software Developer", tone := "casual", customSubject := "",
         customClosing := "" }] := by
  decide

/-- C14 (amended): neither `handleDraftEmail` nor the gateway function
`draftEmail` checks the tone: with a non-empty roster `handleDraftEmail` issues
the draft call carrying whatever tone the state holds, and `draftEmail` posts
one body carrying the tone it is given (`friendly` when it is given none). The
tone `select` offers only `friendly` and `professional` and the initial tone is
`friendly`, so in every state reachable by the events the rendered component
offers the tone is one of these two. -/
theorem tone_unchecked_but_offered_from_two (s : State) (hroster : s.recipients ≠ [])
    (tone : String) (recipients : List ShortlistMember)
    (jobTitle customSubject customClosing : Option String) :
    (handleDraftEmail { s with tone := tone }).2 =
      [Effect.draftEmail s.recipients s.jobTitle tone s.customSubject s.customClosing] ∧
    draftEmailPosts recipients jobTitle (some tone) customSubject customClosing =
      [{ draftEmailBody recipients jobTitle none customSubject customClosing with
         tone := tone }] ∧
    (draftEmailBody recipients jobTitle none customSubject customClosing).tone = "friendly" ∧
    ∀ w : Session, ReachableFrom Session.step Session.offered Session.initial w →
      w.ui.tone = "friendly" ∨ w.ui.tone = "professional" := by
  refine ⟨?_, rfl, rfl, fun w hw => tone_of_reachable hw⟩
  rw [handleDraftEmail_of_roster { s with tone := tone } hroster]

theorem tone_unchecked_but_offered_from_two_witness :
    ({ State.initial with
        recipients := [⟨"Ada Byron", "ada@example.org", "Rabat", "Interview", "2025-01-01"⟩] }
      : State).recipients ≠ [] ∧
    (handleDraftEmail
        { { State.initial with
            recipients :=
              [⟨"Ada Byron", "ada@example.org", "Rabat", "Interview", "2025-01-01"⟩] } with
          tone := "casual" }).2 =
      [Effect.draftEmail
        [⟨"Ada Byron", "ada@example.org", "Rabat", "Interview", "2025-01-01"⟩]
        "Software Developer" "casual" "" ""] :=
  ⟨by decide,
    (tone_unchecked_but_offered_from_two
      { State.initial with
        recipients := [⟨"Ada Byron", "ada@example.org", "Rabat", "Interview", "2025-01-01"⟩] }
      (by decide) "casual" [] none none none).1⟩

end EmailDraft

namespace ShortlistManager

/-! ## Opening a shortlist -/

/-- C19, failing run: in the rendered list view the card of `A` is clicked and
then the card of `B` while the first request is pending; the response for `B`
arrives first and the response for `A` second, each with its roster. Every
step is offered by the component, which stays mounted; after the response for
`B` the detail of `B` is held, and at the end the details view shows the detail
returned for `A` while the selected name is `B`: the late response for `A` is
not ignored. -/
theorem late_detail_response_overwrites :
    admitsEvents Session.step Session.offered Session.initial
        [.listSettles (jsonResponse ⟨some [⟨"A", 1, ["Ada Byron"]⟩, ⟨"B", 1, ["Bo Li"]⟩]⟩),
          .clickShortlist "A", .clickShortlist "B",
          .detailsSettle 1 (jsonResponse ⟨"B", some [⟨"Bo Li", "bo@example.org", "Fes",
            "Offer", "2025-02-01"⟩]⟩),
          .detailsSettle 0 (jsonResponse ⟨"A", some [⟨"Ada Byron", "ada@example.org", "Rabat",
            "Interview", "2025-01-01"⟩]⟩)] = true ∧
    (runEvents Session.step Session.initial
        [.listSettles (jsonResponse ⟨some [⟨"A", 1, ["Ada Byron"]⟩, ⟨"B", 1, ["Bo Li"]⟩]⟩),
          .clickShortlist "A", .clickShortlist "B"]).details = ["A", "B"] ∧
    (runEvents Session.step Session.initial
        [.listSettles (jsonResponse ⟨some [⟨"A", 1, ["Ada Byron"]⟩, ⟨"B", 1, ["Bo Li"]⟩]⟩),
          .clickShortlist "A", .clickShortlist "B",
          .detailsSettle 1 (jsonResponse ⟨"B", some [⟨"Bo Li", "bo@example.org", "Fes",
            "Offer", "2025-02-01"⟩]⟩)]).ui.shortlistDetails =
      some (.json ⟨"B", some [⟨"Bo Li", "bo@example.org", "Fes", "Offer", "2025-02-01"⟩]⟩) ∧
    (runEvents Session.step Session.initial
        [.listSettles (jsonResponse ⟨some [⟨"A", 1, ["Ada Byron"]⟩, ⟨"B", 1, ["Bo Li"]⟩]⟩),
          .clickShortlist "A", .clickShortlist "B",
          .detailsSettle 1 (jsonResponse ⟨"B", some [⟨"Bo Li", "bo@example.org", "Fes",
            "Offer", "2025-02-01"⟩]⟩),
          .detailsSettle 0 (jsonResponse ⟨"A", some [⟨"Ada Byron", "ada@example.org", "Rabat",
            "Interview", "2025-01-01"⟩]⟩)]).ui.shortlistDetails =
      some (.json ⟨"A", some [⟨"Ada Byron", "ada@example.org", "Rabat", "Interview",
        "2025-01-01"⟩]⟩) ∧
    (runEvents Session.step Session.initial
        [.listSettles (jsonResponse ⟨some [⟨"A", 1, ["Ada Byron"]⟩, ⟨"B", 1, ["Bo Li"]⟩]⟩),
          .clickShortlist "A", .clickShortlist "B",
          .detailsSettle 1 (jsonResponse ⟨"B", some [⟨"Bo Li", "bo@example.org", "Fes",
            "Offer", "2025-02-01"⟩]⟩),
          .detailsSettle 0 (jsonResponse ⟨"A", some [⟨"Ada Byron", "ada@example.org", "Rabat",
            "Interview", "2025-01-01"⟩]⟩)]).ui.selectedShortlist = some "B" ∧
    (runEvents Session.step Session.initial
        [.listSettles (jsonResponse ⟨some [⟨"A", 1, ["Ada Byron"]⟩, ⟨"B", 1, ["Bo Li"]⟩]⟩),
          .clickShortlist "A", .clickShortlist "B",
          .detailsSettle 1 (jsonResponse ⟨"B", some [⟨"Bo Li", "bo@example.org", "Fes",
            "Offer", "2025-02-01"⟩]⟩),
          .detailsSettle 0 (jsonResponse ⟨"A", some [⟨"Ada Byron", "ada@example.org", "Rabat",
            "Interview", "2025-01-01"⟩]⟩)]).mounted = true ∧
    detailsDisplayed (runEvents Session.step Session.initial
        [.listSettles (jsonResponse ⟨some [⟨"A", 1, ["Ada Byron"]⟩, ⟨"B", 1, ["Bo Li"]⟩]⟩),
          .clickShortlist "A", .clickShortlist "B",
          .detailsSettle 1 (jsonResponse ⟨"B", some [⟨"Bo Li", "bo@example.org", "Fes",
            "Offer", "2025-02-01"⟩]⟩),
          .detailsSettle 0 (jsonResponse ⟨"A", some [⟨"Ada Byron", "ada@example.org", "Rabat",
            "Interview", "2025-01-01"⟩]⟩)]).ui = true := by
  decide

/-- A detail without a roster cannot be rendered: when the response for `B`
carries no `candidates` field the details view throws and the component is
unmounted, so the response for `A` that settles afterwards changes nothing. -/
theorem detail_without_roster_unmounts :
    (runEvents Session.step Session.initial
        [.listSettles (jsonResponse ⟨some [⟨"A", 1, ["Ada Byron"]⟩, ⟨"B", 1, ["Bo Li"]⟩]⟩),
          .clickShortlist "A", .clickShortlist "B",
          .detailsSettle 1 (jsonResponse ⟨"B", none⟩)]).mounted = false ∧
    runEvents Session.step Session.initial
        [.listSettles (jsonResponse ⟨some [⟨"A", 1, ["Ada Byron"]⟩, ⟨"B", 1, ["Bo Li"]⟩]⟩),
          .clickShortlist "A", .clickShortlist "B",
          .detailsSettle 1 (jsonResponse ⟨"B", none⟩),
          .detailsSettle 0 (jsonResponse ⟨"A", some [⟨"Ada Byron", "ada@example.org", "Rabat",
            "Interview", "2025-01-01"⟩]⟩)] =
      runEvents Session.step Session.initial
        [.listSettles (jsonResponse ⟨some [⟨"A", 1, ["Ada Byron"]⟩, ⟨"B", 1, ["Bo Li"]⟩]⟩),
          .clickShortlist "A", .clickShortlist "B",
          .detailsSettle 1 (jsonResponse ⟨"B", none⟩)] := by
  decide

/-- C20: for every summary list and every shortlist name, when the detail
request issued by `handleShortlistClick` fails, the summary list is the list
held before the call, the error message is the failure's (non-empty) message,
no detail is held and `loading` is false. -/
theorem handleShortlistClick_failure (s : State) (name : String)
    (outcome : FetchOutcome ShortlistDetail) (err : ApiError)
    (hfail : getShortlistDetails outcome = .error err) :
    (handleShortlistClick name s).2 = [Effect.getShortlistDetails name] ∧
    (handleShortlistClickSettled (getShortlistDetails outcome)
      (handleShortlistClick name s).1).shortlists = s.shortlists ∧
    (handleShortlistClickSettled (getShortlistDetails outcome)
      (handleShortlistClick name s).1).error = err.message ∧
    err.message ≠ "" ∧
    (handleShortlistClickSettled (getShortlistDetails outcome)
      (handleShortlistClick name s).1).shortlistDetails = none ∧
    (handleShortlistClickSettled (getShortlistDetails outcome)
      (handleShortlistClick name s).1).loading = false := by
  rw [hfail]
  exact ⟨rfl, rfl, rfl, gatewayCall_message_ne_empty _ (by decide) outcome err hfail, rfl, rfl⟩

theorem handleShortlistClick_failure_witness :
    getShortlistDetails (failedResponse 404 "no such shortlist") =
      .error ⟨"HTTP 404: no such shortlist", 404⟩ ∧
    (handleShortlistClickSettled (getShortlistDetails (failedResponse 404 "no such shortlist"))
      (handleShortlistClick "B"
        { State.initial with
          shortlists := [⟨"A", 1, ["Ada Byron"]⟩, ⟨"B", 1, ["Bo Li"]⟩],
          shortlistDetails := some (.json ⟨"A", some []⟩) }).1).shortlists =
      [⟨"A", 1, ["Ada Byron"]⟩, ⟨"B", 1, ["Bo Li"]⟩] :=
  ⟨rfl,
    (handleShortlistClick_failure
      { State.initial with
        shortlists := [⟨"A", 1, ["Ada Byron"]⟩, ⟨"B", 1, ["Bo Li"]⟩],
        shortlistDetails := some (.json ⟨"A", some []⟩) }
      "B" (failedResponse 404 "no such shortlist") ⟨"HTTP 404: no such shortlist", 404⟩
      rfl).2.1⟩

end ShortlistManager

/-! ## Refreshing the shortlist catalog -/

namespace ShortlistManager

/-- C21: for every prior summary list, after a successful `loadShortlists` the
stored summary list is the list the gateway returned, the empty list when the
response carries no `shortlists` field (or is not an object), with `loading`
false; so no entry of the prior list that is absent from the response is
stored. -/
theorem loadShortlists_replaces (s : State) (outcome : FetchOutcome ShortlistsData)
    (data : Payload ShortlistsData) (hok : getShortlists outcome = .ok data) :
    (loadShortlists s).2 = [Effect.getShortlists] ∧
    (loadShortlistsSettled (getShortlists outcome) (loadShortlists s).1).shortlists =
      shortlistsOrEmpty data ∧
    (∀ list, data = .json ⟨some list⟩ →
      (loadShortlistsSettled (getShortlists outcome) (loadShortlists s).1).shortlists = list) ∧
    (data = .json ⟨none⟩ →
      (loadShortlistsSettled (getShortlists outcome) (loadShortlists s).1).shortlists = []) ∧
    (∀ entry ∈ s.shortlists, entry ∉ shortlistsOrEmpty data →
      entry ∉ (loadShortlistsSettled (getShortlists outcome) (loadShortlists s).1).shortlists) ∧
    (loadShortlistsSettled (getShortlists outcome) (loadShortlists s).1).loading = false := by
  rw [hok]
  refine ⟨rfl, rfl, ?_, ?_, ?_, rfl⟩
  · intro list hd
    subst hd
    rfl
  · intro hd
    subst hd
    rfl
  · intro entry _ habsent
    exact habsent

theorem loadShortlists_replaces_witness :
    getShortlists (jsonResponse ⟨some [⟨"B", 1, ["Bo Li"]⟩]⟩) =
      .ok (.json ⟨some [⟨"B", 1, ["Bo Li"]⟩]⟩) ∧
    (loadShortlistsSettled (getShortlists (jsonResponse ⟨some [⟨"B", 1, ["Bo Li"]⟩]⟩))
      (loadShortlists { State.initial with
        shortlists := [⟨"A", 1, ["Ada Byron"]⟩, ⟨"B", 1, ["Bo Li"]⟩] }).1).shortlists =
      [⟨"B", 1, ["Bo Li"]⟩] :=
  ⟨rfl,
    (loadShortlists_replaces
      { State.initial with shortlists := [⟨"A", 1, ["Ada Byron"]⟩, ⟨"B", 1, ["Bo Li"]⟩] }
      (jsonResponse ⟨some [⟨"B", 1, ["Bo Li"]⟩]⟩) (.json ⟨some [⟨"B", 1, ["Bo Li"]⟩]⟩)
      rfl).2.2.1 _ rfl⟩

end ShortlistManager

/-! ## The skills-gap card -/

/-- C22 (as stated, refuted): a snapshot whose skills-gap object is present
with an empty shortage list and the surplus entry `Go` (demand 2, supply 5,
surplus 3), but which has no `jobStats`: the skills-gap card is not rendered at
all, so neither the no-shortage message nor the surplus entry is shown. -/
theorem skills_gap_hidden_without_job_stats :
    skillsGapCard
        { countByStage := some [("Applied", 3)], topSkills := none, jobStats := none,
          skillsGapAnalysis := some
            { skillsShortage := some [], surplusSkills := some [⟨"Go", 2, 5, 3⟩] } } =
      none := by
  decide

/-- C22 (amended): for every snapshot whose `jobStats` object is present and
whose skills-gap object is present with an empty or absent shortage list, the
skills-gap card is rendered with the message `No critical skills shortages
detected` in place of shortage cards, and with one surplus card for each entry
of the surplus list, in order (no surplus block when that list is empty or
absent); for the empty shortage list with the single surplus entry `Go` the card
holds the message and that one entry. -/
theorem skills_gap_no_shortage (analytics : Analytics) (jobStats : JobStats)
    (gap : SkillsGapAnalysis) (hjobs : analytics.jobStats = some jobStats)
    (hgap : analytics.skillsGapAnalysis = some gap)
    (hshort : gap.skillsShortage = none ∨ gap.skillsShortage = some []) :
    (∃ view, skillsGapCard analytics = some (.analysis view) ∧
      view.shortage = ShortageView.noneDetected ∧
      view.surplus.getD [] = gap.surplusSkills.getD [] ∧
      (view.surplus = none ↔ gap.surplusSkills.getD [] = [])) ∧
    skillsGapCard
        { countByStage := none, topSkills := none, jobStats := some jobStats,
          skillsGapAnalysis := some
            { skillsShortage := some [], surplusSkills := some [⟨"Go", 2, 5, 3⟩] } } =
      some (.analysis
        { shortage := ShortageView.noneDetected, surplus := some [⟨"Go", 2, 5, 3⟩] }) := by
  refine ⟨⟨skillsGapView gap, ?_, ?_, ?_, ?_⟩, rfl⟩
  · simp [skillsGapCard, hjobs, hgap]
  · rcases hshort with h | h <;> simp [skillsGapView, h]
  · cases hs : gap.surplusSkills with
    | none => simp [skillsGapView, hs]
    | some entries =>
      cases entries with
      | nil => simp [skillsGapView, hs]
      | cons e rest => simp [skillsGapView, hs]
  · cases hs : gap.surplusSkills with
    | none => simp [skillsGapView, hs]
    | some entries =>
      cases entries with
      | nil => simp [skillsGapView, hs]
      | cons e rest => simp [skillsGapView, hs]

theorem skills_gap_no_shortage_witness :
    ({ countByStage := none, topSkills := none, jobStats := some ⟨2, none, none⟩,
       skillsGapAnalysis := some
         { skillsShortage := none, surplusSkills := some [⟨"Go", 2, 5, 3⟩] } } :
      Analytics).jobStats = some ⟨2, none, none⟩ ∧
    ∃ view,
      skillsGapCard
          { countByStage := none, topSkills := none, jobStats := some ⟨2, none, none⟩,
            skillsGapAnalysis := some
              { skillsShortage := none, surplusSkills := some [⟨"Go", 2, 5, 3⟩] } } =
        some (.analysis view) ∧
      view.shortage = ShortageView.noneDetected ∧
      view.surplus.getD [] =
        ({ skillsShortage := none, surplusSkills := some [⟨"Go", 2, 5, 3⟩] } :
          SkillsGapAnalysis).surplusSkills.getD [] ∧
      (view.surplus = none ↔
        ({ skillsShortage := none, surplusSkills := some [⟨"Go", 2, 5, 3⟩] } :
          SkillsGapAnalysis).surplusSkills.getD [] = []) :=
  ⟨rfl,
    (skills_gap_no_shortage
      { countByStage := none, topSkills := none, jobStats := some ⟨2, none, none⟩,
        skillsGapAnalysis := some
          { skillsShortage := none, surplusSkills := some [⟨"Go", 2, 5, 3⟩] } }
      ⟨2, none, none⟩ { skillsShortage := none, surplusSkills := some [⟨"Go", 2, 5, 3⟩] }
      rfl rfl (Or.inl rfl)).1⟩

/-! ## Ranks of the top skills -/

theorem getRankIndicator_label (index : Nat) : (getRankIndicator index).label = index + 1 := by
  unfold getRankIndicator
  split
  · rename_i h; subst h; rfl
  · split
    · rename_i h; subst h; rfl
    · split
      · rename_i h; subst h; rfl
      · rfl

/-- C23: for every top-skills list, `skillsData` has the length of the source
list and holds its skills and counts in the same order, and the row rendered for
the entry at index `i` shows rank `i + 1` both in its badge and after `Rank #`,
whatever the counts are; for the counts `1, 9, 4`, which are not descending, the
ranks are `1, 2, 3`. -/
theorem skillsData_rank_by_position (topSkills : List (String × Nat)) :
    (skillsData (some topSkills)).length = topSkills.length ∧
    (skillsData (some topSkills)).map (fun d => (d.skill, d.count)) = topSkills ∧
    skillsData none = [] ∧
    (skillRows (skillsData (some topSkills))).length = topSkills.length ∧
    (∀ (i : Nat) (row : SkillRow), (skillRows (skillsData (some topSkills)))[i]? = some row →
      row.rank = i + 1 ∧ row.badge.label = i + 1 ∧
        topSkills[i]? = some (row.skill, row.count)) ∧
    (skillRows (skillsData (some [("Go", 1), ("React", 9), ("SQL", 4)]))).map
        (fun row => (row.skill, row.count, row.badge.label, row.rank)) =
      [("Go", 1, 1, 1), ("React", 9, 2, 2), ("SQL", 4, 3, 3)] := by
  refine ⟨by simp [skillsData], ?_, rfl, by simp [skillRows, skillsData], ?_, by decide⟩
  · simp only [skillsData, Option.getD_some, List.map_map]
    have : ((fun d : SkillDatum => (d.skill, d.count)) ∘
        fun e : String × Nat => ({ skill := e.1, count := e.2 } : SkillDatum)) = id := by
      funext e
      rfl
    rw [this, List.map_id]
  · intro i row hrow
    simp only [skillRows, skillsData, Option.getD_some, List.getElem?_mapIdx,
      List.getElem?_map] at hrow
    cases ht : topSkills[i]? with
    | none => simp [ht] at hrow
    | some e =>
      simp only [ht, Option.map_some', Option.some.injEq] at hrow
      subst hrow
      exact ⟨rfl, getRankIndicator_label i, rfl⟩

/-! ## The gateway's error shape -/

theorem handleResponse_of_not_ok {α : Type} (r : Response α) (h : r.ok = false) :
    handleResponse r =
      .error (.api ⟨"HTTP " ++ toString r.status ++ ": " ++ r.text, r.status⟩) := by
  simp [handleResponse, h]

theorem gatewayCall_of_not_ok {α : Type} (failedTo : String) (r : Response α)
    (h : r.ok = false) :
    gatewayCall failedTo (.responded r) =
      .error ⟨"HTTP " ++ toString r.status ++ ": " ++ r.text, r.status⟩ := by
  simp [gatewayCall, handleResponse_of_not_ok r h]

theorem not_ok_of_status {α : Type} (r : Response α) (hc : r.consistent)
    (hst : ¬(200 ≤ r.status ∧ r.status ≤ 299)) : r.ok = false := by
  unfold Response.consistent at hc
  rw [hc]
  exact decide_eq_false hst

/-- C24: for every response whose status is not a success status (not within
200 to 299, so that `ok` is false), `handleResponse` fails with an `ApiError`
whose `status` is the response's status code and whose message is
`HTTP <status>: <body>`, ending in the body text as it was received; and every
gateway function fails with that same `ApiError`, not a re-wrapped one. -/
theorem handleResponse_non_success {α : Type} (r : Response α) (hc : r.consistent)
    (hst : ¬(200 ≤ r.status ∧ r.status ≤ 299)) :
    handleResponse r =
      .error (.api ⟨"HTTP " ++ toString r.status ++ ": " ++ r.text, r.status⟩) ∧
    r.text.data <:+ ("HTTP " ++ toString r.status ++ ": " ++ r.text).data ∧
    (∀ failedTo : String, gatewayCall failedTo (.responded r) =
      .error ⟨"HTTP " ++ toString r.status ++ ": " ++ r.text, r.status⟩) ∧
    (∀ r : Response SearchData, r.ok = false → searchCandidates (.responded r) =
      .error ⟨"HTTP " ++ toString r.status ++ ": " ++ r.text, r.status⟩) ∧
    (∀ r : Response Unit, r.ok = false → saveShortlist (.responded r) =
      .error ⟨"HTTP " ++ toString r.status ++ ": " ++ r.text, r.status⟩) ∧
    (∀ r : Response ShortlistsData, r.ok = false → getShortlists (.responded r) =
      .error ⟨"HTTP " ++ toString r.status ++ ": " ++ r.text, r.status⟩) ∧
    (∀ r : Response ShortlistDetail, r.ok = false → getShortlistDetails (.responded r) =
      .error ⟨"HTTP " ++ toString r.status ++ ": " ++ r.text, r.status⟩) ∧
    (∀ r : Response EmailData, r.ok = false → draftEmail (.responded r) =
      .error ⟨"HTTP " ++ toString r.status ++ ": " ++ r.text, r.status⟩) ∧
    (∀ r : Response HtmlData, r.ok = false → getEmailHtmlPreview (.responded r) =
      .error ⟨"HTTP " ++ toString r.status ++ ": " ++ r.text, r.status⟩) ∧
    (∀ r : Response Analytics, r.ok = false → getAnalytics (.responded r) =
      .error ⟨"HTTP " ++ toString r.status ++ ": " ++ r.text, r.status⟩) ∧
    (∀ r : Response (List Job), r.ok = false → getJobs (.responded r) =
      .error ⟨"HTTP " ++ toString r.status ++ ": " ++ r.text, r.status⟩) ∧
    (∀ r : Response Job, r.ok = false → getJob (.responded r) =
      .error ⟨"HTTP " ++ toString r.status ++ ": " ++ r.text, r.status⟩) := by
  have hok := not_ok_of_status r hc hst
  refine ⟨handleResponse_of_not_ok r hok, ?_, fun f => gatewayCall_of_not_ok f r hok,
    fun r h => gatewayCall_of_not_ok _ r h, fun r h => gatewayCall_of_not_ok _ r h,
    fun r h => gatewayCall_of_not_ok _ r h, fun r h => gatewayCall_of_not_ok _ r h,
    fun r h => gatewayCall_of_not_ok _ r h, fun r h => gatewayCall_of_not_ok _ r h,
    fun r h => gatewayCall_of_not_ok _ r h, fun r h => gatewayCall_of_not_ok _ r h,
    fun r h => gatewayCall_of_not_ok _ r h⟩
  simp only [String.data_append]
  exact List.suffix_append _ _

theorem handleResponse_non_success_witness :
    ({ ok := false, status := 404, contentType := some "text/plain",
       text := "no such shortlist", json := .error "Unexpected token" } :
      Response ShortlistDetail).consistent ∧
    ¬(200 ≤ 404 ∧ 404 ≤ 299) ∧
    handleResponse
        ({ ok := false, status := 404, contentType := some "text/plain",
           text := "no such shortlist", json := .error "Unexpected token" } :
          Response ShortlistDetail) =
      .error (.api ⟨"HTTP 404: no such shortlist", 404⟩) :=
  ⟨rfl, by decide,
    (handleResponse_non_success
      ({ ok := false, status := 404, contentType := some "text/plain",
         text := "no such shortlist", json := .error "Unexpected token" } :
        Response ShortlistDetail) rfl (by decide)).1⟩

/-- C25: when `fetch` rejects without producing a response, every gateway
function fails with an `ApiError` whose status is `0` and whose message is the
function's own prefix followed by the message of the cause. -/
theorem gateway_transport_failure (message : String) :
    searchCandidates (.rejected message) =
      .error ⟨"Failed to search candidates: " ++ message, 0⟩ ∧
    saveShortlist (.rejected message) = .error ⟨"Failed to save shortlist: " ++ message, 0⟩ ∧
    getShortlists (.rejected message) = .error ⟨"Failed to get shortlists: " ++ message, 0⟩ ∧
    getShortlistDetails (.rejected message) =
      .error ⟨"Failed to get shortlist details: " ++ message, 0⟩ ∧
    draftEmail (.rejected message) = .error ⟨"Failed to draft email: " ++ message, 0⟩ ∧
    getEmailHtmlPreview (.rejected message) =
      .error ⟨"Failed to get HTML preview: " ++ message, 0⟩ ∧
    getAnalytics (.rejected message) = .error ⟨"Failed to get analytics: " ++ message, 0⟩ ∧
    getJobs (.rejected message) = .error ⟨"Failed to get jobs: " ++ message, 0⟩ ∧
    getJob (.rejected message) = .error ⟨"Failed to get job: " ++ message, 0⟩ :=
  ⟨rfl, rfl, rfl, rfl, rfl, rfl, rfl, rfl, rfl⟩

/-! ## Structured and opaque bodies -/

theorem handleResponse_of_ok {α : Type} (r : Response α) (h : r.ok = true) :
    handleResponse r =
      if r.declaresJson then
        match r.json with
        | .ok value => .ok (.json value)
        | .error message => .error (.other message)
      else .ok (.text r.text) := by
  unfold handleResponse Response.declaresJson
  simp only [h, Bool.not_true, Bool.false_eq_true, if_false]
  cases r.contentType with
  | none => simp
  | some contentType => rfl

/-- C26 (as stated, refuted): a successful response whose `content-type` is
`application/json` and whose body is not JSON: `handleResponse` fails with the
parser's error, so it returns no parsed value although the header contains
`application/json`. -/
theorem handleResponse_json_header_unparsable :
    ({ ok := true, status := 200, contentType := some "application/json",
       text := "<html>", json := .error "Unexpected token <" } :
      Response SearchData).declaresJson = true ∧
    handleResponse
        ({ ok := true, status := 200, contentType := some "application/json",
           text := "<html>", json := .error "Unexpected token <" } : Response SearchData) =
      .error (.other "Unexpected token <") ∧
    ¬ ∃ value,
      handleResponse
          ({ ok := true, status := 200, contentType := some "application/json",
             text := "<html>", json := .error "Unexpected token <" } : Response SearchData) =
        .ok (.json value) := by
  refine ⟨by decide, rfl, ?_⟩
  rintro ⟨value, h⟩
  have h2 :
      handleResponse
          ({ ok := true, status := 200, contentType := some "application/json",
             text := "<html>", json := .error "Unexpected token <" } : Response SearchData) =
        .error (.other "Unexpected token <") := rfl
  rw [h2] at h
  cases h

/-- C26 (amended): for every successful response, `handleResponse` hands the
body to the JSON parser iff the `content-type` header is present and contains
`application/json`: it then returns the parsed structured value when the body
parses and fails with the parser's error when it does not; otherwise (header
absent or of any other type) it returns the body as opaque text, unparsed. -/
theorem handleResponse_success {α : Type} (r : Response α) (hok : r.ok = true) :
    (r.declaresJson = true →
      handleResponse r =
        match r.json with
        | .ok value => .ok (.json value)
        | .error message => .error (.other message)) ∧
    (r.declaresJson = false → handleResponse r = .ok (.text r.text)) ∧
    (∀ value, handleResponse r = .ok (.json value) ↔
      r.declaresJson = true ∧ r.json = .ok value) ∧
    (∀ body, handleResponse r = .ok (.text body) ↔
      r.declaresJson = false ∧ body = r.text) := by
  rw [handleResponse_of_ok r hok]
  cases hd : r.declaresJson with
  | false =>
    refine ⟨fun h => (by cases h), fun _ => (by simp), fun value => (by simp), fun body => ?_⟩
    simp only [Bool.false_eq_true, if_false, Except.ok.injEq, Payload.text.injEq, true_and]
    exact eq_comm
  | true =>
    refine ⟨fun _ => (by simp), fun h => (by cases h), fun value => ?_, fun body => ?_⟩
    · cases hj : r.json <;> simp
    · cases hj : r.json <;> simp

theorem handleResponse_success_witness :
    ({ ok := true, status := 200, contentType := some "application/json; charset=utf-8",
       text := "{}", json := .ok ⟨none⟩ } : Response SearchData).ok = true ∧
    ({ ok := true, status := 200, contentType := some "application/json; charset=utf-8",
       text := "{}", json := .ok ⟨none⟩ } : Response SearchData).declaresJson = true ∧
    handleResponse
        ({ ok := true, status := 200, contentType := some "application/json; charset=utf-8",
           text := "{}", json := .ok ⟨none⟩ } : Response SearchData) =
      .ok (.json ⟨none⟩) :=
  ⟨rfl, by decide,
    (handleResponse_success
      ({ ok := true, status := 200, contentType := some "application/json; charset=utf-8",
         text := "{}", json := .ok ⟨none⟩ } : Response SearchData) rfl).1 (by decide)⟩

/-! ## Path escaping -/

theorem codeUnit_val (u : CodeUnit) : codeUnit u.val = u :=
  Fin.ext (Nat.mod_eq_of_lt u.isLt)

theorem codeUnit_val_of_lt (n : Nat) (h : n < 65536) : (codeUnit n).val = n :=
  Nat.mod_eq_of_lt h

theorem hexValue_hexDigit (d : Nat) (h : d < 16) : hexValue (hexDigit d) = some d := by
  interval_cases d <;> rfl

theorem hexDigit_unreserved (d : Nat) (h : d < 16) :
    uriUnreserved (hexDigit d).val = true := by
  interval_cases d <;> decide

theorem percentDecode_lit (c : CodeUnit) (rest : JsString) (h : c ≠ 0x25) :
    percentDecode (c :: rest) =
      match percentDecode rest with
      | some tokens => some (UriToken.lit c :: tokens)
      | none => none := by
  rw [percentDecode.eq_def]
  simp only [h, if_false]

theorem percentDecode_escape (b : Nat) (rest : JsString) (h : b < 256) :
    percentDecode (percentEscape b ++ rest) =
      match percentDecode rest with
      | some tokens => some (UriToken.byte b :: tokens)
      | none => none := by
  have h1 : b / 16 < 16 := by omega
  have h2 : b % 16 < 16 := by omega
  have hb : 16 * (b / 16) + b % 16 = b := by omega
  simp only [percentEscape, List.cons_append, List.nil_append]
  simp only [percentDecode, if_true, hexValue_hexDigit _ h1, hexValue_hexDigit _ h2]
  cases percentDecode rest <;> simp [hb]

theorem utf8Bytes_lt (n : Nat) (h : n < 0x110000) : ∀ b ∈ utf8Bytes n, b < 256 := by
  intro b hb
  unfold utf8Bytes at hb
  split_ifs at hb <;> simp at hb <;> omega

theorem percentDecode_bytes (bytes : List Nat) (hb : ∀ b ∈ bytes, b < 256)
    (rest : JsString) (tokens : List UriToken) (h : percentDecode rest = some tokens) :
    percentDecode ((bytes.map percentEscape).flatten ++ rest) =
      some (bytes.map UriToken.byte ++ tokens) := by
  induction bytes with
  | nil => simpa using h
  | cons b bs ih =>
    have hbs : ∀ x ∈ bs, x < 256 := fun x hx => hb x (List.mem_cons_of_mem _ hx)
    simp only [List.map_cons, List.flatten_cons, List.append_assoc, List.cons_append]
    rw [percentDecode_escape b _ (hb b (List.mem_cons_self _ _)), ih hbs]

theorem isContinuation_low (m : Nat) : isContinuation (0x80 + m % 64) = true := by
  simp only [isContinuation, Bool.and_eq_true, decide_eq_true_eq]
  omega

theorem utf8Decode_bytes (n : Nat) (hv : n < 0xD800 ∨ (0xDFFF < n ∧ n < 0x110000))
    (rest : List UriToken) (cs : JsString) (h : utf8DecodeFrom none rest = some cs) :
    utf8DecodeFrom none ((utf8Bytes n).map UriToken.byte ++ rest) =
      some (utf16EncodeCodePoint n ++ cs) := by
  unfold utf8Bytes
  split_ifs with h1 h2 h3
  · have hu : utf16EncodeCodePoint n = [codeUnit n] := by
      simp only [utf16EncodeCodePoint]
      rw [if_pos (by omega)]
    simp only [List.map_cons, List.map_nil, List.cons_append, List.nil_append, List.append_eq,
      utf8DecodeFrom, h1, if_true, h, Option.map_some', hu]
  · have e1 : ¬(0xC0 + n / 64 < 0x80) := by omega
    have e2 : 0xC0 ≤ 0xC0 + n / 64 ∧ 0xC0 + n / 64 < 0xE0 := by omega
    have e3 : (0xC0 + n / 64 - 0xC0) * 64 + (0x80 + n % 64 - 0x80) = n := by omega
    have e5 : 0x80 ≤ n ∧ n < 0x110000 ∧ ¬(0xD800 ≤ n ∧ n ≤ 0xDFFF) := by omega
    simp only [List.map_cons, List.map_nil, List.cons_append, List.nil_append, List.append_eq,
      utf8DecodeFrom, e1, if_false, e2, and_self, if_true, isContinuation_low, e3, e5,
      not_false_eq_true, h, Option.map_some']
  · have e1 : ¬(0xE0 + n / 4096 < 0x80) := by omega
    have e2 : ¬(0xC0 ≤ 0xE0 + n / 4096 ∧ 0xE0 + n / 4096 < 0xE0) := by omega
    have e2' : 0xE0 ≤ 0xE0 + n / 4096 ∧ 0xE0 + n / 4096 < 0xF0 := by omega
    have e3 : ((0xE0 + n / 4096 - 0xE0) * 64 + (0x80 + n / 64 % 64 - 0x80)) * 64 +
        (0x80 + n % 64 - 0x80) = n := by omega
    have e5 : 0x800 ≤ n ∧ n < 0x110000 ∧ ¬(0xD800 ≤ n ∧ n ≤ 0xDFFF) := by omega
    simp only [List.map_cons, List.map_nil, List.cons_append, List.nil_append, List.append_eq,
      utf8DecodeFrom, e1, if_false, e2, e2', and_self, if_true, isContinuation_low, e3, e5,
      not_false_eq_true, h, Option.map_some', Nat.reduceSub, OfNat.ofNat_ne_one,
      Nat.succ_ne_self]
  · have e1 : ¬(0xF0 + n / 262144 < 0x80) := by omega
    have e2 : ¬(0xC0 ≤ 0xF0 + n / 262144 ∧ 0xF0 + n / 262144 < 0xE0) := by omega
    have e2' : ¬(0xE0 ≤ 0xF0 + n / 262144 ∧ 0xF0 + n / 262144 < 0xF0) := by omega
    have e2'' : 0xF0 ≤ 0xF0 + n / 262144 ∧ 0xF0 + n / 262144 < 0xF8 := by omega
    have e3 : (((0xF0 + n / 262144 - 0xF0) * 64 + (0x80 + n / 4096 % 64 - 0x80)) * 64 +
        (0x80 + n / 64 % 64 - 0x80)) * 64 + (0x80 + n % 64 - 0x80) = n := by omega
    have e5 : 0x10000 ≤ n ∧ n < 0x110000 ∧ ¬(0xD800 ≤ n ∧ n ≤ 0xDFFF) := by omega
    simp only [List.map_cons, List.map_nil, List.cons_append, List.nil_append, List.append_eq,
      utf8DecodeFrom, e1, if_false, e2, e2', e2'', and_self, if_true, isContinuation_low, e3,
      e5, not_false_eq_true, h, Option.map_some', Nat.reduceSub, OfNat.ofNat_ne_one,
      Nat.succ_ne_self]

theorem utf16EncodeCodePoint_unit (u : CodeUnit) : utf16EncodeCodePoint u.val = [u] := by
  simp only [utf16EncodeCodePoint]
  rw [if_pos u.isLt, codeUnit_val]

theorem utf16EncodeCodePoint_pair (lead trail : CodeUnit) (hl : isLeadSurrogate lead = true)
    (ht : isTrailSurrogate trail = true) :
    utf16EncodeCodePoint (utf16SurrogatePairToCodePoint lead trail) = [lead, trail] := by
  simp only [isLeadSurrogate, isTrailSurrogate, Bool.and_eq_true, decide_eq_true_eq] at hl ht
  have h1 : ¬(utf16SurrogatePairToCodePoint lead trail < 0x10000) := by
    simp only [utf16SurrogatePairToCodePoint]
    omega
  have h2 : codeUnit (0xD800 + (utf16SurrogatePairToCodePoint lead trail - 0x10000) / 0x400) =
      lead := by
    apply Fin.ext
    simp only [utf16SurrogatePairToCodePoint, codeUnit]
    omega
  have h3 : codeUnit (0xDC00 + (utf16SurrogatePairToCodePoint lead trail - 0x10000) % 0x400) =
      trail := by
    apply Fin.ext
    simp only [utf16SurrogatePairToCodePoint, codeUnit]
    omega
  simp only [utf16EncodeCodePoint]
  rw [if_neg h1, h2, h3]

theorem pair_valid (lead trail : CodeUnit) (hl : isLeadSurrogate lead = true)
    (ht : isTrailSurrogate trail = true) :
    0xDFFF < utf16SurrogatePairToCodePoint lead trail ∧
      utf16SurrogatePairToCodePoint lead trail < 0x110000 := by
  simp only [isLeadSurrogate, isTrailSurrogate, Bool.and_eq_true, decide_eq_true_eq] at hl ht
  simp only [utf16SurrogatePairToCodePoint]
  omega

theorem unit_valid (u : CodeUnit) (hl : isLeadSurrogate u = false)
    (ht : isTrailSurrogate u = false) :
    u.val < 0xD800 ∨ (0xDFFF < u.val ∧ u.val < 0x110000) := by
  have := u.isLt
  simp only [isLeadSurrogate, isTrailSurrogate, Bool.and_eq_false_iff, decide_eq_false_iff_not]
    at hl ht
  omega

theorem decode_escapeCodePoint (n : Nat) (hv : n < 0xD800 ∨ (0xDFFF < n ∧ n < 0x110000))
    (rest : JsString) (tokens : List UriToken) (cs : JsString)
    (h1 : percentDecode rest = some tokens) (h2 : utf8DecodeFrom none tokens = some cs) :
    ∃ tokens', percentDecode (escapeCodePoint n ++ rest) = some tokens' ∧
      utf8DecodeFrom none tokens' = some (utf16EncodeCodePoint n ++ cs) := by
  have hlt : n < 0x110000 := by omega
  exact ⟨_, percentDecode_bytes _ (utf8Bytes_lt n hlt) rest tokens h1,
    utf8Decode_bytes n hv tokens cs h2⟩

theorem encodeFrom_decodes (s : JsString) :
    (∀ e, encodeFrom none s = some e →
      ∃ tokens, percentDecode e = some tokens ∧ utf8DecodeFrom none tokens = some s) ∧
    (∀ lead e, isLeadSurrogate lead = true → encodeFrom (some lead) s = some e →
      ∃ tokens, percentDecode e = some tokens ∧
        utf8DecodeFrom none tokens = some (lead :: s)) := by
  induction s with
  | nil =>
    refine ⟨?_, ?_⟩
    · intro e he
      simp only [encodeFrom, Option.some.injEq] at he
      subst he
      exact ⟨[], rfl, rfl⟩
    · intro lead e _ he
      simp [encodeFrom] at he
  | cons u rest ih =>
    obtain ⟨ihP, ihQ⟩ := ih
    refine ⟨?_, ?_⟩
    · intro e he
      simp only [encodeFrom] at he
      split_ifs at he with h1 h2 h3
      · obtain ⟨r, hr, rfl⟩ := Option.map_eq_some'.mp he
        obtain ⟨tokens, ht1, ht2⟩ := ihP r hr
        have hne : u ≠ 0x25 := by
          intro hc
          subst hc
          exact absurd h1 (by decide)
        refine ⟨UriToken.lit u :: tokens, ?_, ?_⟩
        · rw [percentDecode_lit _ _ hne, ht1]
        · simp only [utf8DecodeFrom, ht2, Option.map_some']
      · exact ihQ u e h2 he
      · obtain ⟨r, hr, rfl⟩ := Option.map_eq_some'.mp he
        obtain ⟨tokens, ht1, ht2⟩ := ihP r hr
        have hd := decode_escapeCodePoint u.val
          (unit_valid u (by simpa using h2) (by simpa using h3)) r tokens rest ht1 ht2
        rw [utf16EncodeCodePoint_unit] at hd
        simpa using hd
    · intro lead e hl he
      simp only [encodeFrom] at he
      split_ifs at he with h1
      obtain ⟨r, hr, rfl⟩ := Option.map_eq_some'.mp he
      obtain ⟨tokens, ht1, ht2⟩ := ihP r hr
      have hd := decode_escapeCodePoint _ (Or.inr (pair_valid lead u hl h1)) r tokens rest
        ht1 ht2
      rw [utf16EncodeCodePoint_pair lead u hl h1] at hd
      simpa using hd

theorem decode_encodeURIComponent (s e : JsString) (h : encodeURIComponent s = some e) :
    decodeURIComponent e = some s := by
  obtain ⟨tokens, h1, h2⟩ := (encodeFrom_decodes s).1 e h
  simp only [decodeURIComponent, h1, utf8Decode, h2]

theorem mem_escapeCodePoint (n : Nat) (hv : n < 0x110000) (x : CodeUnit)
    (hx : x ∈ escapeCodePoint n) : urlPathPlain x = true := by
  simp only [escapeCodePoint, List.mem_flatten, List.mem_map] at hx
  obtain ⟨l, ⟨b, hb, rfl⟩, hxl⟩ := hx
  have hb' := utf8Bytes_lt n hv b hb
  simp only [percentEscape, List.mem_cons, List.mem_singleton, List.not_mem_nil, or_false]
    at hxl
  rcases hxl with rfl | rfl | rfl
  · decide
  · simp only [urlPathPlain, hexDigit_unreserved _ (show b / 16 < 16 by omega), Bool.true_or]
  · simp only [urlPathPlain, hexDigit_unreserved _ (show b % 16 < 16 by omega), Bool.true_or]

theorem mem_encodeFrom (s : JsString) :
    ∀ (pending : Option CodeUnit) (e : JsString),
      (∀ lead, pending = some lead → isLeadSurrogate lead = true) →
      encodeFrom pending s = some e → ∀ x ∈ e, urlPathPlain x = true := by
  induction s with
  | nil =>
    intro pending e _ he x hx
    cases pending with
    | none =>
      simp only [encodeFrom, Option.some.injEq] at he
      subst he
      simp at hx
    | some lead => simp [encodeFrom] at he
  | cons u rest ih =>
    intro pending e hp he x hx
    cases pending with
    | none =>
      simp only [encodeFrom] at he
      split_ifs at he with h1 h2 h3
      · obtain ⟨r, hr, rfl⟩ := Option.map_eq_some'.mp he
        rcases List.mem_cons.mp hx with rfl | hx
        · simp only [urlPathPlain, h1, Bool.true_or]
        · exact ih none r (by simp) hr x hx
      · exact ih (some u) e (by simpa using h2) he x hx
      · obtain ⟨r, hr, rfl⟩ := Option.map_eq_some'.mp he
        rcases List.mem_append.mp hx with hx | hx
        · have hlt : u.val < 0x110000 := by have := u.isLt; omega
          exact mem_escapeCodePoint _ hlt x hx
        · exact ih none r (by simp) hr x hx
    | some lead =>
      simp only [encodeFrom] at he
      split_ifs at he with h1
      obtain ⟨r, hr, rfl⟩ := Option.map_eq_some'.mp he
      rcases List.mem_append.mp hx with hx | hx
      · exact mem_escapeCodePoint _ (pair_valid lead u (hp lead rfl) h1).2 x hx
      · exact ih none r (by simp) hr x hx

theorem uriUnreserved_lt (n : Nat) (h : uriUnreserved n = true) : n < 0x80 := by
  simp only [uriUnreserved, Bool.or_eq_true, Bool.and_eq_true, decide_eq_true_eq,
    List.contains_cons, List.contains_nil, beq_iff_eq, Bool.or_false] at h
  omega

theorem uriUnreserved_not_surrogate (u : CodeUnit) (h : uriUnreserved u.val = true) :
    isLeadSurrogate u = false ∧ isTrailSurrogate u = false := by
  have hlt := uriUnreserved_lt _ h
  simp only [isLeadSurrogate, isTrailSurrogate, Bool.and_eq_false_iff, decide_eq_false_iff_not]
  omega

theorem encodeFrom_isSome (s : JsString) :
    ∀ pending : Option CodeUnit,
      (encodeFrom pending s).isSome = wellFormedFrom pending.isSome s := by
  induction s with
  | nil =>
    intro pending
    cases pending <;> rfl
  | cons u rest ih =>
    intro pending
    cases pending with
    | none =>
      simp only [encodeFrom, wellFormedFrom, Option.isSome_none]
      by_cases h1 : uriUnreserved u.val = true
      · obtain ⟨h2, h3⟩ := uriUnreserved_not_surrogate u h1
        simp only [h1, h2, h3, if_true, Bool.false_eq_true, if_false, Option.isSome_map']
        exact ih none
      · by_cases h2 : isLeadSurrogate u = true
        · simp only [h1, h2, if_true, Bool.false_eq_true, if_false]
          exact ih (some u)
        · by_cases h3 : isTrailSurrogate u = true
          · simp only [h1, h2, h3, if_true, Bool.false_eq_true, if_false, Option.isSome_none]
          · simp only [h1, h2, h3, Bool.false_eq_true, if_false, Option.isSome_map']
            exact ih none
    | some lead =>
      simp only [encodeFrom, wellFormedFrom, Option.isSome_some]
      split_ifs with h1
      · simp only [Option.isSome_map']
        exact ih none
      · rfl

theorem wellFormedFrom_utf16EncodeCodePoint (n : Nat)
    (hv : n < 0xD800 ∨ (0xDFFF < n ∧ n < 0x110000)) (r : JsString) :
    wellFormedFrom false (utf16EncodeCodePoint n ++ r) = wellFormedFrom false r := by
  unfold utf16EncodeCodePoint
  split_ifs with h
  · have h1 : isLeadSurrogate (codeUnit n) = false := by
      simp only [isLeadSurrogate, codeUnit, Bool.and_eq_false_iff, decide_eq_false_iff_not]
      omega
    have h2 : isTrailSurrogate (codeUnit n) = false := by
      simp only [isTrailSurrogate, codeUnit, Bool.and_eq_false_iff, decide_eq_false_iff_not]
      omega
    simp only [List.cons_append, List.nil_append, List.append_eq, wellFormedFrom, h1, h2,
      Bool.false_eq_true, if_false]
  · have h1 : isLeadSurrogate (codeUnit (0xD800 + (n - 0x10000) / 0x400)) = true := by
      simp only [isLeadSurrogate, codeUnit, Bool.and_eq_true, decide_eq_true_eq]
      omega
    have h2 : isTrailSurrogate (codeUnit (0xDC00 + (n - 0x10000) % 0x400)) = true := by
      simp only [isTrailSurrogate, codeUnit, Bool.and_eq_true, decide_eq_true_eq]
      omega
    simp only [List.cons_append, List.nil_append, List.append_eq, wellFormedFrom, h1, h2,
      if_true]

theorem char_toNat_valid (c : Char) :
    c.toNat < 0xD800 ∨ (0xDFFF < c.toNat ∧ c.toNat < 0x110000) := by
  have h := c.valid
  simpa [UInt32.isValidChar, Nat.isValidChar, Char.toNat] using h

theorem isWellFormed_utf16 (s : String) : isWellFormed (utf16 s) = true := by
  unfold isWellFormed utf16
  induction s.data with
  | nil => rfl
  | cons c cs ih =>
    simp only [List.map_cons, List.flatten_cons]
    rw [wellFormedFrom_utf16EncodeCodePoint _ (char_toNat_valid c)]
    exact ih

theorem encodeURIComponent_eq_none_iff (s : JsString) :
    encodeURIComponent s = none ↔ isWellFormed s = false := by
  have h := encodeFrom_isSome s none
  simp only [Option.isSome_none] at h
  unfold encodeURIComponent isWellFormed
  rw [← h]
  cases encodeFrom none s <;> simp

theorem urlPathPlain_lt (u : CodeUnit) (h : urlPathPlain u = true) : u.val < 0x80 := by
  simp only [urlPathPlain, Bool.or_eq_true, beq_iff_eq] at h
  rcases h with h | h
  · exact uriUnreserved_lt _ h
  · subst h
    decide

theorem urlPathPlain_ne_slash (u : CodeUnit) (h : urlPathPlain u = true) : u ≠ 0x2F := by
  intro hc
  subst hc
  exact absurd h (by decide)

theorem urlPathPlain_not_reserved (u : CodeUnit) (h : urlPathPlain u = true) :
    u ∉ utf16 "/?#" := by
  have hlist : utf16 "/?#" = [0x2F, 0x3F, 0x23] := by decide
  rw [hlist]
  intro hmem
  simp only [List.mem_cons, List.mem_singleton, List.not_mem_nil, or_false] at hmem
  rcases hmem with rfl | rfl | rfl <;> exact absurd h (by decide)

theorem pathState_plain (xs : JsString) (hx : ∀ u ∈ xs, urlPathPlain u = true) :
    ∀ (path : List JsString) (buffer : JsString),
      pathState path buffer xs = some (closeSegment path (buffer ++ xs) false) := by
  induction xs with
  | nil =>
    intro path buffer
    simp only [pathState, List.append_nil]
  | cons c rest ih =>
    intro path buffer
    have hc := hx c (List.mem_cons_self _ _)
    have hrest : ∀ u ∈ rest, urlPathPlain u = true :=
      fun u hu => hx u (List.mem_cons_of_mem _ hu)
    simp only [List.append_eq, pathState, urlPathPlain_ne_slash c hc, hc, if_false, if_true]
    rw [ih hrest, List.append_assoc, List.singleton_append]

theorem pathState_slash (xs : JsString) (hx : ∀ u ∈ xs, urlPathPlain u = true)
    (rest : JsString) :
    ∀ (path : List JsString) (buffer : JsString),
      pathState path buffer (xs ++ 0x2F :: rest) =
        pathState (closeSegment path (buffer ++ xs) true) [] rest := by
  induction xs with
  | nil =>
    intro path buffer
    simp only [List.nil_append, pathState, if_true, List.append_nil]
  | cons c cs ih =>
    intro path buffer
    have hc := hx c (List.mem_cons_self _ _)
    have hcs : ∀ u ∈ cs, urlPathPlain u = true := fun u hu => hx u (List.mem_cons_of_mem _ hu)
    simp only [List.cons_append, List.append_eq, pathState, urlPathPlain_ne_slash c hc, hc,
      if_false, if_true]
    rw [ih hcs, List.append_assoc, List.singleton_append]

theorem requestPath_shortlist (segment : JsString)
    (hx : ∀ u ∈ segment, urlPathPlain u = true) :
    requestPath (utf16 (API_BASE_URL ++ "/shortlist/") ++ segment) =
      some (serializePath (closeSegment [utf16 "api", utf16 "shortlist"] segment false)) := by
  have hlit : utf16 (API_BASE_URL ++ "/shortlist/") =
      utf16 "http://localhost:8000/" ++ (utf16 "api" ++ 0x2F :: (utf16 "shortlist" ++ [0x2F])) := by
    rfl
  have hlen : (utf16 "http://localhost:8000/").length = 22 := by rfl
  have hapi : ∀ u ∈ utf16 "api", urlPathPlain u = true :=
    List.all_eq_true.mp (by decide)
  have hshort : ∀ u ∈ utf16 "shortlist", urlPathPlain u = true :=
    List.all_eq_true.mp (by decide)
  have h1 : closeSegment [] ([] ++ utf16 "api") true = [utf16 "api"] := by decide
  have h2 : closeSegment [utf16 "api"] ([] ++ utf16 "shortlist") true =
      [utf16 "api", utf16 "shortlist"] := by decide
  unfold requestPath
  rw [hlit, List.append_assoc, List.take_left' hlen, List.drop_left' hlen, if_pos rfl,
    List.append_assoc, List.cons_append, List.append_assoc, List.singleton_append,
    pathState_slash _ hapi, h1, pathState_slash _ hshort, h2, pathState_plain _ hx,
    List.nil_append, Option.map_some']

theorem dot_segment_name (name segment : JsString) (he : encodeURIComponent name = some segment) :
    (isSingleDot segment = true → name = utf16 ".") ∧
    (isDoubleDot segment = true → name = utf16 "..") := by
  have hd := decode_encodeURIComponent name segment he
  constructor
  · intro h
    simp only [isSingleDot, List.contains_cons, List.contains_nil, Bool.or_false,
      Bool.or_eq_true, beq_iff_eq] at h
    have h1 : decodeURIComponent segment = some (utf16 ".") := by
      rcases h with h | h | h <;> (subst h; decide)
    rw [hd] at h1
    exact Option.some.inj h1
  · intro h
    simp only [isDoubleDot, List.contains_cons, List.contains_nil, Bool.or_false,
      Bool.or_eq_true, beq_iff_eq] at h
    have h1 : decodeURIComponent segment = some (utf16 "..") := by
      rcases h with h | h | h | h | h | h | h | h | h <;> (subst h; decide)
    rw [hd] at h1
    exact Option.some.inj h1

theorem getShortlistDetailsPath_of_segment (name segment : JsString)
    (he : encodeURIComponent name = some segment) (h1 : name ≠ utf16 ".")
    (h2 : name ≠ utf16 "..") :
    getShortlistDetailsPath name = some (utf16 "/api/shortlist/" ++ segment) := by
  have hlit : utf16 "/api/shortlist/" =
      (0x2F :: utf16 "api") ++ ((0x2F :: utf16 "shortlist") ++ [0x2F]) := by
    rfl
  have hplain := mem_encodeFrom name none segment (by simp) he
  have hdot := dot_segment_name name segment he
  have hs : isSingleDot segment = false := by
    cases h : isSingleDot segment with
    | false => rfl
    | true => exact absurd (hdot.1 h) h1
  have hd : isDoubleDot segment = false := by
    cases h : isDoubleDot segment with
    | false => rfl
    | true => exact absurd (hdot.2 h) h2
  simp only [getShortlistDetailsPath, getShortlistDetailsUrl, he, Option.map_some',
    requestPath_shortlist segment hplain, closeSegment, hs, hd, Bool.false_eq_true, if_false,
    List.cons_append, List.nil_append, serializePath, List.map_cons, List.map_nil,
    List.flatten_cons, List.flatten_nil, List.append_nil, hlit, List.append_assoc,
    List.singleton_append]

theorem getShortlistDetailsPath_injective (a b : JsString) (ha1 : a ≠ utf16 ".")
    (ha2 : a ≠ utf16 "..") (hb1 : b ≠ utf16 ".") (hb2 : b ≠ utf16 "..")
    (hwf : isWellFormed b = true)
    (h : getShortlistDetailsPath a = getShortlistDetailsPath b) : a = b := by
  cases hea : encodeURIComponent a with
  | none =>
    cases heb : encodeURIComponent b with
    | none =>
      rw [(encodeURIComponent_eq_none_iff b).mp heb] at hwf
      cases hwf
    | some sb =>
      rw [getShortlistDetailsPath_of_segment b sb heb hb1 hb2] at h
      simp [getShortlistDetailsPath, getShortlistDetailsUrl, hea] at h
  | some sa =>
    cases heb : encodeURIComponent b with
    | none =>
      rw [(encodeURIComponent_eq_none_iff b).mp heb] at hwf
      cases hwf
    | some sb =>
      rw [getShortlistDetailsPath_of_segment a sa hea ha1 ha2,
        getShortlistDetailsPath_of_segment b sb heb hb1 hb2] at h
      have hs : sa = sb := List.append_cancel_left (Option.some.inj h)
      subst hs
      have h1 := decode_encodeURIComponent a sa hea
      have h2 := decode_encodeURIComponent b sa heb
      rw [h1] at h2
      exact Option.some.inj h2

/-- C27 (as stated), refuted twice. The names `.` and `..` are left as they
are by `encodeURIComponent`, and the URL parser of `fetch` removes them as dot
segments: the name `.` requests the path `/api/shortlist/` as the empty name
does, and `..` requests `/api/`. The name made of the single unpaired surrogate
`0xD800` is a string value for which `encodeURIComponent` throws, so there is no
request for it at all. -/
theorem getShortlistDetails_dot_and_surrogate_names :
    utf16 "." ≠ utf16 "" ∧
    getShortlistDetailsUrl (utf16 ".") = some (utf16 "http://localhost:8000/api/shortlist/.") ∧
    getShortlistDetailsPath (utf16 ".") = some (utf16 "/api/shortlist/") ∧
    getShortlistDetailsPath (utf16 "") = some (utf16 "/api/shortlist/") ∧
    getShortlistDetailsPath (utf16 "..") = some (utf16 "/api/") ∧
    isWellFormed (utf16 ".") = true ∧ isWellFormed (utf16 "..") = true ∧
    encodeURIComponent [0xD800] = none ∧ getShortlistDetailsUrl [0xD800] = none ∧
    getShortlistDetailsPath [0xD800] = none := by
  decide

/-- C27 (amended): for every shortlist name without an unpaired surrogate,
`getShortlistDetails` hands to `fetch` the URL `API_BASE_URL/shortlist/`
followed by `encodeURIComponent(name)`; the escaped segment contains none of
`/`, `?`, `#` and `decodeURIComponent` gives the name back from it; when the
name is neither `.` nor `..` the path requested is `/api/shortlist/` followed
by that segment, and no other name that is neither `.` nor `..` requests the
same path. For a name with an unpaired surrogate `encodeURIComponent` throws:
nothing is fetched and the call fails with an `ApiError` of status `0` whose
message is `Failed to get shortlist details: ` followed by the message of the
`URIError`. -/
theorem getShortlistDetails_request_path (uriError : String)
    (network : JsString → FetchOutcome ShortlistDetail) (name : JsString) :
    (isWellFormed name = false →
      getShortlistDetailsCall uriError network name =
        ([], .error ⟨"Failed to get shortlist details: " ++ uriError, 0⟩)) ∧
    (isWellFormed name = true →
      ∃ segment, encodeURIComponent name = some segment ∧
        getShortlistDetailsCall uriError network name =
          ([utf16 (API_BASE_URL ++ "/shortlist/") ++ segment],
            getShortlistDetails (network (utf16 (API_BASE_URL ++ "/shortlist/") ++ segment))) ∧
        (∀ u ∈ segment, u ∉ utf16 "/?#") ∧
        decodeURIComponent segment = some name ∧
        (name ≠ utf16 "." → name ≠ utf16 ".." →
          getShortlistDetailsPath name = some (utf16 "/api/shortlist/" ++ segment) ∧
          ∀ other, other ≠ utf16 "." → other ≠ utf16 ".." →
            getShortlistDetailsPath other = getShortlistDetailsPath name → other = name)) := by
  constructor
  · intro h
    have he := (encodeURIComponent_eq_none_iff name).mpr h
    simp only [getShortlistDetailsCall, getShortlistDetailsUrl, he, Option.map_none']
    rfl
  · intro h
    cases he : encodeURIComponent name with
    | none =>
      rw [(encodeURIComponent_eq_none_iff name).mp he] at h
      cases h
    | some segment =>
      refine ⟨segment, rfl, ?_, ?_, decode_encodeURIComponent name segment he, ?_⟩
      · simp only [getShortlistDetailsCall, getShortlistDetailsUrl, he, Option.map_some']
      · intro u hu
        exact urlPathPlain_not_reserved u (mem_encodeFrom name none segment (by simp) he u hu)
      · intro h1 h2
        refine ⟨getShortlistDetailsPath_of_segment name segment he h1 h2, ?_⟩
        intro other ho1 ho2 hpath
        exact getShortlistDetailsPath_injective other name ho1 ho2 h1 h2 h hpath

theorem getShortlistDetails_request_path_witness :
    isWellFormed (utf16 "Top 5/Q3") = true ∧ utf16 "Top 5/Q3" ≠ utf16 "." ∧
    utf16 "Top 5/Q3" ≠ utf16 ".." ∧
    getShortlistDetailsPath (utf16 "Top 5/Q3") =
      some (utf16 "/api/shortlist/" ++ utf16 "Top%205%2FQ3") ∧
    isWellFormed [0xD800] = false ∧
    getShortlistDetailsCall "URI malformed" (fun _ => jsonResponse ⟨"Top 5/Q3", some []⟩)
        [0xD800] =
      ([], .error ⟨"Failed to get shortlist details: URI malformed", 0⟩) := by
  obtain ⟨segment, he, _, _, _, hpath⟩ :=
    (getShortlistDetails_request_path "URI malformed"
      (fun _ => jsonResponse ⟨"Top 5/Q3", some []⟩) (utf16 "Top 5/Q3")).2 (by decide)
  have hs : encodeURIComponent (utf16 "Top 5/Q3") = some (utf16 "Top%205%2FQ3") := by decide
  rw [hs] at he
  cases he
  exact ⟨by decide, by decide, by decide, (hpath (by decide) (by decide)).1, by decide,
    (getShortlistDetails_request_path "URI malformed"
      (fun _ => jsonResponse ⟨"Top 5/Q3", some []⟩) [0xD800]).1 (by decide)⟩

/-! ## One toggle -/

/-- C28: for every selection and identifiers `i` and `j` with `j` different
from `i`, after `toggleCandidateSelection(i)` the identifier `i` is a member iff
it was not one before, and `j` is a member iff it was one before. -/
theorem toggle_flips_only_target (s : SearchState) (i j : Nat) (hji : j ≠ i) :
    (i ∈ (toggleCandidateSelection i s).selectedCandidates ↔ i ∉ s.selectedCandidates) ∧
    (j ∈ (toggleCandidateSelection i s).selectedCandidates ↔ j ∈ s.selectedCandidates) := by
  constructor
  · rw [mem_toggle]
    simp
  · rw [mem_toggle]
    simp [hji]

theorem toggle_flips_only_target_witness :
    (8 : Nat) ≠ 3 ∧
    (3 ∈ (toggleCandidateSelection 3
        { SearchState.initial with selectedCandidates := [3, 8] }).selectedCandidates ↔
      3 ∉ ({ SearchState.initial with selectedCandidates := [3, 8] } :
        SearchState).selectedCandidates) ∧
    (8 ∈ (toggleCandidateSelection 3
        { SearchState.initial with selectedCandidates := [3, 8] }).selectedCandidates ↔
      8 ∈ ({ SearchState.initial with selectedCandidates := [3, 8] } :
        SearchState).selectedCandidates) :=
  ⟨by decide,
    toggle_flips_only_target { SearchState.initial with selectedCandidates := [3, 8] } 3 8
      (by decide)⟩

/-! ## No identifier is selected twice -/

theorem toggle_nodup (i : Nat) (s : SearchState) (h : s.selectedCandidates.Nodup) :
    (toggleCandidateSelection i s).selectedCandidates.Nodup := by
  by_cases hi : i ∈ s.selectedCandidates
  · have hc : s.selectedCandidates.contains i = true := by simpa using hi
    simp only [toggleCandidateSelection, hc, if_true]
    exact h.filter _
  · have hc : s.selectedCandidates.contains i = false := by simpa using hi
    simp only [toggleCandidateSelection, hc, Bool.false_eq_true, if_false]
    rw [List.nodup_append]
    refine ⟨h, List.nodup_singleton i, ?_⟩
    intro a ha hb
    rw [List.mem_singleton] at hb
    subst hb
    exact hi ha

theorem step_selection_nodup (w : Session) (e : Event)
    (h : w.ui.selectedCandidates.Nodup) : (w.step e).ui.selectedCandidates.Nodup := by
  cases e with
  | changeQuery value => exact h
  | submitSearch =>
    simp only [Session.step, emit_ui]
    unfold handleSearch
    split
    · exact h
    · exact List.nodup_nil
  | searchSettles k outcome =>
    simp only [Session.step]
    split
    · simp only [handleSearchSettled]
      cases searchCandidates outcome <;> exact h
    · exact h
  | clickCandidate i => exact toggle_nodup i w.ui h
  | showShortlistForm => exact h
  | changeShortlistName value => exact h
  | cancelShortlistForm => exact h
  | submitShortlist =>
    simp only [Session.step, emit_ui, handleSaveShortlist_eq]
    exact h
  | saveSettles k outcome =>
    simp only [Session.step]
    cases hk : w.saves[k]? with
    | none => exact h
    | some pending =>
      simp only [emit_ui, handleSaveShortlistSettled]
      cases saveShortlist outcome with
      | ok data => exact List.nodup_nil
      | error err => exact h
  | timerFires k =>
    simp only [Session.step]
    cases hk : w.timers[k]? with
    | none => exact h
    | some pending =>
      cases hp : pending.1
      simp only [hp]
      exact h

theorem run_selection_nodup (events : List Event) :
    ∀ w : Session, w.ui.selectedCandidates.Nodup →
      (w.run events).ui.selectedCandidates.Nodup := by
  induction events with
  | nil => intro w h; exact h
  | cons e rest ih =>
    intro w h
    exact ih (w.step e) (step_selection_nodup w e h)

/-- C29: in the state reached from the freshly mounted component by any
sequence of events, toggles of arbitrary identifiers, search submits and
shortlist saves included, `selectedCandidates` holds no identifier more than
once; so a request sent by `handleSaveShortlist` from that state carries the
selection itself, without duplicates, and its length is the number of distinct
selected identifiers. -/
theorem selection_has_no_duplicates (events : List Event) :
    (Session.initial.run events).ui.selectedCandidates.Nodup ∧
    ∀ (name : String) (ids : List Nat),
      Effect.saveShortlist name ids ∈ (handleSaveShortlist (Session.initial.run events).ui).2 →
        ids = (Session.initial.run events).ui.selectedCandidates ∧ ids.Nodup ∧
          ids.length = ids.toFinset.card := by
  have hn := run_selection_nodup events Session.initial List.nodup_nil
  refine ⟨hn, ?_⟩
  intro name ids hmem
  rw [handleSaveShortlist_eq] at hmem
  simp only at hmem
  split at hmem
  · simp only [List.mem_singleton, Effect.saveShortlist.injEq] at hmem
    obtain ⟨_, hids⟩ := hmem
    subst hids
    exact ⟨rfl, hn, (List.toFinset_card_of_nodup hn).symm⟩
  · cases hmem

theorem selection_has_no_duplicates_witness :
    Effect.saveShortlist "Finalists" [0, 3] ∈
      (handleSaveShortlist (Session.initial.run
        [.changeQuery "react", .submitSearch,
          .searchSettles 0 (jsonResponse ⟨some [⟨0, "Ada", "Byron"⟩, ⟨3, "Al", "Turing"⟩]⟩),
          .clickCandidate 3, .clickCandidate 0, .clickCandidate 3, .clickCandidate 3,
          .showShortlistForm, .changeShortlistName "Finalists"]).ui).2 ∧
    [0, 3] = (Session.initial.run
        [.changeQuery "react", .submitSearch,
          .searchSettles 0 (jsonResponse ⟨some [⟨0, "Ada", "Byron"⟩, ⟨3, "Al", "Turing"⟩]⟩),
          .clickCandidate 3, .clickCandidate 0, .clickCandidate 3, .clickCandidate 3,
          .showShortlistForm, .changeShortlistName "Finalists"]).ui.selectedCandidates ∧
    ([0, 3] : List Nat).Nodup ∧ ([0, 3] : List Nat).length = ([0, 3] : List Nat).toFinset.card :=
  ⟨by decide,
    (selection_has_no_duplicates
      [.changeQuery "react", .submitSearch,
        .searchSettles 0 (jsonResponse ⟨some [⟨0, "Ada", "Byron"⟩, ⟨3, "Al", "Turing"⟩]⟩),
        .clickCandidate 3, .clickCandidate 0, .clickCandidate 3, .clickCandidate 3,
        .showShortlistForm, .changeShortlistName "Finalists"]).2 "Finalists" [0, 3]
      (by decide)⟩

/-! ## Percentages and the total, within exact integers -/

/-- C30 (as stated, refuted): the counts `2 ^ 53` and `1` are non-negative
integers with a positive total, but their sum `2 ^ 53 + 1` is not a double:
`totalCandidates` is `2 ^ 53`, one less than the sum of the entries' counts. -/
theorem totalCandidates_rounds :
    (pipelineData [("A", 2 ^ 53), ("B", 1)]).map (fun d => d.count) =
      [JsNum.fin (2 ^ 53 : Nat), JsNum.fin (1 : Nat)] ∧
    totalCandidates [("A", 2 ^ 53), ("B", 1)] = JsNum.fin (2 ^ 53 : Nat) ∧
    totalCandidates [("A", 2 ^ 53), ("B", 1)] ≠ JsNum.fin ((2 ^ 53 + 1 : Nat) : ℚ) := by
  decide!

/-- C30 (amended): for non-negative integer stage counts whose total is
positive and below `2 ^ 53`, `pipelineData` has exactly one entry per stage, in
the order of the stages and with their counts, every percentage in it is an
integer between 0 and 100 inclusive, and `totalCandidates` is the sum of the
entries' counts. -/
theorem pipelineData_within_percent (l : List (String × Nat))
    (hpos : 0 < (l.map Prod.snd).sum) (h53 : (l.map Prod.snd).sum < 2 ^ 53) :
    (pipelineData l).length = l.length ∧
    (pipelineData l).map (fun d => d.stage) = l.map Prod.fst ∧
    (pipelineData l).map (fun d => d.count) = l.map (fun e => JsNum.fin (e.2 : Nat)) ∧
    (∀ d ∈ pipelineData l, ∃ p : Nat, d.percentage = JsNum.fin (p : Nat) ∧ p ≤ 100) ∧
    totalCandidates l = JsNum.fin (((l.map Prod.snd).sum : Nat) : ℚ) := by
  have htot := stageTotal_eq l h53
  refine ⟨by simp [pipelineData], by simp [pipelineData_eq_map, Function.comp_def], ?_, ?_,
    htot⟩
  · rw [pipelineData_eq_map, List.map_map]
    apply List.map_congr_left
    intro e he
    exact ofNat_eq_fin e.2 (lt_of_le_of_lt (le_sum_of_mem l e he) h53)
  · intro d hd
    rw [pipelineData_eq_map] at hd
    obtain ⟨e, he, rfl⟩ := List.mem_map.1 hd
    obtain ⟨p, hp, h0, h100, _⟩ :=
      percentage_bound e.2 _ hpos h53 (le_sum_of_mem l e he)
    refine ⟨p.toNat, ?_, by omega⟩
    have hcast : ((p.toNat : Nat) : ℚ) = (p : ℚ) := by
      have h1 : ((p.toNat : Int) : ℚ) = (p : ℚ) := by
        rw [Int.toNat_of_nonneg h0]
      rw [← h1]
      exact (Int.cast_natCast _).symm
    show stagePercentage l e.2 = JsNum.fin ((p.toNat : Nat) : ℚ)
    rw [hcast, ← hp, stagePercentage, htot]

theorem pipelineData_within_percent_witness :
    0 < ([("A", 23), ("B", 17), ("C", 0)].map Prod.snd).sum ∧
    ([("A", 23), ("B", 17), ("C", 0)].map Prod.snd).sum < 2 ^ 53 ∧
    totalCandidates [("A", 23), ("B", 17), ("C", 0)] =
      JsNum.fin ((([("A", 23), ("B", 17), ("C", 0)].map Prod.snd).sum : Nat) : ℚ) :=
  ⟨by decide, by decide,
    (pipelineData_within_percent [("A", 23), ("B", 17), ("C", 0)] (by decide)
      (by decide)).2.2.2.2⟩

end RHagent
